import Mathlib

/-!
# Verification of the chronik TypeScript client layer

A shallow embedding, in Lean 4, of the chronik client library
(`ts/chronik-client/index.ts` and the generated protobuf codec
`ts/chronik-client/chronik.ts`), together with a model of the reference
wire schema (`chronik-http/proto/chronik.proto`).

Modelling conventions:
* JS `Uint8Array` values are `List Nat`, each entry a byte value `< 256`.
* JS `string` values holding protobuf `string` fields are modelled by their
  UTF-8 byte sequences (`List Nat`); hex strings at the converted client
  boundary are modelled as `List Char`.
* JS `number` fields declared `uint32` in the schema are `Nat`;
  `int32`/`int64` (`Long`) fields are `Int`; enum-typed fields are `Int`
  because the generated decoder stores the raw `reader.int32()` value.
* The protobufjs `Writer`/`Reader` calls are modelled byte-for-byte:
  a writer call appends bytes, a reader call consumes a prefix of a
  `List Nat` and either fails (`none`, where protobufjs throws) or returns
  the parsed value and the rest of the stream.
-/

namespace Chronik

/-! ## Protobuf base-128 varints (protobufjs `Writer`/`Reader`) -/

/-- One step bound for the varint writer: protobufjs emits at most 10
bytes per varint (64-bit values); `varintAux` is given fuel 10, which is
exact for every value `< 2^70` and in particular for all 64-bit values. -/
def varintAux : Nat → Nat → List Nat
  | 0, _ => []
  | fuel + 1, n => if n < 128 then [n] else (n % 128 + 128) :: varintAux fuel (n / 128)

/-- `writer.uint32(n)` / the varint core of `writer.int64`/`uint64`:
little-endian base-128 with continuation bit. -/
def varint (n : Nat) : List Nat :=
  varintAux 10 n

/-- `reader.uint32()` core: read a base-128 varint.  Returns the full value
and the remaining bytes; `none` at end of input (protobufjs throws
`RangeError: index out of range`). -/
def parseVarint : List Nat → Option (Nat × List Nat)
  | [] => none
  | b :: rest =>
    if b < 128 then some (b, rest)
    else
      match parseVarint rest with
      | none => none
      | some (n, rest') => some (b % 128 + 128 * n, rest')

theorem parseVarint_length : ∀ {l : List Nat} {n : Nat} {r : List Nat},
    parseVarint l = some (n, r) → r.length < l.length := by
  intro l
  induction l with
  | nil => intro n r h; simp [parseVarint] at h
  | cons b rest ih =>
    intro n r h
    simp only [parseVarint] at h
    split at h
    · cases h; simp
    · cases hrec : parseVarint rest with
      | none => rw [hrec] at h; cases h
      | some p =>
        rw [hrec] at h
        cases h
        have := ih hrec
        simp only [List.length_cons]
        omega

theorem parseVarint_varintAux : ∀ (fuel n : Nat), n < 128 ^ (fuel + 1) →
    ∀ (rest : List Nat), parseVarint (varintAux (fuel + 1) n ++ rest) = some (n, rest) := by
  intro fuel
  induction fuel with
  | zero =>
    intro n hn rest
    have h : n < 128 := by simpa using hn
    simp [varintAux, parseVarint, h]
  | succ fuel ih =>
    intro n hn rest
    by_cases h : n < 128
    · simp [varintAux, parseVarint, h]
    · have hdiv : n / 128 < 128 ^ (fuel + 1) := by
        rw [Nat.div_lt_iff_lt_mul (by norm_num)]
        calc n < 128 ^ (fuel + 1 + 1) := hn
        _ = 128 ^ (fuel + 1) * 128 := by ring
      rw [show varintAux (fuel + 1 + 1) n = (n % 128 + 128) :: varintAux (fuel + 1) (n / 128) by
        simp [varintAux, h]]
      rw [List.cons_append]
      have hge : ¬ (n % 128 + 128 < 128) := by omega
      simp only [parseVarint, if_neg hge, ih (n / 128) hdiv rest]
      have h1 : (n % 128 + 128) % 128 = n % 128 := by omega
      rw [h1]
      have h2 : n % 128 + 128 * (n / 128) = n := by omega
      rw [h2]

/-- Parsing the encoding of any 64-bit-representable value recovers it. -/
theorem parseVarint_varint {n : Nat} (hn : n < 2 ^ 64) (rest : List Nat) :
    parseVarint (varint n ++ rest) = some (n, rest) := by
  have : n < 128 ^ (9 + 1) := by
    calc n < 2 ^ 64 := hn
    _ ≤ 128 ^ (9 + 1) := by norm_num
  exact parseVarint_varintAux 9 n this rest

/-! ## Two's-complement views used by the writer and reader -/

/-- The 64-bit two's-complement image used by `writer.int32`/`writer.int64`
(protobufjs sign-extends negative values to 64 bits). -/
def i64 (v : Int) : Nat :=
  (v % (2 ^ 64 : Int)).toNat

/-- `reader.int32()`: keep the low 32 bits and reinterpret as signed. -/
def decodeS32 (n : Nat) : Int :=
  if n % 2 ^ 32 < 2 ^ 31 then ((n % 2 ^ 32 : Nat) : Int)
  else ((n % 2 ^ 32 : Nat) : Int) - 2 ^ 32

/-- `reader.int64()`: keep the low 64 bits and reinterpret as signed. -/
def decodeS64 (n : Nat) : Int :=
  if n % 2 ^ 64 < 2 ^ 63 then ((n % 2 ^ 64 : Nat) : Int)
  else ((n % 2 ^ 64 : Nat) : Int) - 2 ^ 64

/-! ## Reader primitives (protobufjs `Reader`) -/

/-- `reader.uint32()`: varint truncated to 32 bits. -/
def readUint32 (l : List Nat) : Option (Nat × List Nat) :=
  match parseVarint l with
  | none => none
  | some (n, r) => some (n % 2 ^ 32, r)

/-- `reader.int32()`. -/
def readInt32 (l : List Nat) : Option (Int × List Nat) :=
  match parseVarint l with
  | none => none
  | some (n, r) => some (decodeS32 n, r)

/-- `reader.int64()`. -/
def readInt64 (l : List Nat) : Option (Int × List Nat) :=
  match parseVarint l with
  | none => none
  | some (n, r) => some (decodeS64 n, r)

/-- `reader.uint64()`. -/
def readUint64 (l : List Nat) : Option (Nat × List Nat) :=
  match parseVarint l with
  | none => none
  | some (n, r) => some (n % 2 ^ 64, r)

/-- `reader.bool()`: a varint, true iff nonzero. -/
def readBool (l : List Nat) : Option (Bool × List Nat) :=
  match parseVarint l with
  | none => none
  | some (n, r) => some (n ≠ 0, r)

/-- `reader.bytes()`: varint length followed by that many payload bytes. -/
def readBytes (l : List Nat) : Option (List Nat × List Nat) :=
  match parseVarint l with
  | none => none
  | some (n, r) => if n ≤ r.length then some (r.take n, r.drop n) else none

/-- `reader.skipType(wireType)`.  Wire types 0/1/2/5 as in protobufjs;
the deprecated group wire types 3/4 (never produced by this codec, and
rejected by protobufjs for any schema without groups) are modelled as a
parse failure. -/
def skipType (wireType : Nat) (l : List Nat) : Option (List Nat) :=
  if wireType = 0 then
    match parseVarint l with
    | none => none
    | some (_, r) => some r
  else if wireType = 1 then (if 8 ≤ l.length then some (l.drop 8) else none)
  else if wireType = 2 then
    match readBytes l with
    | none => none
    | some (_, r) => some r
  else if wireType = 5 then (if 4 ≤ l.length then some (l.drop 4) else none)
  else none

/-! ## Writer helpers shared by every generated `encode` function -/

/-- `writer.bytes(bs)` / `writer.fork() … .ldelim()`: length-delimited
payload. -/
def lenDelim (bs : List Nat) : List Nat :=
  varint bs.length ++ bs

/-- `writer.int32(v)` / `writer.int64(v)` varint payload: protobufjs writes
the 64-bit two's complement image of the value. -/
def intChunk (v : Int) : List Nat :=
  varint (i64 v)

/-- `writer.bool(b)`. -/
def boolChunk (b : Bool) : List Nat :=
  varint (if b then 1 else 0)

/-! ### Reader-primitive consumption bounds (for decode-loop termination) -/

theorem readBytes_length {l : List Nat} {bs r : List Nat}
    (h : readBytes l = some (bs, r)) : r.length < l.length := by
  unfold readBytes at h
  cases hp : parseVarint l with
  | none => rw [hp] at h; cases h
  | some p =>
    obtain ⟨n, r'⟩ := p
    rw [hp] at h
    dsimp only at h
    by_cases hn : n ≤ r'.length
    · rw [if_pos hn] at h
      cases h
      have := parseVarint_length hp
      simp only [List.length_drop]
      omega
    · rw [if_neg hn] at h; cases h

theorem readUint32_length {l : List Nat} {n : Nat} {r : List Nat}
    (h : readUint32 l = some (n, r)) : r.length < l.length := by
  unfold readUint32 at h
  cases hp : parseVarint l with
  | none => rw [hp] at h; cases h
  | some p => obtain ⟨m, r'⟩ := p; rw [hp] at h; dsimp only at h; cases h; exact parseVarint_length hp

theorem readInt32_length {l : List Nat} {v : Int} {r : List Nat}
    (h : readInt32 l = some (v, r)) : r.length < l.length := by
  unfold readInt32 at h
  cases hp : parseVarint l with
  | none => rw [hp] at h; cases h
  | some p => obtain ⟨m, r'⟩ := p; rw [hp] at h; dsimp only at h; cases h; exact parseVarint_length hp

theorem readInt64_length {l : List Nat} {v : Int} {r : List Nat}
    (h : readInt64 l = some (v, r)) : r.length < l.length := by
  unfold readInt64 at h
  cases hp : parseVarint l with
  | none => rw [hp] at h; cases h
  | some p => obtain ⟨m, r'⟩ := p; rw [hp] at h; dsimp only at h; cases h; exact parseVarint_length hp

theorem readUint64_length {l : List Nat} {n : Nat} {r : List Nat}
    (h : readUint64 l = some (n, r)) : r.length < l.length := by
  unfold readUint64 at h
  cases hp : parseVarint l with
  | none => rw [hp] at h; cases h
  | some p => obtain ⟨m, r'⟩ := p; rw [hp] at h; dsimp only at h; cases h; exact parseVarint_length hp

theorem readBool_length {l : List Nat} {b : Bool} {r : List Nat}
    (h : readBool l = some (b, r)) : r.length < l.length := by
  unfold readBool at h
  cases hp : parseVarint l with
  | none => rw [hp] at h; cases h
  | some p => obtain ⟨m, r'⟩ := p; rw [hp] at h; dsimp only at h; cases h; exact parseVarint_length hp

theorem skipType_length {wt : Nat} {l r : List Nat}
    (h : skipType wt l = some r) : r.length ≤ l.length := by
  unfold skipType at h
  by_cases h0 : wt = 0
  · rw [if_pos h0] at h
    cases hp : parseVarint l with
    | none => rw [hp] at h; cases h
    | some p =>
      obtain ⟨n, r'⟩ := p; rw [hp] at h; cases h
      exact le_of_lt (parseVarint_length hp)
  rw [if_neg h0] at h
  by_cases h1 : wt = 1
  · rw [if_pos h1] at h
    by_cases hl : 8 ≤ l.length
    · rw [if_pos hl] at h; cases h; simp
    · rw [if_neg hl] at h; cases h
  rw [if_neg h1] at h
  by_cases h2 : wt = 2
  · rw [if_pos h2] at h
    cases hb : readBytes l with
    | none => rw [hb] at h; cases h
    | some p =>
      obtain ⟨bs, r'⟩ := p; rw [hb] at h; cases h
      exact le_of_lt (readBytes_length hb)
  rw [if_neg h2] at h
  by_cases h5 : wt = 5
  · rw [if_pos h5] at h
    by_cases hl : 4 ≤ l.length
    · rw [if_pos hl] at h; cases h; simp
    · rw [if_neg hl] at h; cases h
  rw [if_neg h5] at h
  cases h

/-! ### Reader-primitive round trips -/

theorem readBytes_lenDelim (bs rest : List Nat) (hbs : bs.length < 2 ^ 64) :
    readBytes (lenDelim bs ++ rest) = some (bs, rest) := by
  unfold readBytes lenDelim
  rw [List.append_assoc, parseVarint_varint hbs]
  dsimp only
  rw [if_pos (by simp)]
  simp

theorem readUint32_varint {n : Nat} (hn : n < 2 ^ 32) (rest : List Nat) :
    readUint32 (varint n ++ rest) = some (n, rest) := by
  unfold readUint32
  rw [parseVarint_varint (by omega) rest]
  dsimp only
  simp only [Option.some.injEq, Prod.mk.injEq]
  exact ⟨Nat.mod_eq_of_lt hn, trivial⟩

theorem readInt32_intChunk {v : Int} (h1 : -(2 ^ 31) ≤ v) (h2 : v < 2 ^ 31)
    (rest : List Nat) : readInt32 (intChunk v ++ rest) = some (v, rest) := by
  unfold readInt32 intChunk i64
  rw [parseVarint_varint (by omega) rest]
  dsimp only
  simp only [Option.some.injEq, Prod.mk.injEq]
  refine ⟨?_, trivial⟩
  unfold decodeS32
  split <;> omega

theorem readInt64_intChunk {v : Int} (h1 : -(2 ^ 63) ≤ v) (h2 : v < 2 ^ 63)
    (rest : List Nat) : readInt64 (intChunk v ++ rest) = some (v, rest) := by
  unfold readInt64 intChunk i64
  rw [parseVarint_varint (by omega) rest]
  dsimp only
  simp only [Option.some.injEq, Prod.mk.injEq]
  refine ⟨?_, trivial⟩
  unfold decodeS64
  split <;> omega

theorem readUint64_varint {n : Nat} (hn : n < 2 ^ 64) (rest : List Nat) :
    readUint64 (varint n ++ rest) = some (n, rest) := by
  unfold readUint64
  rw [parseVarint_varint hn rest]
  dsimp only
  simp only [Option.some.injEq, Prod.mk.injEq]
  exact ⟨Nat.mod_eq_of_lt hn, trivial⟩

theorem readBool_boolChunk (b : Bool) (rest : List Nat) :
    readBool (boolChunk b ++ rest) = some (b, rest) := by
  unfold readBool boolChunk
  cases b <;>
    · rw [parseVarint_varint (by norm_num) rest]
      dsimp only
      simp

/-! ## The generated protobuf messages (`ts/chronik-client/chronik.ts`)

Namespace `Proto` holds the wire-level message records (`interface` blocks
in `chronik.ts`) and their generated `encode`/`decode` functions: each
`encode` is the sequence of conditional writer calls of the source, each
`decode` is the source's `while (reader.pos < end)` tag-switch loop.
`wfB` expresses well-formedness: numeric fields in their declared proto
ranges, byte entries `< 256`, byte-string lengths below the `uint32`
length-prefix bound, and nested messages well-formed. -/

namespace Proto

/-- `chronik.OutPoint`: `txid` field 1 (bytes), `outIdx` field 2 (uint32). -/
structure OutPoint where
  txid : List Nat
  outIdx : Nat
deriving DecidableEq

/-- `baseOutPoint` merged with the `decode` initializer. -/
def OutPoint.base : OutPoint := { txid := [], outIdx := 0 }

/-- `OutPoint.encode` from `chronik.ts`. -/
def OutPoint.encode (m : OutPoint) : List Nat :=
  (if m.txid.length ≠ 0 then varint 10 ++ lenDelim m.txid else [])
  ++ (if m.outIdx ≠ 0 then varint 16 ++ varint m.outIdx else [])

def OutPoint.wfB (m : OutPoint) : Bool :=
  m.txid.all (· < 256) && m.txid.length < 2 ^ 32 && m.outIdx < 2 ^ 32

/-- The `while (reader.pos < end)` loop body of `OutPoint.decode`. -/
def OutPoint.decodeLoop (msg : OutPoint) (l : List Nat) : Option OutPoint :=
  if l.isEmpty then some msg
  else
    match hp : readUint32 l with
    | none => none
    | some (tag, r) =>
      if tag / 8 = 1 then
        match h2 : readBytes r with
        | none => none
        | some (bs, r2) => OutPoint.decodeLoop { msg with txid := bs } r2
      else if tag / 8 = 2 then
        match h2 : readUint32 r with
        | none => none
        | some (v, r2) => OutPoint.decodeLoop { msg with outIdx := v } r2
      else
        match h2 : skipType (tag % 8) r with
        | none => none
        | some r2 => OutPoint.decodeLoop msg r2
termination_by l.length
decreasing_by
  all_goals
    have a := readUint32_length hp
    first
      | (have b := readBytes_length h2; omega)
      | (have b := readUint32_length h2; omega)
      | (have b := skipType_length h2; omega)

/-- `OutPoint.decode` from `chronik.ts`. -/
def OutPoint.decode (l : List Nat) : Option OutPoint :=
  OutPoint.decodeLoop OutPoint.base l

theorem OutPoint.outPoint_decodeLoop_nil (msg : OutPoint) : OutPoint.decodeLoop msg [] = some msg := by
  unfold OutPoint.decodeLoop
  rfl

theorem OutPoint.outPoint_decodeLoop_txid (msg : OutPoint) (bs rest : List Nat)
    (hbs : bs.length < 2 ^ 64) :
    OutPoint.decodeLoop msg (varint 10 ++ (lenDelim bs ++ rest)) =
      OutPoint.decodeLoop { msg with txid := bs } rest := by
  rw [OutPoint.decodeLoop]
  rw [show (varint 10 ++ (lenDelim bs ++ rest)).isEmpty = false from rfl]
  rw [readUint32_varint (by norm_num) (lenDelim bs ++ rest)]
  dsimp only
  rw [readBytes_lenDelim bs rest hbs]
  rfl

theorem OutPoint.outPoint_decodeLoop_outIdx (msg : OutPoint) (v : Nat) (rest : List Nat)
    (hv : v < 2 ^ 32) :
    OutPoint.decodeLoop msg (varint 16 ++ (varint v ++ rest)) =
      OutPoint.decodeLoop { msg with outIdx := v } rest := by
  rw [OutPoint.decodeLoop]
  rw [show (varint 16 ++ (varint v ++ rest)).isEmpty = false from rfl]
  rw [readUint32_varint (by norm_num) (varint v ++ rest)]
  dsimp only
  rw [readUint32_varint hv rest]
  rfl

theorem OutPoint.outPoint_decodeLoop_txid_opt (msg : OutPoint) (bs rest : List Nat)
    (hmsg : msg.txid = []) (hbs : bs.length < 2 ^ 64) :
    OutPoint.decodeLoop msg ((if bs.length ≠ 0 then varint 10 ++ lenDelim bs else []) ++ rest) =
      OutPoint.decodeLoop { msg with txid := bs } rest := by
  by_cases h : bs.length ≠ 0
  · rw [if_pos h, List.append_assoc]
    exact OutPoint.outPoint_decodeLoop_txid msg bs rest hbs
  · have hnil : bs = [] := by simpa using h
    rw [if_neg h, List.nil_append, hnil, ← hmsg]

theorem OutPoint.outPoint_decodeLoop_outIdx_opt (msg : OutPoint) (v : Nat) (rest : List Nat)
    (hmsg : msg.outIdx = 0) (hv : v < 2 ^ 32) :
    OutPoint.decodeLoop msg ((if v ≠ 0 then varint 16 ++ varint v else []) ++ rest) =
      OutPoint.decodeLoop { msg with outIdx := v } rest := by
  by_cases h : v ≠ 0
  · rw [if_pos h, List.append_assoc]
    exact OutPoint.outPoint_decodeLoop_outIdx msg v rest hv
  · have hz : v = 0 := by omega
    rw [if_neg h, List.nil_append, hz, ← hmsg]

theorem OutPoint.outPoint_roundtrip (m : OutPoint) (h : m.wfB) :
    OutPoint.decode (OutPoint.encode m) = some m := by
  unfold OutPoint.wfB at h
  simp only [Bool.and_eq_true, decide_eq_true_eq] at h
  obtain ⟨⟨hbytes, hlen⟩, hidx⟩ := h
  unfold OutPoint.decode
  conv_lhs => rw [show OutPoint.encode m = OutPoint.encode m ++ [] from
    (List.append_nil _).symm]
  unfold OutPoint.encode
  simp only [List.append_assoc]
  rw [OutPoint.outPoint_decodeLoop_txid_opt _ _ _ rfl (by omega),
    OutPoint.outPoint_decodeLoop_outIdx_opt _ _ _ rfl hidx,
    OutPoint.outPoint_decodeLoop_nil]

/-- The writer idiom for an optional nested message field:
`if (message.f !== undefined) T.encode(message.f, writer.uint32(tag).fork()).ldelim()`. -/
def optChunk (tag : Nat) (enc : α → List Nat) : Option α → List Nat
  | none => []
  | some x => varint tag ++ lenDelim (enc x)

/-- `chronik.SlpToken`: `amount` field 1 (uint64), `isMintBaton` field 2 (bool). -/
structure SlpToken where
  amount : Nat
  isMintBaton : Bool
deriving DecidableEq

/-- `baseSlpToken` merged with the `decode` initializer. -/
def SlpToken.base : SlpToken := { amount := 0, isMintBaton := false }

/-- `SlpToken.encode` from `chronik.ts`. -/
def SlpToken.encode (m : SlpToken) : List Nat :=
  (if m.amount ≠ 0 then varint 8 ++ varint m.amount else [])
  ++ (if m.isMintBaton = true then varint 16 ++ boolChunk m.isMintBaton else [])

def SlpToken.wfB (m : SlpToken) : Bool :=
  m.amount < 2 ^ 64

/-- The `while (reader.pos < end)` loop body of `SlpToken.decode`. -/
def SlpToken.decodeLoop (msg : SlpToken) (l : List Nat) : Option SlpToken :=
  if l.isEmpty then some msg
  else
    match hp : readUint32 l with
    | none => none
    | some (tag, r) =>
      if tag / 8 = 1 then
        match h2 : readUint64 r with
        | none => none
        | some (v, r2) => SlpToken.decodeLoop { msg with amount := v } r2
      else if tag / 8 = 2 then
        match h2 : readBool r with
        | none => none
        | some (b, r2) => SlpToken.decodeLoop { msg with isMintBaton := b } r2
      else
        match h2 : skipType (tag % 8) r with
        | none => none
        | some r2 => SlpToken.decodeLoop msg r2
termination_by l.length
decreasing_by
  all_goals
    have a := readUint32_length hp
    first
      | (have b := readBytes_length h2; omega)
      | (have b := readUint32_length h2; omega)
      | (have b := readInt32_length h2; omega)
      | (have b := readInt64_length h2; omega)
      | (have b := readUint64_length h2; omega)
      | (have b := readBool_length h2; omega)
      | (have b := skipType_length h2; omega)

/-- `SlpToken.decode` from `chronik.ts`. -/
def SlpToken.decode (l : List Nat) : Option SlpToken :=
  SlpToken.decodeLoop SlpToken.base l

theorem SlpToken.slpToken_decodeLoop_nil (msg : SlpToken) :
    SlpToken.decodeLoop msg [] = some msg := by
  unfold SlpToken.decodeLoop
  rfl

theorem SlpToken.slpToken_decodeLoop_amount (msg : SlpToken) (v : Nat) (rest : List Nat)
    (hv : v < 2 ^ 64) :
    SlpToken.decodeLoop msg (varint 8 ++ (varint v ++ rest)) =
      SlpToken.decodeLoop { msg with amount := v } rest := by
  rw [SlpToken.decodeLoop]
  rw [show (varint 8 ++ (varint v ++ rest)).isEmpty = false from rfl]
  rw [readUint32_varint (by norm_num) (varint v ++ rest)]
  dsimp only
  rw [readUint64_varint hv rest]
  rfl

theorem SlpToken.slpToken_decodeLoop_isMintBaton (msg : SlpToken) (b : Bool) (rest : List Nat) :
    SlpToken.decodeLoop msg (varint 16 ++ (boolChunk b ++ rest)) =
      SlpToken.decodeLoop { msg with isMintBaton := b } rest := by
  rw [SlpToken.decodeLoop]
  rw [show (varint 16 ++ (boolChunk b ++ rest)).isEmpty = false from rfl]
  rw [readUint32_varint (by norm_num) (boolChunk b ++ rest)]
  dsimp only
  rw [readBool_boolChunk b rest]
  rfl

theorem SlpToken.slpToken_decodeLoop_amount_opt (msg : SlpToken) (v : Nat) (rest : List Nat)
    (hmsg : msg.amount = 0) (hv : v < 2 ^ 64) :
    SlpToken.decodeLoop msg ((if v ≠ 0 then varint 8 ++ varint v else []) ++ rest) =
      SlpToken.decodeLoop { msg with amount := v } rest := by
  by_cases h : v ≠ 0
  · rw [if_pos h, List.append_assoc]
    exact SlpToken.slpToken_decodeLoop_amount msg v rest hv
  · have hz : v = 0 := by omega
    rw [if_neg h, List.nil_append, hz, ← hmsg]

theorem SlpToken.slpToken_decodeLoop_isMintBaton_opt (msg : SlpToken) (b : Bool) (rest : List Nat)
    (hmsg : msg.isMintBaton = false) :
    SlpToken.decodeLoop msg ((if b = true then varint 16 ++ boolChunk b else []) ++ rest) =
      SlpToken.decodeLoop { msg with isMintBaton := b } rest := by
  by_cases h : b = true
  · rw [if_pos h, List.append_assoc]
    exact SlpToken.slpToken_decodeLoop_isMintBaton msg b rest
  · have hz : b = false := by simpa using h
    rw [if_neg h, List.nil_append, hz, ← hmsg]

theorem SlpToken.slpToken_roundtrip (m : SlpToken) (h : m.wfB) :
    SlpToken.decode (SlpToken.encode m) = some m := by
  unfold SlpToken.wfB at h
  simp only [Bool.and_eq_true, decide_eq_true_eq] at h
  unfold SlpToken.decode
  conv_lhs => rw [show SlpToken.encode m = SlpToken.encode m ++ [] from
    (List.append_nil _).symm]
  unfold SlpToken.encode
  simp only [List.append_assoc]
  rw [SlpToken.slpToken_decodeLoop_amount_opt _ _ _ rfl h,
    SlpToken.slpToken_decodeLoop_isMintBaton_opt _ _ _ rfl,
    SlpToken.slpToken_decodeLoop_nil]

/-- `chronik.SlpBurn`: `token` field 1 (SlpToken), `tokenId` field 2 (bytes). -/
structure SlpBurn where
  token : Option SlpToken
  tokenId : List Nat
deriving DecidableEq

/-- `baseSlpBurn` merged with the `decode` initializer. -/
def SlpBurn.base : SlpBurn := { token := none, tokenId := [] }

/-- `SlpBurn.encode` from `chronik.ts`. -/
def SlpBurn.encode (m : SlpBurn) : List Nat :=
  optChunk 10 SlpToken.encode m.token
  ++ (if m.tokenId.length ≠ 0 then varint 18 ++ lenDelim m.tokenId else [])

def SlpBurn.wfB (m : SlpBurn) : Bool :=
  (match m.token with
    | none => true
    | some t => SlpToken.wfB t && (SlpToken.encode t).length < 2 ^ 32)
  && (m.tokenId.all (· < 256) && m.tokenId.length < 2 ^ 32)

/-- The `while (reader.pos < end)` loop body of `SlpBurn.decode`. -/
def SlpBurn.decodeLoop (msg : SlpBurn) (l : List Nat) : Option SlpBurn :=
  if l.isEmpty then some msg
  else
    match hp : readUint32 l with
    | none => none
    | some (tag, r) =>
      if tag / 8 = 1 then
        match h2 : readBytes r with
        | none => none
        | some (bs, r2) =>
          match SlpToken.decode bs with
          | none => none
          | some x => SlpBurn.decodeLoop { msg with token := some x } r2
      else if tag / 8 = 2 then
        match h2 : readBytes r with
        | none => none
        | some (bs, r2) => SlpBurn.decodeLoop { msg with tokenId := bs } r2
      else
        match h2 : skipType (tag % 8) r with
        | none => none
        | some r2 => SlpBurn.decodeLoop msg r2
termination_by l.length
decreasing_by
  all_goals
    have a := readUint32_length hp
    first
      | (have b := readBytes_length h2; omega)
      | (have b := readUint32_length h2; omega)
      | (have b := readInt32_length h2; omega)
      | (have b := readInt64_length h2; omega)
      | (have b := readUint64_length h2; omega)
      | (have b := readBool_length h2; omega)
      | (have b := skipType_length h2; omega)

/-- `SlpBurn.decode` from `chronik.ts`. -/
def SlpBurn.decode (l : List Nat) : Option SlpBurn :=
  SlpBurn.decodeLoop SlpBurn.base l

theorem SlpBurn.slpBurn_decodeLoop_nil (msg : SlpBurn) :
    SlpBurn.decodeLoop msg [] = some msg := by
  unfold SlpBurn.decodeLoop
  rfl

theorem SlpBurn.slpBurn_decodeLoop_token (msg : SlpBurn) (x : SlpToken) (rest : List Nat)
    (hwf : SlpToken.wfB x) (hlen : (SlpToken.encode x).length < 2 ^ 64) :
    SlpBurn.decodeLoop msg (varint 10 ++ (lenDelim (SlpToken.encode x) ++ rest)) =
      SlpBurn.decodeLoop { msg with token := some x } rest := by
  rw [SlpBurn.decodeLoop]
  rw [show (varint 10 ++ (lenDelim (SlpToken.encode x) ++ rest)).isEmpty = false from rfl]
  rw [readUint32_varint (by norm_num) (lenDelim (SlpToken.encode x) ++ rest)]
  dsimp only
  rw [readBytes_lenDelim _ rest hlen]
  dsimp only
  rw [SlpToken.slpToken_roundtrip x hwf]
  rfl

theorem SlpBurn.slpBurn_decodeLoop_tokenId (msg : SlpBurn) (bs rest : List Nat)
    (hbs : bs.length < 2 ^ 64) :
    SlpBurn.decodeLoop msg (varint 18 ++ (lenDelim bs ++ rest)) =
      SlpBurn.decodeLoop { msg with tokenId := bs } rest := by
  rw [SlpBurn.decodeLoop]
  rw [show (varint 18 ++ (lenDelim bs ++ rest)).isEmpty = false from rfl]
  rw [readUint32_varint (by norm_num) (lenDelim bs ++ rest)]
  dsimp only
  rw [readBytes_lenDelim bs rest hbs]
  rfl

theorem SlpBurn.slpBurn_decodeLoop_token_opt (msg : SlpBurn) (o : Option SlpToken) (rest : List Nat)
    (hmsg : msg.token = none)
    (ho : ∀ x, o = some x → SlpToken.wfB x ∧ (SlpToken.encode x).length < 2 ^ 64) :
    SlpBurn.decodeLoop msg (optChunk 10 SlpToken.encode o ++ rest) =
      SlpBurn.decodeLoop { msg with token := o } rest := by
  cases o with
  | none =>
    rw [show optChunk 10 SlpToken.encode none = [] from rfl, List.nil_append]
    conv_rhs => rw [← hmsg]
  | some x =>
    rw [show optChunk 10 SlpToken.encode (some x) =
      varint 10 ++ lenDelim (SlpToken.encode x) from rfl, List.append_assoc]
    exact SlpBurn.slpBurn_decodeLoop_token msg x rest (ho x rfl).1 (ho x rfl).2

theorem SlpBurn.slpBurn_decodeLoop_tokenId_opt (msg : SlpBurn) (bs rest : List Nat)
    (hmsg : msg.tokenId = []) (hbs : bs.length < 2 ^ 64) :
    SlpBurn.decodeLoop msg ((if bs.length ≠ 0 then varint 18 ++ lenDelim bs else []) ++ rest) =
      SlpBurn.decodeLoop { msg with tokenId := bs } rest := by
  by_cases h : bs.length ≠ 0
  · rw [if_pos h, List.append_assoc]
    exact SlpBurn.slpBurn_decodeLoop_tokenId msg bs rest hbs
  · have hnil : bs = [] := by simpa using h
    rw [if_neg h, List.nil_append, hnil, ← hmsg]

theorem SlpBurn.slpBurn_roundtrip (m : SlpBurn) (h : m.wfB) :
    SlpBurn.decode (SlpBurn.encode m) = some m := by
  unfold SlpBurn.wfB at h
  simp only [Bool.and_eq_true, decide_eq_true_eq] at h
  obtain ⟨htok, hid, hidlen⟩ := h
  unfold SlpBurn.decode
  conv_lhs => rw [show SlpBurn.encode m = SlpBurn.encode m ++ [] from
    (List.append_nil _).symm]
  unfold SlpBurn.encode
  simp only [List.append_assoc]
  rw [SlpBurn.slpBurn_decodeLoop_token_opt _ _ _ rfl ?htok,
    SlpBurn.slpBurn_decodeLoop_tokenId_opt _ _ _ rfl (by omega),
    SlpBurn.slpBurn_decodeLoop_nil]
  case htok =>
    intro x hx
    rw [hx] at htok
    simp only [Bool.and_eq_true, decide_eq_true_eq] at htok
    exact ⟨htok.1, by omega⟩

/-- `chronik.SlpMeta`: `tokenType` field 1 (enum), `txType` field 2 (enum),
`tokenId` field 3 (bytes), `groupTokenId` field 4 (bytes). -/
structure SlpMeta where
  tokenType : Int
  txType : Int
  tokenId : List Nat
  groupTokenId : List Nat
deriving DecidableEq

/-- `SlpMeta.encode` from `chronik.ts`. -/
def SlpMeta.encode (m : SlpMeta) : List Nat :=
  (if m.tokenType ≠ 0 then varint 8 ++ intChunk m.tokenType else [])
  ++ (if m.txType ≠ 0 then varint 16 ++ intChunk m.txType else [])
  ++ (if m.tokenId.length ≠ 0 then varint 26 ++ lenDelim m.tokenId else [])
  ++ (if m.groupTokenId.length ≠ 0 then varint 34 ++ lenDelim m.groupTokenId else [])

def SlpMeta.wfB (m : SlpMeta) : Bool :=
  (-(2 ^ 31) ≤ m.tokenType && m.tokenType < 2 ^ 31)
  && ((-(2 ^ 31) ≤ m.txType && m.txType < 2 ^ 31)
  && ((m.tokenId.all (fun b => b < 256) && m.tokenId.length < 2 ^ 32)
  && ((m.groupTokenId.all (fun b => b < 256) && m.groupTokenId.length < 2 ^ 32))))

/-- `baseSlpMeta` merged with the `decode` initializer. -/
def SlpMeta.base : SlpMeta :=
  { tokenType := 0, txType := 0, tokenId := [], groupTokenId := [] }

/-- The `while (reader.pos < end)` loop body of `SlpMeta.decode`. -/
def SlpMeta.decodeLoop (acc : SlpMeta) (l : List Nat) : Option SlpMeta :=
  if l.isEmpty then some acc
  else
    match hp : readUint32 l with
    | none => none
    | some (tag, r) =>
      if tag / 8 = 1 then
        match h2 : readInt32 r with
        | none => none
        | some (v, r2) => SlpMeta.decodeLoop { acc with tokenType := v } r2
      else if tag / 8 = 2 then
        match h2 : readInt32 r with
        | none => none
        | some (v, r2) => SlpMeta.decodeLoop { acc with txType := v } r2
      else if tag / 8 = 3 then
        match h2 : readBytes r with
        | none => none
        | some (bs, r2) => SlpMeta.decodeLoop { acc with tokenId := bs } r2
      else if tag / 8 = 4 then
        match h2 : readBytes r with
        | none => none
        | some (bs, r2) => SlpMeta.decodeLoop { acc with groupTokenId := bs } r2
      else
        match h2 : skipType (tag % 8) r with
        | none => none
        | some r2 => SlpMeta.decodeLoop acc r2
termination_by l.length
decreasing_by
  all_goals
    have a := readUint32_length hp
    first
      | (have b := readBytes_length h2; omega)
      | (have b := readUint32_length h2; omega)
      | (have b := readInt32_length h2; omega)
      | (have b := readInt64_length h2; omega)
      | (have b := readUint64_length h2; omega)
      | (have b := readBool_length h2; omega)
      | (have b := skipType_length h2; omega)

/-- `SlpMeta.decode` from `chronik.ts`. -/
def SlpMeta.decode (l : List Nat) : Option SlpMeta :=
  SlpMeta.decodeLoop SlpMeta.base l

theorem SlpMeta.slpMeta_decodeLoop_nil (acc : SlpMeta) :
    SlpMeta.decodeLoop acc [] = some acc := by
  unfold SlpMeta.decodeLoop
  rfl

theorem SlpMeta.slpMeta_decodeLoop_tokenType (acc : SlpMeta) (v : Int) (rest : List Nat)
    (hv1 : -(2 ^ 31) ≤ v) (hv2 : v < 2 ^ 31) :
    SlpMeta.decodeLoop acc (varint 8 ++ (intChunk v ++ rest)) =
      SlpMeta.decodeLoop { acc with tokenType := v } rest := by
  rw [SlpMeta.decodeLoop]
  rw [show (varint 8 ++ (intChunk v ++ rest)).isEmpty = false from rfl]
  rw [readUint32_varint (by norm_num) (intChunk v ++ rest)]
  dsimp only
  rw [readInt32_intChunk hv1 hv2 rest]
  rfl

theorem SlpMeta.slpMeta_decodeLoop_tokenType_opt (acc : SlpMeta) (v : Int) (rest : List Nat)
    (hacc : acc.tokenType = 0) (hv1 : -(2 ^ 31) ≤ v) (hv2 : v < 2 ^ 31) :
    SlpMeta.decodeLoop acc ((if v ≠ 0 then varint 8 ++ intChunk v else []) ++ rest) =
      SlpMeta.decodeLoop { acc with tokenType := v } rest := by
  by_cases h : v ≠ 0
  · rw [if_pos h, List.append_assoc]
    exact SlpMeta.slpMeta_decodeLoop_tokenType acc v rest hv1 hv2
  · have hz : v = 0 := by omega
    rw [if_neg h, List.nil_append, hz, ← hacc]

theorem SlpMeta.slpMeta_decodeLoop_txType (acc : SlpMeta) (v : Int) (rest : List Nat)
    (hv1 : -(2 ^ 31) ≤ v) (hv2 : v < 2 ^ 31) :
    SlpMeta.decodeLoop acc (varint 16 ++ (intChunk v ++ rest)) =
      SlpMeta.decodeLoop { acc with txType := v } rest := by
  rw [SlpMeta.decodeLoop]
  rw [show (varint 16 ++ (intChunk v ++ rest)).isEmpty = false from rfl]
  rw [readUint32_varint (by norm_num) (intChunk v ++ rest)]
  dsimp only
  rw [readInt32_intChunk hv1 hv2 rest]
  rfl

theorem SlpMeta.slpMeta_decodeLoop_txType_opt (acc : SlpMeta) (v : Int) (rest : List Nat)
    (hacc : acc.txType = 0) (hv1 : -(2 ^ 31) ≤ v) (hv2 : v < 2 ^ 31) :
    SlpMeta.decodeLoop acc ((if v ≠ 0 then varint 16 ++ intChunk v else []) ++ rest) =
      SlpMeta.decodeLoop { acc with txType := v } rest := by
  by_cases h : v ≠ 0
  · rw [if_pos h, List.append_assoc]
    exact SlpMeta.slpMeta_decodeLoop_txType acc v rest hv1 hv2
  · have hz : v = 0 := by omega
    rw [if_neg h, List.nil_append, hz, ← hacc]

theorem SlpMeta.slpMeta_decodeLoop_tokenId (acc : SlpMeta) (bs rest : List Nat)
    (hbs : bs.length < 2 ^ 64) :
    SlpMeta.decodeLoop acc (varint 26 ++ (lenDelim bs ++ rest)) =
      SlpMeta.decodeLoop { acc with tokenId := bs } rest := by
  rw [SlpMeta.decodeLoop]
  rw [show (varint 26 ++ (lenDelim bs ++ rest)).isEmpty = false from rfl]
  rw [readUint32_varint (by norm_num) (lenDelim bs ++ rest)]
  dsimp only
  rw [readBytes_lenDelim bs rest hbs]
  rfl

theorem SlpMeta.slpMeta_decodeLoop_tokenId_opt (acc : SlpMeta) (bs rest : List Nat)
    (hacc : acc.tokenId = []) (hbs : bs.length < 2 ^ 64) :
    SlpMeta.decodeLoop acc ((if bs.length ≠ 0 then varint 26 ++ lenDelim bs else []) ++ rest) =
      SlpMeta.decodeLoop { acc with tokenId := bs } rest := by
  by_cases h : bs.length ≠ 0
  · rw [if_pos h, List.append_assoc]
    exact SlpMeta.slpMeta_decodeLoop_tokenId acc bs rest hbs
  · have hnil : bs = [] := by simpa using h
    rw [if_neg h, List.nil_append, hnil, ← hacc]

theorem SlpMeta.slpMeta_decodeLoop_groupTokenId (acc : SlpMeta) (bs rest : List Nat)
    (hbs : bs.length < 2 ^ 64) :
    SlpMeta.decodeLoop acc (varint 34 ++ (lenDelim bs ++ rest)) =
      SlpMeta.decodeLoop { acc with groupTokenId := bs } rest := by
  rw [SlpMeta.decodeLoop]
  rw [show (varint 34 ++ (lenDelim bs ++ rest)).isEmpty = false from rfl]
  rw [readUint32_varint (by norm_num) (lenDelim bs ++ rest)]
  dsimp only
  rw [readBytes_lenDelim bs rest hbs]
  rfl

theorem SlpMeta.slpMeta_decodeLoop_groupTokenId_opt (acc : SlpMeta) (bs rest : List Nat)
    (hacc : acc.groupTokenId = []) (hbs : bs.length < 2 ^ 64) :
    SlpMeta.decodeLoop acc ((if bs.length ≠ 0 then varint 34 ++ lenDelim bs else []) ++ rest) =
      SlpMeta.decodeLoop { acc with groupTokenId := bs } rest := by
  by_cases h : bs.length ≠ 0
  · rw [if_pos h, List.append_assoc]
    exact SlpMeta.slpMeta_decodeLoop_groupTokenId acc bs rest hbs
  · have hnil : bs = [] := by simpa using h
    rw [if_neg h, List.nil_append, hnil, ← hacc]

theorem SlpMeta.slpMeta_roundtrip (m : SlpMeta) (h : m.wfB) :
    SlpMeta.decode (SlpMeta.encode m) = some m := by
  unfold SlpMeta.wfB at h
  simp only [Bool.and_eq_true, decide_eq_true_eq] at h
  obtain ⟨⟨htokenType1, htokenType2⟩, ⟨htxType1, htxType2⟩, ⟨hbtokenId, hltokenId⟩, ⟨hbgroupTokenId, hlgroupTokenId⟩⟩ := h
  unfold SlpMeta.decode
  conv_lhs => rw [show SlpMeta.encode m = SlpMeta.encode m ++ [] from (List.append_nil _).symm]
  unfold SlpMeta.encode
  simp only [List.append_assoc]
  rw [SlpMeta.slpMeta_decodeLoop_tokenType_opt _ _ _ rfl htokenType1 htokenType2,
    SlpMeta.slpMeta_decodeLoop_txType_opt _ _ _ rfl htxType1 htxType2,
    SlpMeta.slpMeta_decodeLoop_tokenId_opt _ _ _ rfl (by omega),
    SlpMeta.slpMeta_decodeLoop_groupTokenId_opt _ _ _ rfl (by omega),
    SlpMeta.slpMeta_decodeLoop_nil]


/-- `chronik.SlpGenesisInfo`: fields 1-4 bytes, `decimals` field 5 (uint32). -/
structure SlpGenesisInfo where
  tokenTicker : List Nat
  tokenName : List Nat
  tokenDocumentUrl : List Nat
  tokenDocumentHash : List Nat
  decimals : Nat
deriving DecidableEq

/-- `SlpGenesisInfo.encode` from `chronik.ts`. -/
def SlpGenesisInfo.encode (m : SlpGenesisInfo) : List Nat :=
  (if m.tokenTicker.length ≠ 0 then varint 10 ++ lenDelim m.tokenTicker else [])
  ++ (if m.tokenName.length ≠ 0 then varint 18 ++ lenDelim m.tokenName else [])
  ++ (if m.tokenDocumentUrl.length ≠ 0 then varint 26 ++ lenDelim m.tokenDocumentUrl else [])
  ++ (if m.tokenDocumentHash.length ≠ 0 then varint 34 ++ lenDelim m.tokenDocumentHash else [])
  ++ (if m.decimals ≠ 0 then varint 40 ++ varint m.decimals else [])

def SlpGenesisInfo.wfB (m : SlpGenesisInfo) : Bool :=
  (m.tokenTicker.all (fun b => b < 256) && m.tokenTicker.length < 2 ^ 32)
  && ((m.tokenName.all (fun b => b < 256) && m.tokenName.length < 2 ^ 32)
  && ((m.tokenDocumentUrl.all (fun b => b < 256) && m.tokenDocumentUrl.length < 2 ^ 32)
  && ((m.tokenDocumentHash.all (fun b => b < 256) && m.tokenDocumentHash.length < 2 ^ 32)
  && ((m.decimals < 2 ^ 32)))))

/-- `baseSlpGenesisInfo` merged with the `decode` initializer. -/
def SlpGenesisInfo.base : SlpGenesisInfo :=
  { tokenTicker := [], tokenName := [], tokenDocumentUrl := [], tokenDocumentHash := [], decimals := 0 }

/-- The `while (reader.pos < end)` loop body of `SlpGenesisInfo.decode`. -/
def SlpGenesisInfo.decodeLoop (acc : SlpGenesisInfo) (l : List Nat) : Option SlpGenesisInfo :=
  if l.isEmpty then some acc
  else
    match hp : readUint32 l with
    | none => none
    | some (tag, r) =>
      if tag / 8 = 1 then
        match h2 : readBytes r with
        | none => none
        | some (bs, r2) => SlpGenesisInfo.decodeLoop { acc with tokenTicker := bs } r2
      else if tag / 8 = 2 then
        match h2 : readBytes r with
        | none => none
        | some (bs, r2) => SlpGenesisInfo.decodeLoop { acc with tokenName := bs } r2
      else if tag / 8 = 3 then
        match h2 : readBytes r with
        | none => none
        | some (bs, r2) => SlpGenesisInfo.decodeLoop { acc with tokenDocumentUrl := bs } r2
      else if tag / 8 = 4 then
        match h2 : readBytes r with
        | none => none
        | some (bs, r2) => SlpGenesisInfo.decodeLoop { acc with tokenDocumentHash := bs } r2
      else if tag / 8 = 5 then
        match h2 : readUint32 r with
        | none => none
        | some (v, r2) => SlpGenesisInfo.decodeLoop { acc with decimals := v } r2
      else
        match h2 : skipType (tag % 8) r with
        | none => none
        | some r2 => SlpGenesisInfo.decodeLoop acc r2
termination_by l.length
decreasing_by
  all_goals
    have a := readUint32_length hp
    first
      | (have b := readBytes_length h2; omega)
      | (have b := readUint32_length h2; omega)
      | (have b := readInt32_length h2; omega)
      | (have b := readInt64_length h2; omega)
      | (have b := readUint64_length h2; omega)
      | (have b := readBool_length h2; omega)
      | (have b := skipType_length h2; omega)

/-- `SlpGenesisInfo.decode` from `chronik.ts`. -/
def SlpGenesisInfo.decode (l : List Nat) : Option SlpGenesisInfo :=
  SlpGenesisInfo.decodeLoop SlpGenesisInfo.base l

theorem SlpGenesisInfo.slpGenesisInfo_decodeLoop_nil (acc : SlpGenesisInfo) :
    SlpGenesisInfo.decodeLoop acc [] = some acc := by
  unfold SlpGenesisInfo.decodeLoop
  rfl

theorem SlpGenesisInfo.slpGenesisInfo_decodeLoop_tokenTicker (acc : SlpGenesisInfo) (bs rest : List Nat)
    (hbs : bs.length < 2 ^ 64) :
    SlpGenesisInfo.decodeLoop acc (varint 10 ++ (lenDelim bs ++ rest)) =
      SlpGenesisInfo.decodeLoop { acc with tokenTicker := bs } rest := by
  rw [SlpGenesisInfo.decodeLoop]
  rw [show (varint 10 ++ (lenDelim bs ++ rest)).isEmpty = false from rfl]
  rw [readUint32_varint (by norm_num) (lenDelim bs ++ rest)]
  dsimp only
  rw [readBytes_lenDelim bs rest hbs]
  rfl

theorem SlpGenesisInfo.slpGenesisInfo_decodeLoop_tokenTicker_opt (acc : SlpGenesisInfo) (bs rest : List Nat)
    (hacc : acc.tokenTicker = []) (hbs : bs.length < 2 ^ 64) :
    SlpGenesisInfo.decodeLoop acc ((if bs.length ≠ 0 then varint 10 ++ lenDelim bs else []) ++ rest) =
      SlpGenesisInfo.decodeLoop { acc with tokenTicker := bs } rest := by
  by_cases h : bs.length ≠ 0
  · rw [if_pos h, List.append_assoc]
    exact SlpGenesisInfo.slpGenesisInfo_decodeLoop_tokenTicker acc bs rest hbs
  · have hnil : bs = [] := by simpa using h
    rw [if_neg h, List.nil_append, hnil, ← hacc]

theorem SlpGenesisInfo.slpGenesisInfo_decodeLoop_tokenName (acc : SlpGenesisInfo) (bs rest : List Nat)
    (hbs : bs.length < 2 ^ 64) :
    SlpGenesisInfo.decodeLoop acc (varint 18 ++ (lenDelim bs ++ rest)) =
      SlpGenesisInfo.decodeLoop { acc with tokenName := bs } rest := by
  rw [SlpGenesisInfo.decodeLoop]
  rw [show (varint 18 ++ (lenDelim bs ++ rest)).isEmpty = false from rfl]
  rw [readUint32_varint (by norm_num) (lenDelim bs ++ rest)]
  dsimp only
  rw [readBytes_lenDelim bs rest hbs]
  rfl

theorem SlpGenesisInfo.slpGenesisInfo_decodeLoop_tokenName_opt (acc : SlpGenesisInfo) (bs rest : List Nat)
    (hacc : acc.tokenName = []) (hbs : bs.length < 2 ^ 64) :
    SlpGenesisInfo.decodeLoop acc ((if bs.length ≠ 0 then varint 18 ++ lenDelim bs else []) ++ rest) =
      SlpGenesisInfo.decodeLoop { acc with tokenName := bs } rest := by
  by_cases h : bs.length ≠ 0
  · rw [if_pos h, List.append_assoc]
    exact SlpGenesisInfo.slpGenesisInfo_decodeLoop_tokenName acc bs rest hbs
  · have hnil : bs = [] := by simpa using h
    rw [if_neg h, List.nil_append, hnil, ← hacc]

theorem SlpGenesisInfo.slpGenesisInfo_decodeLoop_tokenDocumentUrl (acc : SlpGenesisInfo) (bs rest : List Nat)
    (hbs : bs.length < 2 ^ 64) :
    SlpGenesisInfo.decodeLoop acc (varint 26 ++ (lenDelim bs ++ rest)) =
      SlpGenesisInfo.decodeLoop { acc with tokenDocumentUrl := bs } rest := by
  rw [SlpGenesisInfo.decodeLoop]
  rw [show (varint 26 ++ (lenDelim bs ++ rest)).isEmpty = false from rfl]
  rw [readUint32_varint (by norm_num) (lenDelim bs ++ rest)]
  dsimp only
  rw [readBytes_lenDelim bs rest hbs]
  rfl

theorem SlpGenesisInfo.slpGenesisInfo_decodeLoop_tokenDocumentUrl_opt (acc : SlpGenesisInfo) (bs rest : List Nat)
    (hacc : acc.tokenDocumentUrl = []) (hbs : bs.length < 2 ^ 64) :
    SlpGenesisInfo.decodeLoop acc ((if bs.length ≠ 0 then varint 26 ++ lenDelim bs else []) ++ rest) =
      SlpGenesisInfo.decodeLoop { acc with tokenDocumentUrl := bs } rest := by
  by_cases h : bs.length ≠ 0
  · rw [if_pos h, List.append_assoc]
    exact SlpGenesisInfo.slpGenesisInfo_decodeLoop_tokenDocumentUrl acc bs rest hbs
  · have hnil : bs = [] := by simpa using h
    rw [if_neg h, List.nil_append, hnil, ← hacc]

theorem SlpGenesisInfo.slpGenesisInfo_decodeLoop_tokenDocumentHash (acc : SlpGenesisInfo) (bs rest : List Nat)
    (hbs : bs.length < 2 ^ 64) :
    SlpGenesisInfo.decodeLoop acc (varint 34 ++ (lenDelim bs ++ rest)) =
      SlpGenesisInfo.decodeLoop { acc with tokenDocumentHash := bs } rest := by
  rw [SlpGenesisInfo.decodeLoop]
  rw [show (varint 34 ++ (lenDelim bs ++ rest)).isEmpty = false from rfl]
  rw [readUint32_varint (by norm_num) (lenDelim bs ++ rest)]
  dsimp only
  rw [readBytes_lenDelim bs rest hbs]
  rfl

theorem SlpGenesisInfo.slpGenesisInfo_decodeLoop_tokenDocumentHash_opt (acc : SlpGenesisInfo) (bs rest : List Nat)
    (hacc : acc.tokenDocumentHash = []) (hbs : bs.length < 2 ^ 64) :
    SlpGenesisInfo.decodeLoop acc ((if bs.length ≠ 0 then varint 34 ++ lenDelim bs else []) ++ rest) =
      SlpGenesisInfo.decodeLoop { acc with tokenDocumentHash := bs } rest := by
  by_cases h : bs.length ≠ 0
  · rw [if_pos h, List.append_assoc]
    exact SlpGenesisInfo.slpGenesisInfo_decodeLoop_tokenDocumentHash acc bs rest hbs
  · have hnil : bs = [] := by simpa using h
    rw [if_neg h, List.nil_append, hnil, ← hacc]

theorem SlpGenesisInfo.slpGenesisInfo_decodeLoop_decimals (acc : SlpGenesisInfo) (v : Nat) (rest : List Nat)
    (hv : v < 2 ^ 32) :
    SlpGenesisInfo.decodeLoop acc (varint 40 ++ (varint v ++ rest)) =
      SlpGenesisInfo.decodeLoop { acc with decimals := v } rest := by
  rw [SlpGenesisInfo.decodeLoop]
  rw [show (varint 40 ++ (varint v ++ rest)).isEmpty = false from rfl]
  rw [readUint32_varint (by norm_num) (varint v ++ rest)]
  dsimp only
  rw [readUint32_varint hv rest]
  rfl

theorem SlpGenesisInfo.slpGenesisInfo_decodeLoop_decimals_opt (acc : SlpGenesisInfo) (v : Nat) (rest : List Nat)
    (hacc : acc.decimals = 0) (hv : v < 2 ^ 32) :
    SlpGenesisInfo.decodeLoop acc ((if v ≠ 0 then varint 40 ++ varint v else []) ++ rest) =
      SlpGenesisInfo.decodeLoop { acc with decimals := v } rest := by
  by_cases h : v ≠ 0
  · rw [if_pos h, List.append_assoc]
    exact SlpGenesisInfo.slpGenesisInfo_decodeLoop_decimals acc v rest hv
  · have hz : v = 0 := by omega
    rw [if_neg h, List.nil_append, hz, ← hacc]

theorem SlpGenesisInfo.slpGenesisInfo_roundtrip (m : SlpGenesisInfo) (h : m.wfB) :
    SlpGenesisInfo.decode (SlpGenesisInfo.encode m) = some m := by
  unfold SlpGenesisInfo.wfB at h
  simp only [Bool.and_eq_true, decide_eq_true_eq] at h
  obtain ⟨⟨hbtokenTicker, hltokenTicker⟩, ⟨hbtokenName, hltokenName⟩, ⟨hbtokenDocumentUrl, hltokenDocumentUrl⟩, ⟨hbtokenDocumentHash, hltokenDocumentHash⟩, hdecimals⟩ := h
  unfold SlpGenesisInfo.decode
  conv_lhs => rw [show SlpGenesisInfo.encode m = SlpGenesisInfo.encode m ++ [] from (List.append_nil _).symm]
  unfold SlpGenesisInfo.encode
  simp only [List.append_assoc]
  rw [SlpGenesisInfo.slpGenesisInfo_decodeLoop_tokenTicker_opt _ _ _ rfl (by omega),
    SlpGenesisInfo.slpGenesisInfo_decodeLoop_tokenName_opt _ _ _ rfl (by omega),
    SlpGenesisInfo.slpGenesisInfo_decodeLoop_tokenDocumentUrl_opt _ _ _ rfl (by omega),
    SlpGenesisInfo.slpGenesisInfo_decodeLoop_tokenDocumentHash_opt _ _ _ rfl (by omega),
    SlpGenesisInfo.slpGenesisInfo_decodeLoop_decimals_opt _ _ _ rfl hdecimals,
    SlpGenesisInfo.slpGenesisInfo_decodeLoop_nil]


/-- `chronik.SlpTxData`: `slpMeta` field 1, `genesisInfo` field 2 (messages). -/
structure SlpTxData where
  slpMeta : Option SlpMeta
  genesisInfo : Option SlpGenesisInfo
deriving DecidableEq

/-- `SlpTxData.encode` from `chronik.ts`. -/
def SlpTxData.encode (m : SlpTxData) : List Nat :=
  optChunk 10 SlpMeta.encode m.slpMeta
  ++ optChunk 18 SlpGenesisInfo.encode m.genesisInfo

def SlpTxData.wfB (m : SlpTxData) : Bool :=
  (match m.slpMeta with
    | none => true
    | some x => SlpMeta.wfB x && (SlpMeta.encode x).length < 2 ^ 32)
  && ((match m.genesisInfo with
    | none => true
    | some x => SlpGenesisInfo.wfB x && (SlpGenesisInfo.encode x).length < 2 ^ 32))

/-- `baseSlpTxData` merged with the `decode` initializer. -/
def SlpTxData.base : SlpTxData :=
  { slpMeta := none, genesisInfo := none }

/-- The `while (reader.pos < end)` loop body of `SlpTxData.decode`. -/
def SlpTxData.decodeLoop (acc : SlpTxData) (l : List Nat) : Option SlpTxData :=
  if l.isEmpty then some acc
  else
    match hp : readUint32 l with
    | none => none
    | some (tag, r) =>
      if tag / 8 = 1 then
        match h2 : readBytes r with
        | none => none
        | some (bs, r2) =>
          match SlpMeta.decode bs with
          | none => none
          | some x => SlpTxData.decodeLoop { acc with slpMeta := some x } r2
      else if tag / 8 = 2 then
        match h2 : readBytes r with
        | none => none
        | some (bs, r2) =>
          match SlpGenesisInfo.decode bs with
          | none => none
          | some x => SlpTxData.decodeLoop { acc with genesisInfo := some x } r2
      else
        match h2 : skipType (tag % 8) r with
        | none => none
        | some r2 => SlpTxData.decodeLoop acc r2
termination_by l.length
decreasing_by
  all_goals
    have a := readUint32_length hp
    first
      | (have b := readBytes_length h2; omega)
      | (have b := readUint32_length h2; omega)
      | (have b := readInt32_length h2; omega)
      | (have b := readInt64_length h2; omega)
      | (have b := readUint64_length h2; omega)
      | (have b := readBool_length h2; omega)
      | (have b := skipType_length h2; omega)

/-- `SlpTxData.decode` from `chronik.ts`. -/
def SlpTxData.decode (l : List Nat) : Option SlpTxData :=
  SlpTxData.decodeLoop SlpTxData.base l

theorem SlpTxData.slpTxData_decodeLoop_nil (acc : SlpTxData) :
    SlpTxData.decodeLoop acc [] = some acc := by
  unfold SlpTxData.decodeLoop
  rfl

theorem SlpTxData.slpTxData_decodeLoop_slpMeta (acc : SlpTxData) (x : SlpMeta) (rest : List Nat)
    (hwf : SlpMeta.wfB x) (hlen : (SlpMeta.encode x).length < 2 ^ 64) :
    SlpTxData.decodeLoop acc (varint 10 ++ (lenDelim (SlpMeta.encode x) ++ rest)) =
      SlpTxData.decodeLoop { acc with slpMeta := some x } rest := by
  rw [SlpTxData.decodeLoop]
  rw [show (varint 10 ++ (lenDelim (SlpMeta.encode x) ++ rest)).isEmpty = false from rfl]
  rw [readUint32_varint (by norm_num) (lenDelim (SlpMeta.encode x) ++ rest)]
  dsimp only
  rw [readBytes_lenDelim _ rest hlen]
  dsimp only
  rw [SlpMeta.slpMeta_roundtrip x hwf]
  rfl

theorem SlpTxData.slpTxData_decodeLoop_slpMeta_opt (acc : SlpTxData) (o : Option SlpMeta) (rest : List Nat)
    (hacc : acc.slpMeta = none)
    (ho : ∀ x, o = some x → SlpMeta.wfB x ∧ (SlpMeta.encode x).length < 2 ^ 64) :
    SlpTxData.decodeLoop acc (optChunk 10 SlpMeta.encode o ++ rest) =
      SlpTxData.decodeLoop { acc with slpMeta := o } rest := by
  cases o with
  | none =>
    rw [show optChunk 10 SlpMeta.encode none = [] from rfl, List.nil_append]
    conv_rhs => rw [← hacc]
  | some x =>
    rw [show optChunk 10 SlpMeta.encode (some x) =
      varint 10 ++ lenDelim (SlpMeta.encode x) from rfl, List.append_assoc]
    exact SlpTxData.slpTxData_decodeLoop_slpMeta acc x rest (ho x rfl).1 (ho x rfl).2

theorem SlpTxData.slpTxData_decodeLoop_genesisInfo (acc : SlpTxData) (x : SlpGenesisInfo) (rest : List Nat)
    (hwf : SlpGenesisInfo.wfB x) (hlen : (SlpGenesisInfo.encode x).length < 2 ^ 64) :
    SlpTxData.decodeLoop acc (varint 18 ++ (lenDelim (SlpGenesisInfo.encode x) ++ rest)) =
      SlpTxData.decodeLoop { acc with genesisInfo := some x } rest := by
  rw [SlpTxData.decodeLoop]
  rw [show (varint 18 ++ (lenDelim (SlpGenesisInfo.encode x) ++ rest)).isEmpty = false from rfl]
  rw [readUint32_varint (by norm_num) (lenDelim (SlpGenesisInfo.encode x) ++ rest)]
  dsimp only
  rw [readBytes_lenDelim _ rest hlen]
  dsimp only
  rw [SlpGenesisInfo.slpGenesisInfo_roundtrip x hwf]
  rfl

theorem SlpTxData.slpTxData_decodeLoop_genesisInfo_opt (acc : SlpTxData) (o : Option SlpGenesisInfo) (rest : List Nat)
    (hacc : acc.genesisInfo = none)
    (ho : ∀ x, o = some x → SlpGenesisInfo.wfB x ∧ (SlpGenesisInfo.encode x).length < 2 ^ 64) :
    SlpTxData.decodeLoop acc (optChunk 18 SlpGenesisInfo.encode o ++ rest) =
      SlpTxData.decodeLoop { acc with genesisInfo := o } rest := by
  cases o with
  | none =>
    rw [show optChunk 18 SlpGenesisInfo.encode none = [] from rfl, List.nil_append]
    conv_rhs => rw [← hacc]
  | some x =>
    rw [show optChunk 18 SlpGenesisInfo.encode (some x) =
      varint 18 ++ lenDelim (SlpGenesisInfo.encode x) from rfl, List.append_assoc]
    exact SlpTxData.slpTxData_decodeLoop_genesisInfo acc x rest (ho x rfl).1 (ho x rfl).2

theorem SlpTxData.slpTxData_roundtrip (m : SlpTxData) (h : m.wfB) :
    SlpTxData.decode (SlpTxData.encode m) = some m := by
  unfold SlpTxData.wfB at h
  simp only [Bool.and_eq_true, decide_eq_true_eq] at h
  obtain ⟨hslpMeta, hgenesisInfo⟩ := h
  have hcslpMeta : ∀ x, m.slpMeta = some x → SlpMeta.wfB x ∧ (SlpMeta.encode x).length < 2 ^ 64 := by
    intro x hx
    rw [hx] at hslpMeta
    simp only [Bool.and_eq_true, decide_eq_true_eq] at hslpMeta
    exact ⟨hslpMeta.1, by omega⟩
  have hcgenesisInfo : ∀ x, m.genesisInfo = some x → SlpGenesisInfo.wfB x ∧ (SlpGenesisInfo.encode x).length < 2 ^ 64 := by
    intro x hx
    rw [hx] at hgenesisInfo
    simp only [Bool.and_eq_true, decide_eq_true_eq] at hgenesisInfo
    exact ⟨hgenesisInfo.1, by omega⟩
  unfold SlpTxData.decode
  conv_lhs => rw [show SlpTxData.encode m = SlpTxData.encode m ++ [] from (List.append_nil _).symm]
  unfold SlpTxData.encode
  simp only [List.append_assoc]
  rw [SlpTxData.slpTxData_decodeLoop_slpMeta_opt _ _ _ rfl hcslpMeta,
    SlpTxData.slpTxData_decodeLoop_genesisInfo_opt _ _ _ rfl hcgenesisInfo,
    SlpTxData.slpTxData_decodeLoop_nil]


/-- `chronik.BlockMetadata`: `height` field 1 (int32), `hash` field 2 (bytes),
`timestamp` field 3 (int64). -/
structure BlockMetadata where
  height : Int
  hash : List Nat
  timestamp : Int
deriving DecidableEq

/-- `BlockMetadata.encode` from `chronik.ts`. -/
def BlockMetadata.encode (m : BlockMetadata) : List Nat :=
  (if m.height ≠ 0 then varint 8 ++ intChunk m.height else [])
  ++ (if m.hash.length ≠ 0 then varint 18 ++ lenDelim m.hash else [])
  ++ (if m.timestamp ≠ 0 then varint 24 ++ intChunk m.timestamp else [])

def BlockMetadata.wfB (m : BlockMetadata) : Bool :=
  (-(2 ^ 31) ≤ m.height && m.height < 2 ^ 31)
  && ((m.hash.all (fun b => b < 256) && m.hash.length < 2 ^ 32)
  && ((-(2 ^ 63) ≤ m.timestamp && m.timestamp < 2 ^ 63)))

/-- `baseBlockMetadata` merged with the `decode` initializer. -/
def BlockMetadata.base : BlockMetadata :=
  { height := 0, hash := [], timestamp := 0 }

/-- The `while (reader.pos < end)` loop body of `BlockMetadata.decode`. -/
def BlockMetadata.decodeLoop (acc : BlockMetadata) (l : List Nat) : Option BlockMetadata :=
  if l.isEmpty then some acc
  else
    match hp : readUint32 l with
    | none => none
    | some (tag, r) =>
      if tag / 8 = 1 then
        match h2 : readInt32 r with
        | none => none
        | some (v, r2) => BlockMetadata.decodeLoop { acc with height := v } r2
      else if tag / 8 = 2 then
        match h2 : readBytes r with
        | none => none
        | some (bs, r2) => BlockMetadata.decodeLoop { acc with hash := bs } r2
      else if tag / 8 = 3 then
        match h2 : readInt64 r with
        | none => none
        | some (v, r2) => BlockMetadata.decodeLoop { acc with timestamp := v } r2
      else
        match h2 : skipType (tag % 8) r with
        | none => none
        | some r2 => BlockMetadata.decodeLoop acc r2
termination_by l.length
decreasing_by
  all_goals
    have a := readUint32_length hp
    first
      | (have b := readBytes_length h2; omega)
      | (have b := readUint32_length h2; omega)
      | (have b := readInt32_length h2; omega)
      | (have b := readInt64_length h2; omega)
      | (have b := readUint64_length h2; omega)
      | (have b := readBool_length h2; omega)
      | (have b := skipType_length h2; omega)

/-- `BlockMetadata.decode` from `chronik.ts`. -/
def BlockMetadata.decode (l : List Nat) : Option BlockMetadata :=
  BlockMetadata.decodeLoop BlockMetadata.base l

theorem BlockMetadata.blockMetadata_decodeLoop_nil (acc : BlockMetadata) :
    BlockMetadata.decodeLoop acc [] = some acc := by
  unfold BlockMetadata.decodeLoop
  rfl

theorem BlockMetadata.blockMetadata_decodeLoop_height (acc : BlockMetadata) (v : Int) (rest : List Nat)
    (hv1 : -(2 ^ 31) ≤ v) (hv2 : v < 2 ^ 31) :
    BlockMetadata.decodeLoop acc (varint 8 ++ (intChunk v ++ rest)) =
      BlockMetadata.decodeLoop { acc with height := v } rest := by
  rw [BlockMetadata.decodeLoop]
  rw [show (varint 8 ++ (intChunk v ++ rest)).isEmpty = false from rfl]
  rw [readUint32_varint (by norm_num) (intChunk v ++ rest)]
  dsimp only
  rw [readInt32_intChunk hv1 hv2 rest]
  rfl

theorem BlockMetadata.blockMetadata_decodeLoop_height_opt (acc : BlockMetadata) (v : Int) (rest : List Nat)
    (hacc : acc.height = 0) (hv1 : -(2 ^ 31) ≤ v) (hv2 : v < 2 ^ 31) :
    BlockMetadata.decodeLoop acc ((if v ≠ 0 then varint 8 ++ intChunk v else []) ++ rest) =
      BlockMetadata.decodeLoop { acc with height := v } rest := by
  by_cases h : v ≠ 0
  · rw [if_pos h, List.append_assoc]
    exact BlockMetadata.blockMetadata_decodeLoop_height acc v rest hv1 hv2
  · have hz : v = 0 := by omega
    rw [if_neg h, List.nil_append, hz, ← hacc]

theorem BlockMetadata.blockMetadata_decodeLoop_hash (acc : BlockMetadata) (bs rest : List Nat)
    (hbs : bs.length < 2 ^ 64) :
    BlockMetadata.decodeLoop acc (varint 18 ++ (lenDelim bs ++ rest)) =
      BlockMetadata.decodeLoop { acc with hash := bs } rest := by
  rw [BlockMetadata.decodeLoop]
  rw [show (varint 18 ++ (lenDelim bs ++ rest)).isEmpty = false from rfl]
  rw [readUint32_varint (by norm_num) (lenDelim bs ++ rest)]
  dsimp only
  rw [readBytes_lenDelim bs rest hbs]
  rfl

theorem BlockMetadata.blockMetadata_decodeLoop_hash_opt (acc : BlockMetadata) (bs rest : List Nat)
    (hacc : acc.hash = []) (hbs : bs.length < 2 ^ 64) :
    BlockMetadata.decodeLoop acc ((if bs.length ≠ 0 then varint 18 ++ lenDelim bs else []) ++ rest) =
      BlockMetadata.decodeLoop { acc with hash := bs } rest := by
  by_cases h : bs.length ≠ 0
  · rw [if_pos h, List.append_assoc]
    exact BlockMetadata.blockMetadata_decodeLoop_hash acc bs rest hbs
  · have hnil : bs = [] := by simpa using h
    rw [if_neg h, List.nil_append, hnil, ← hacc]

theorem BlockMetadata.blockMetadata_decodeLoop_timestamp (acc : BlockMetadata) (v : Int) (rest : List Nat)
    (hv1 : -(2 ^ 63) ≤ v) (hv2 : v < 2 ^ 63) :
    BlockMetadata.decodeLoop acc (varint 24 ++ (intChunk v ++ rest)) =
      BlockMetadata.decodeLoop { acc with timestamp := v } rest := by
  rw [BlockMetadata.decodeLoop]
  rw [show (varint 24 ++ (intChunk v ++ rest)).isEmpty = false from rfl]
  rw [readUint32_varint (by norm_num) (intChunk v ++ rest)]
  dsimp only
  rw [readInt64_intChunk hv1 hv2 rest]
  rfl

theorem BlockMetadata.blockMetadata_decodeLoop_timestamp_opt (acc : BlockMetadata) (v : Int) (rest : List Nat)
    (hacc : acc.timestamp = 0) (hv1 : -(2 ^ 63) ≤ v) (hv2 : v < 2 ^ 63) :
    BlockMetadata.decodeLoop acc ((if v ≠ 0 then varint 24 ++ intChunk v else []) ++ rest) =
      BlockMetadata.decodeLoop { acc with timestamp := v } rest := by
  by_cases h : v ≠ 0
  · rw [if_pos h, List.append_assoc]
    exact BlockMetadata.blockMetadata_decodeLoop_timestamp acc v rest hv1 hv2
  · have hz : v = 0 := by omega
    rw [if_neg h, List.nil_append, hz, ← hacc]

theorem BlockMetadata.blockMetadata_roundtrip (m : BlockMetadata) (h : m.wfB) :
    BlockMetadata.decode (BlockMetadata.encode m) = some m := by
  unfold BlockMetadata.wfB at h
  simp only [Bool.and_eq_true, decide_eq_true_eq] at h
  obtain ⟨⟨hheight1, hheight2⟩, ⟨hbhash, hlhash⟩, ⟨htimestamp1, htimestamp2⟩⟩ := h
  unfold BlockMetadata.decode
  conv_lhs => rw [show BlockMetadata.encode m = BlockMetadata.encode m ++ [] from (List.append_nil _).symm]
  unfold BlockMetadata.encode
  simp only [List.append_assoc]
  rw [BlockMetadata.blockMetadata_decodeLoop_height_opt _ _ _ rfl hheight1 hheight2,
    BlockMetadata.blockMetadata_decodeLoop_hash_opt _ _ _ rfl (by omega),
    BlockMetadata.blockMetadata_decodeLoop_timestamp_opt _ _ _ rfl htimestamp1 htimestamp2,
    BlockMetadata.blockMetadata_decodeLoop_nil]


/-- `chronik.TxInput`: `prevOut` 1, `inputScript` 2, `outputScript` 3,
`value` 4 (int64), `sequenceNo` 5 (uint32), `slpBurn` 6, `slpToken` 7. -/
structure TxInput where
  prevOut : Option OutPoint
  inputScript : List Nat
  outputScript : List Nat
  value : Int
  sequenceNo : Nat
  slpBurn : Option SlpBurn
  slpToken : Option SlpToken
deriving DecidableEq

/-- `TxInput.encode` from `chronik.ts`. -/
def TxInput.encode (m : TxInput) : List Nat :=
  optChunk 10 OutPoint.encode m.prevOut
  ++ (if m.inputScript.length ≠ 0 then varint 18 ++ lenDelim m.inputScript else [])
  ++ (if m.outputScript.length ≠ 0 then varint 26 ++ lenDelim m.outputScript else [])
  ++ (if m.value ≠ 0 then varint 32 ++ intChunk m.value else [])
  ++ (if m.sequenceNo ≠ 0 then varint 40 ++ varint m.sequenceNo else [])
  ++ optChunk 50 SlpBurn.encode m.slpBurn
  ++ optChunk 58 SlpToken.encode m.slpToken

def TxInput.wfB (m : TxInput) : Bool :=
  (match m.prevOut with
    | none => true
    | some x => OutPoint.wfB x && (OutPoint.encode x).length < 2 ^ 32)
  && ((m.inputScript.all (fun b => b < 256) && m.inputScript.length < 2 ^ 32)
  && ((m.outputScript.all (fun b => b < 256) && m.outputScript.length < 2 ^ 32)
  && ((-(2 ^ 63) ≤ m.value && m.value < 2 ^ 63)
  && ((m.sequenceNo < 2 ^ 32)
  && ((match m.slpBurn with
    | none => true
    | some x => SlpBurn.wfB x && (SlpBurn.encode x).length < 2 ^ 32)
  && ((match m.slpToken with
    | none => true
    | some x => SlpToken.wfB x && (SlpToken.encode x).length < 2 ^ 32)))))))

/-- `baseTxInput` merged with the `decode` initializer. -/
def TxInput.base : TxInput :=
  { prevOut := none, inputScript := [], outputScript := [], value := 0, sequenceNo := 0, slpBurn := none, slpToken := none }

/-- The `while (reader.pos < end)` loop body of `TxInput.decode`. -/
def TxInput.decodeLoop (acc : TxInput) (l : List Nat) : Option TxInput :=
  if l.isEmpty then some acc
  else
    match hp : readUint32 l with
    | none => none
    | some (tag, r) =>
      if tag / 8 = 1 then
        match h2 : readBytes r with
        | none => none
        | some (bs, r2) =>
          match OutPoint.decode bs with
          | none => none
          | some x => TxInput.decodeLoop { acc with prevOut := some x } r2
      else if tag / 8 = 2 then
        match h2 : readBytes r with
        | none => none
        | some (bs, r2) => TxInput.decodeLoop { acc with inputScript := bs } r2
      else if tag / 8 = 3 then
        match h2 : readBytes r with
        | none => none
        | some (bs, r2) => TxInput.decodeLoop { acc with outputScript := bs } r2
      else if tag / 8 = 4 then
        match h2 : readInt64 r with
        | none => none
        | some (v, r2) => TxInput.decodeLoop { acc with value := v } r2
      else if tag / 8 = 5 then
        match h2 : readUint32 r with
        | none => none
        | some (v, r2) => TxInput.decodeLoop { acc with sequenceNo := v } r2
      else if tag / 8 = 6 then
        match h2 : readBytes r with
        | none => none
        | some (bs, r2) =>
          match SlpBurn.decode bs with
          | none => none
          | some x => TxInput.decodeLoop { acc with slpBurn := some x } r2
      else if tag / 8 = 7 then
        match h2 : readBytes r with
        | none => none
        | some (bs, r2) =>
          match SlpToken.decode bs with
          | none => none
          | some x => TxInput.decodeLoop { acc with slpToken := some x } r2
      else
        match h2 : skipType (tag % 8) r with
        | none => none
        | some r2 => TxInput.decodeLoop acc r2
termination_by l.length
decreasing_by
  all_goals
    have a := readUint32_length hp
    first
      | (have b := readBytes_length h2; omega)
      | (have b := readUint32_length h2; omega)
      | (have b := readInt32_length h2; omega)
      | (have b := readInt64_length h2; omega)
      | (have b := readUint64_length h2; omega)
      | (have b := readBool_length h2; omega)
      | (have b := skipType_length h2; omega)

/-- `TxInput.decode` from `chronik.ts`. -/
def TxInput.decode (l : List Nat) : Option TxInput :=
  TxInput.decodeLoop TxInput.base l

theorem TxInput.txInput_decodeLoop_nil (acc : TxInput) :
    TxInput.decodeLoop acc [] = some acc := by
  unfold TxInput.decodeLoop
  rfl

theorem TxInput.txInput_decodeLoop_prevOut (acc : TxInput) (x : OutPoint) (rest : List Nat)
    (hwf : OutPoint.wfB x) (hlen : (OutPoint.encode x).length < 2 ^ 64) :
    TxInput.decodeLoop acc (varint 10 ++ (lenDelim (OutPoint.encode x) ++ rest)) =
      TxInput.decodeLoop { acc with prevOut := some x } rest := by
  rw [TxInput.decodeLoop]
  rw [show (varint 10 ++ (lenDelim (OutPoint.encode x) ++ rest)).isEmpty = false from rfl]
  rw [readUint32_varint (by norm_num) (lenDelim (OutPoint.encode x) ++ rest)]
  dsimp only
  rw [readBytes_lenDelim _ rest hlen]
  dsimp only
  rw [OutPoint.outPoint_roundtrip x hwf]
  rfl

theorem TxInput.txInput_decodeLoop_prevOut_opt (acc : TxInput) (o : Option OutPoint) (rest : List Nat)
    (hacc : acc.prevOut = none)
    (ho : ∀ x, o = some x → OutPoint.wfB x ∧ (OutPoint.encode x).length < 2 ^ 64) :
    TxInput.decodeLoop acc (optChunk 10 OutPoint.encode o ++ rest) =
      TxInput.decodeLoop { acc with prevOut := o } rest := by
  cases o with
  | none =>
    rw [show optChunk 10 OutPoint.encode none = [] from rfl, List.nil_append]
    conv_rhs => rw [← hacc]
  | some x =>
    rw [show optChunk 10 OutPoint.encode (some x) =
      varint 10 ++ lenDelim (OutPoint.encode x) from rfl, List.append_assoc]
    exact TxInput.txInput_decodeLoop_prevOut acc x rest (ho x rfl).1 (ho x rfl).2

theorem TxInput.txInput_decodeLoop_inputScript (acc : TxInput) (bs rest : List Nat)
    (hbs : bs.length < 2 ^ 64) :
    TxInput.decodeLoop acc (varint 18 ++ (lenDelim bs ++ rest)) =
      TxInput.decodeLoop { acc with inputScript := bs } rest := by
  rw [TxInput.decodeLoop]
  rw [show (varint 18 ++ (lenDelim bs ++ rest)).isEmpty = false from rfl]
  rw [readUint32_varint (by norm_num) (lenDelim bs ++ rest)]
  dsimp only
  rw [readBytes_lenDelim bs rest hbs]
  rfl

theorem TxInput.txInput_decodeLoop_inputScript_opt (acc : TxInput) (bs rest : List Nat)
    (hacc : acc.inputScript = []) (hbs : bs.length < 2 ^ 64) :
    TxInput.decodeLoop acc ((if bs.length ≠ 0 then varint 18 ++ lenDelim bs else []) ++ rest) =
      TxInput.decodeLoop { acc with inputScript := bs } rest := by
  by_cases h : bs.length ≠ 0
  · rw [if_pos h, List.append_assoc]
    exact TxInput.txInput_decodeLoop_inputScript acc bs rest hbs
  · have hnil : bs = [] := by simpa using h
    rw [if_neg h, List.nil_append, hnil, ← hacc]

theorem TxInput.txInput_decodeLoop_outputScript (acc : TxInput) (bs rest : List Nat)
    (hbs : bs.length < 2 ^ 64) :
    TxInput.decodeLoop acc (varint 26 ++ (lenDelim bs ++ rest)) =
      TxInput.decodeLoop { acc with outputScript := bs } rest := by
  rw [TxInput.decodeLoop]
  rw [show (varint 26 ++ (lenDelim bs ++ rest)).isEmpty = false from rfl]
  rw [readUint32_varint (by norm_num) (lenDelim bs ++ rest)]
  dsimp only
  rw [readBytes_lenDelim bs rest hbs]
  rfl

theorem TxInput.txInput_decodeLoop_outputScript_opt (acc : TxInput) (bs rest : List Nat)
    (hacc : acc.outputScript = []) (hbs : bs.length < 2 ^ 64) :
    TxInput.decodeLoop acc ((if bs.length ≠ 0 then varint 26 ++ lenDelim bs else []) ++ rest) =
      TxInput.decodeLoop { acc with outputScript := bs } rest := by
  by_cases h : bs.length ≠ 0
  · rw [if_pos h, List.append_assoc]
    exact TxInput.txInput_decodeLoop_outputScript acc bs rest hbs
  · have hnil : bs = [] := by simpa using h
    rw [if_neg h, List.nil_append, hnil, ← hacc]

theorem TxInput.txInput_decodeLoop_value (acc : TxInput) (v : Int) (rest : List Nat)
    (hv1 : -(2 ^ 63) ≤ v) (hv2 : v < 2 ^ 63) :
    TxInput.decodeLoop acc (varint 32 ++ (intChunk v ++ rest)) =
      TxInput.decodeLoop { acc with value := v } rest := by
  rw [TxInput.decodeLoop]
  rw [show (varint 32 ++ (intChunk v ++ rest)).isEmpty = false from rfl]
  rw [readUint32_varint (by norm_num) (intChunk v ++ rest)]
  dsimp only
  rw [readInt64_intChunk hv1 hv2 rest]
  rfl

theorem TxInput.txInput_decodeLoop_value_opt (acc : TxInput) (v : Int) (rest : List Nat)
    (hacc : acc.value = 0) (hv1 : -(2 ^ 63) ≤ v) (hv2 : v < 2 ^ 63) :
    TxInput.decodeLoop acc ((if v ≠ 0 then varint 32 ++ intChunk v else []) ++ rest) =
      TxInput.decodeLoop { acc with value := v } rest := by
  by_cases h : v ≠ 0
  · rw [if_pos h, List.append_assoc]
    exact TxInput.txInput_decodeLoop_value acc v rest hv1 hv2
  · have hz : v = 0 := by omega
    rw [if_neg h, List.nil_append, hz, ← hacc]

theorem TxInput.txInput_decodeLoop_sequenceNo (acc : TxInput) (v : Nat) (rest : List Nat)
    (hv : v < 2 ^ 32) :
    TxInput.decodeLoop acc (varint 40 ++ (varint v ++ rest)) =
      TxInput.decodeLoop { acc with sequenceNo := v } rest := by
  rw [TxInput.decodeLoop]
  rw [show (varint 40 ++ (varint v ++ rest)).isEmpty = false from rfl]
  rw [readUint32_varint (by norm_num) (varint v ++ rest)]
  dsimp only
  rw [readUint32_varint hv rest]
  rfl

theorem TxInput.txInput_decodeLoop_sequenceNo_opt (acc : TxInput) (v : Nat) (rest : List Nat)
    (hacc : acc.sequenceNo = 0) (hv : v < 2 ^ 32) :
    TxInput.decodeLoop acc ((if v ≠ 0 then varint 40 ++ varint v else []) ++ rest) =
      TxInput.decodeLoop { acc with sequenceNo := v } rest := by
  by_cases h : v ≠ 0
  · rw [if_pos h, List.append_assoc]
    exact TxInput.txInput_decodeLoop_sequenceNo acc v rest hv
  · have hz : v = 0 := by omega
    rw [if_neg h, List.nil_append, hz, ← hacc]

theorem TxInput.txInput_decodeLoop_slpBurn (acc : TxInput) (x : SlpBurn) (rest : List Nat)
    (hwf : SlpBurn.wfB x) (hlen : (SlpBurn.encode x).length < 2 ^ 64) :
    TxInput.decodeLoop acc (varint 50 ++ (lenDelim (SlpBurn.encode x) ++ rest)) =
      TxInput.decodeLoop { acc with slpBurn := some x } rest := by
  rw [TxInput.decodeLoop]
  rw [show (varint 50 ++ (lenDelim (SlpBurn.encode x) ++ rest)).isEmpty = false from rfl]
  rw [readUint32_varint (by norm_num) (lenDelim (SlpBurn.encode x) ++ rest)]
  dsimp only
  rw [readBytes_lenDelim _ rest hlen]
  dsimp only
  rw [SlpBurn.slpBurn_roundtrip x hwf]
  rfl

theorem TxInput.txInput_decodeLoop_slpBurn_opt (acc : TxInput) (o : Option SlpBurn) (rest : List Nat)
    (hacc : acc.slpBurn = none)
    (ho : ∀ x, o = some x → SlpBurn.wfB x ∧ (SlpBurn.encode x).length < 2 ^ 64) :
    TxInput.decodeLoop acc (optChunk 50 SlpBurn.encode o ++ rest) =
      TxInput.decodeLoop { acc with slpBurn := o } rest := by
  cases o with
  | none =>
    rw [show optChunk 50 SlpBurn.encode none = [] from rfl, List.nil_append]
    conv_rhs => rw [← hacc]
  | some x =>
    rw [show optChunk 50 SlpBurn.encode (some x) =
      varint 50 ++ lenDelim (SlpBurn.encode x) from rfl, List.append_assoc]
    exact TxInput.txInput_decodeLoop_slpBurn acc x rest (ho x rfl).1 (ho x rfl).2

theorem TxInput.txInput_decodeLoop_slpToken (acc : TxInput) (x : SlpToken) (rest : List Nat)
    (hwf : SlpToken.wfB x) (hlen : (SlpToken.encode x).length < 2 ^ 64) :
    TxInput.decodeLoop acc (varint 58 ++ (lenDelim (SlpToken.encode x) ++ rest)) =
      TxInput.decodeLoop { acc with slpToken := some x } rest := by
  rw [TxInput.decodeLoop]
  rw [show (varint 58 ++ (lenDelim (SlpToken.encode x) ++ rest)).isEmpty = false from rfl]
  rw [readUint32_varint (by norm_num) (lenDelim (SlpToken.encode x) ++ rest)]
  dsimp only
  rw [readBytes_lenDelim _ rest hlen]
  dsimp only
  rw [SlpToken.slpToken_roundtrip x hwf]
  rfl

theorem TxInput.txInput_decodeLoop_slpToken_opt (acc : TxInput) (o : Option SlpToken) (rest : List Nat)
    (hacc : acc.slpToken = none)
    (ho : ∀ x, o = some x → SlpToken.wfB x ∧ (SlpToken.encode x).length < 2 ^ 64) :
    TxInput.decodeLoop acc (optChunk 58 SlpToken.encode o ++ rest) =
      TxInput.decodeLoop { acc with slpToken := o } rest := by
  cases o with
  | none =>
    rw [show optChunk 58 SlpToken.encode none = [] from rfl, List.nil_append]
    conv_rhs => rw [← hacc]
  | some x =>
    rw [show optChunk 58 SlpToken.encode (some x) =
      varint 58 ++ lenDelim (SlpToken.encode x) from rfl, List.append_assoc]
    exact TxInput.txInput_decodeLoop_slpToken acc x rest (ho x rfl).1 (ho x rfl).2

theorem TxInput.txInput_roundtrip (m : TxInput) (h : m.wfB) :
    TxInput.decode (TxInput.encode m) = some m := by
  unfold TxInput.wfB at h
  simp only [Bool.and_eq_true, decide_eq_true_eq] at h
  obtain ⟨hprevOut, ⟨hbinputScript, hlinputScript⟩, ⟨hboutputScript, hloutputScript⟩, ⟨hvalue1, hvalue2⟩, hsequenceNo, hslpBurn, hslpToken⟩ := h
  have hcprevOut : ∀ x, m.prevOut = some x → OutPoint.wfB x ∧ (OutPoint.encode x).length < 2 ^ 64 := by
    intro x hx
    rw [hx] at hprevOut
    simp only [Bool.and_eq_true, decide_eq_true_eq] at hprevOut
    exact ⟨hprevOut.1, by omega⟩
  have hcslpBurn : ∀ x, m.slpBurn = some x → SlpBurn.wfB x ∧ (SlpBurn.encode x).length < 2 ^ 64 := by
    intro x hx
    rw [hx] at hslpBurn
    simp only [Bool.and_eq_true, decide_eq_true_eq] at hslpBurn
    exact ⟨hslpBurn.1, by omega⟩
  have hcslpToken : ∀ x, m.slpToken = some x → SlpToken.wfB x ∧ (SlpToken.encode x).length < 2 ^ 64 := by
    intro x hx
    rw [hx] at hslpToken
    simp only [Bool.and_eq_true, decide_eq_true_eq] at hslpToken
    exact ⟨hslpToken.1, by omega⟩
  unfold TxInput.decode
  conv_lhs => rw [show TxInput.encode m = TxInput.encode m ++ [] from (List.append_nil _).symm]
  unfold TxInput.encode
  simp only [List.append_assoc]
  rw [TxInput.txInput_decodeLoop_prevOut_opt _ _ _ rfl hcprevOut,
    TxInput.txInput_decodeLoop_inputScript_opt _ _ _ rfl (by omega),
    TxInput.txInput_decodeLoop_outputScript_opt _ _ _ rfl (by omega),
    TxInput.txInput_decodeLoop_value_opt _ _ _ rfl hvalue1 hvalue2,
    TxInput.txInput_decodeLoop_sequenceNo_opt _ _ _ rfl hsequenceNo,
    TxInput.txInput_decodeLoop_slpBurn_opt _ _ _ rfl hcslpBurn,
    TxInput.txInput_decodeLoop_slpToken_opt _ _ _ rfl hcslpToken,
    TxInput.txInput_decodeLoop_nil]


/-- `chronik.TxOutput`: `value` 1 (int64), `outputScript` 2 (bytes),
`slpToken` 3, `spentBy` 4 (messages). -/
structure TxOutput where
  value : Int
  outputScript : List Nat
  slpToken : Option SlpToken
  spentBy : Option OutPoint
deriving DecidableEq

/-- `TxOutput.encode` from `chronik.ts`. -/
def TxOutput.encode (m : TxOutput) : List Nat :=
  (if m.value ≠ 0 then varint 8 ++ intChunk m.value else [])
  ++ (if m.outputScript.length ≠ 0 then varint 18 ++ lenDelim m.outputScript else [])
  ++ optChunk 26 SlpToken.encode m.slpToken
  ++ optChunk 34 OutPoint.encode m.spentBy

def TxOutput.wfB (m : TxOutput) : Bool :=
  (-(2 ^ 63) ≤ m.value && m.value < 2 ^ 63)
  && ((m.outputScript.all (fun b => b < 256) && m.outputScript.length < 2 ^ 32)
  && ((match m.slpToken with
    | none => true
    | some x => SlpToken.wfB x && (SlpToken.encode x).length < 2 ^ 32)
  && ((match m.spentBy with
    | none => true
    | some x => OutPoint.wfB x && (OutPoint.encode x).length < 2 ^ 32))))

/-- `baseTxOutput` merged with the `decode` initializer. -/
def TxOutput.base : TxOutput :=
  { value := 0, outputScript := [], slpToken := none, spentBy := none }

/-- The `while (reader.pos < end)` loop body of `TxOutput.decode`. -/
def TxOutput.decodeLoop (acc : TxOutput) (l : List Nat) : Option TxOutput :=
  if l.isEmpty then some acc
  else
    match hp : readUint32 l with
    | none => none
    | some (tag, r) =>
      if tag / 8 = 1 then
        match h2 : readInt64 r with
        | none => none
        | some (v, r2) => TxOutput.decodeLoop { acc with value := v } r2
      else if tag / 8 = 2 then
        match h2 : readBytes r with
        | none => none
        | some (bs, r2) => TxOutput.decodeLoop { acc with outputScript := bs } r2
      else if tag / 8 = 3 then
        match h2 : readBytes r with
        | none => none
        | some (bs, r2) =>
          match SlpToken.decode bs with
          | none => none
          | some x => TxOutput.decodeLoop { acc with slpToken := some x } r2
      else if tag / 8 = 4 then
        match h2 : readBytes r with
        | none => none
        | some (bs, r2) =>
          match OutPoint.decode bs with
          | none => none
          | some x => TxOutput.decodeLoop { acc with spentBy := some x } r2
      else
        match h2 : skipType (tag % 8) r with
        | none => none
        | some r2 => TxOutput.decodeLoop acc r2
termination_by l.length
decreasing_by
  all_goals
    have a := readUint32_length hp
    first
      | (have b := readBytes_length h2; omega)
      | (have b := readUint32_length h2; omega)
      | (have b := readInt32_length h2; omega)
      | (have b := readInt64_length h2; omega)
      | (have b := readUint64_length h2; omega)
      | (have b := readBool_length h2; omega)
      | (have b := skipType_length h2; omega)

/-- `TxOutput.decode` from `chronik.ts`. -/
def TxOutput.decode (l : List Nat) : Option TxOutput :=
  TxOutput.decodeLoop TxOutput.base l

theorem TxOutput.txOutput_decodeLoop_nil (acc : TxOutput) :
    TxOutput.decodeLoop acc [] = some acc := by
  unfold TxOutput.decodeLoop
  rfl

theorem TxOutput.txOutput_decodeLoop_value (acc : TxOutput) (v : Int) (rest : List Nat)
    (hv1 : -(2 ^ 63) ≤ v) (hv2 : v < 2 ^ 63) :
    TxOutput.decodeLoop acc (varint 8 ++ (intChunk v ++ rest)) =
      TxOutput.decodeLoop { acc with value := v } rest := by
  rw [TxOutput.decodeLoop]
  rw [show (varint 8 ++ (intChunk v ++ rest)).isEmpty = false from rfl]
  rw [readUint32_varint (by norm_num) (intChunk v ++ rest)]
  dsimp only
  rw [readInt64_intChunk hv1 hv2 rest]
  rfl

theorem TxOutput.txOutput_decodeLoop_value_opt (acc : TxOutput) (v : Int) (rest : List Nat)
    (hacc : acc.value = 0) (hv1 : -(2 ^ 63) ≤ v) (hv2 : v < 2 ^ 63) :
    TxOutput.decodeLoop acc ((if v ≠ 0 then varint 8 ++ intChunk v else []) ++ rest) =
      TxOutput.decodeLoop { acc with value := v } rest := by
  by_cases h : v ≠ 0
  · rw [if_pos h, List.append_assoc]
    exact TxOutput.txOutput_decodeLoop_value acc v rest hv1 hv2
  · have hz : v = 0 := by omega
    rw [if_neg h, List.nil_append, hz, ← hacc]

theorem TxOutput.txOutput_decodeLoop_outputScript (acc : TxOutput) (bs rest : List Nat)
    (hbs : bs.length < 2 ^ 64) :
    TxOutput.decodeLoop acc (varint 18 ++ (lenDelim bs ++ rest)) =
      TxOutput.decodeLoop { acc with outputScript := bs } rest := by
  rw [TxOutput.decodeLoop]
  rw [show (varint 18 ++ (lenDelim bs ++ rest)).isEmpty = false from rfl]
  rw [readUint32_varint (by norm_num) (lenDelim bs ++ rest)]
  dsimp only
  rw [readBytes_lenDelim bs rest hbs]
  rfl

theorem TxOutput.txOutput_decodeLoop_outputScript_opt (acc : TxOutput) (bs rest : List Nat)
    (hacc : acc.outputScript = []) (hbs : bs.length < 2 ^ 64) :
    TxOutput.decodeLoop acc ((if bs.length ≠ 0 then varint 18 ++ lenDelim bs else []) ++ rest) =
      TxOutput.decodeLoop { acc with outputScript := bs } rest := by
  by_cases h : bs.length ≠ 0
  · rw [if_pos h, List.append_assoc]
    exact TxOutput.txOutput_decodeLoop_outputScript acc bs rest hbs
  · have hnil : bs = [] := by simpa using h
    rw [if_neg h, List.nil_append, hnil, ← hacc]

theorem TxOutput.txOutput_decodeLoop_slpToken (acc : TxOutput) (x : SlpToken) (rest : List Nat)
    (hwf : SlpToken.wfB x) (hlen : (SlpToken.encode x).length < 2 ^ 64) :
    TxOutput.decodeLoop acc (varint 26 ++ (lenDelim (SlpToken.encode x) ++ rest)) =
      TxOutput.decodeLoop { acc with slpToken := some x } rest := by
  rw [TxOutput.decodeLoop]
  rw [show (varint 26 ++ (lenDelim (SlpToken.encode x) ++ rest)).isEmpty = false from rfl]
  rw [readUint32_varint (by norm_num) (lenDelim (SlpToken.encode x) ++ rest)]
  dsimp only
  rw [readBytes_lenDelim _ rest hlen]
  dsimp only
  rw [SlpToken.slpToken_roundtrip x hwf]
  rfl

theorem TxOutput.txOutput_decodeLoop_slpToken_opt (acc : TxOutput) (o : Option SlpToken) (rest : List Nat)
    (hacc : acc.slpToken = none)
    (ho : ∀ x, o = some x → SlpToken.wfB x ∧ (SlpToken.encode x).length < 2 ^ 64) :
    TxOutput.decodeLoop acc (optChunk 26 SlpToken.encode o ++ rest) =
      TxOutput.decodeLoop { acc with slpToken := o } rest := by
  cases o with
  | none =>
    rw [show optChunk 26 SlpToken.encode none = [] from rfl, List.nil_append]
    conv_rhs => rw [← hacc]
  | some x =>
    rw [show optChunk 26 SlpToken.encode (some x) =
      varint 26 ++ lenDelim (SlpToken.encode x) from rfl, List.append_assoc]
    exact TxOutput.txOutput_decodeLoop_slpToken acc x rest (ho x rfl).1 (ho x rfl).2

theorem TxOutput.txOutput_decodeLoop_spentBy (acc : TxOutput) (x : OutPoint) (rest : List Nat)
    (hwf : OutPoint.wfB x) (hlen : (OutPoint.encode x).length < 2 ^ 64) :
    TxOutput.decodeLoop acc (varint 34 ++ (lenDelim (OutPoint.encode x) ++ rest)) =
      TxOutput.decodeLoop { acc with spentBy := some x } rest := by
  rw [TxOutput.decodeLoop]
  rw [show (varint 34 ++ (lenDelim (OutPoint.encode x) ++ rest)).isEmpty = false from rfl]
  rw [readUint32_varint (by norm_num) (lenDelim (OutPoint.encode x) ++ rest)]
  dsimp only
  rw [readBytes_lenDelim _ rest hlen]
  dsimp only
  rw [OutPoint.outPoint_roundtrip x hwf]
  rfl

theorem TxOutput.txOutput_decodeLoop_spentBy_opt (acc : TxOutput) (o : Option OutPoint) (rest : List Nat)
    (hacc : acc.spentBy = none)
    (ho : ∀ x, o = some x → OutPoint.wfB x ∧ (OutPoint.encode x).length < 2 ^ 64) :
    TxOutput.decodeLoop acc (optChunk 34 OutPoint.encode o ++ rest) =
      TxOutput.decodeLoop { acc with spentBy := o } rest := by
  cases o with
  | none =>
    rw [show optChunk 34 OutPoint.encode none = [] from rfl, List.nil_append]
    conv_rhs => rw [← hacc]
  | some x =>
    rw [show optChunk 34 OutPoint.encode (some x) =
      varint 34 ++ lenDelim (OutPoint.encode x) from rfl, List.append_assoc]
    exact TxOutput.txOutput_decodeLoop_spentBy acc x rest (ho x rfl).1 (ho x rfl).2

theorem TxOutput.txOutput_roundtrip (m : TxOutput) (h : m.wfB) :
    TxOutput.decode (TxOutput.encode m) = some m := by
  unfold TxOutput.wfB at h
  simp only [Bool.and_eq_true, decide_eq_true_eq] at h
  obtain ⟨⟨hvalue1, hvalue2⟩, ⟨hboutputScript, hloutputScript⟩, hslpToken, hspentBy⟩ := h
  have hcslpToken : ∀ x, m.slpToken = some x → SlpToken.wfB x ∧ (SlpToken.encode x).length < 2 ^ 64 := by
    intro x hx
    rw [hx] at hslpToken
    simp only [Bool.and_eq_true, decide_eq_true_eq] at hslpToken
    exact ⟨hslpToken.1, by omega⟩
  have hcspentBy : ∀ x, m.spentBy = some x → OutPoint.wfB x ∧ (OutPoint.encode x).length < 2 ^ 64 := by
    intro x hx
    rw [hx] at hspentBy
    simp only [Bool.and_eq_true, decide_eq_true_eq] at hspentBy
    exact ⟨hspentBy.1, by omega⟩
  unfold TxOutput.decode
  conv_lhs => rw [show TxOutput.encode m = TxOutput.encode m ++ [] from (List.append_nil _).symm]
  unfold TxOutput.encode
  simp only [List.append_assoc]
  rw [TxOutput.txOutput_decodeLoop_value_opt _ _ _ rfl hvalue1 hvalue2,
    TxOutput.txOutput_decodeLoop_outputScript_opt _ _ _ rfl (by omega),
    TxOutput.txOutput_decodeLoop_slpToken_opt _ _ _ rfl hcslpToken,
    TxOutput.txOutput_decodeLoop_spentBy_opt _ _ _ rfl hcspentBy,
    TxOutput.txOutput_decodeLoop_nil]


/-- `chronik.Tx`: `txid` 1 (bytes), `version` 2 (int32), `inputs` 3 (repeated),
`outputs` 4 (repeated), `lockTime` 5 (uint32), `slpTxData` 6, `slpErrorMsg` 7
(string), `block` 8, `timeFirstSeen` 9 (int64), `network` 10 (enum). -/
structure Tx where
  txid : List Nat
  version : Int
  inputs : List TxInput
  outputs : List TxOutput
  lockTime : Nat
  slpTxData : Option SlpTxData
  slpErrorMsg : List Nat
  block : Option BlockMetadata
  timeFirstSeen : Int
  network : Int
deriving DecidableEq

/-- `Tx.encode` from `chronik.ts`. -/
def Tx.encode (m : Tx) : List Nat :=
  (if m.txid.length ≠ 0 then varint 10 ++ lenDelim m.txid else [])
  ++ (if m.version ≠ 0 then varint 16 ++ intChunk m.version else [])
  ++ (m.inputs.flatMap fun x => varint 26 ++ lenDelim (TxInput.encode x))
  ++ (m.outputs.flatMap fun x => varint 34 ++ lenDelim (TxOutput.encode x))
  ++ (if m.lockTime ≠ 0 then varint 40 ++ varint m.lockTime else [])
  ++ optChunk 50 SlpTxData.encode m.slpTxData
  ++ (if m.slpErrorMsg.length ≠ 0 then varint 58 ++ lenDelim m.slpErrorMsg else [])
  ++ optChunk 66 BlockMetadata.encode m.block
  ++ (if m.timeFirstSeen ≠ 0 then varint 72 ++ intChunk m.timeFirstSeen else [])
  ++ (if m.network ≠ 0 then varint 80 ++ intChunk m.network else [])

def Tx.wfB (m : Tx) : Bool :=
  (m.txid.all (fun b => b < 256) && m.txid.length < 2 ^ 32)
  && ((-(2 ^ 31) ≤ m.version && m.version < 2 ^ 31)
  && ((m.inputs.all fun x => TxInput.wfB x && (TxInput.encode x).length < 2 ^ 32)
  && ((m.outputs.all fun x => TxOutput.wfB x && (TxOutput.encode x).length < 2 ^ 32)
  && ((m.lockTime < 2 ^ 32)
  && ((match m.slpTxData with
    | none => true
    | some x => SlpTxData.wfB x && (SlpTxData.encode x).length < 2 ^ 32)
  && ((m.slpErrorMsg.all (fun b => b < 256) && m.slpErrorMsg.length < 2 ^ 32)
  && ((match m.block with
    | none => true
    | some x => BlockMetadata.wfB x && (BlockMetadata.encode x).length < 2 ^ 32)
  && ((-(2 ^ 63) ≤ m.timeFirstSeen && m.timeFirstSeen < 2 ^ 63)
  && ((-(2 ^ 31) ≤ m.network && m.network < 2 ^ 31))))))))))

/-- `baseTx` merged with the `decode` initializer. -/
def Tx.base : Tx :=
  { txid := [], version := 0, inputs := [], outputs := [], lockTime := 0, slpTxData := none, slpErrorMsg := [], block := none, timeFirstSeen := 0, network := 0 }

/-- The `while (reader.pos < end)` loop body of `Tx.decode`. -/
def Tx.decodeLoop (acc : Tx) (l : List Nat) : Option Tx :=
  if l.isEmpty then some acc
  else
    match hp : readUint32 l with
    | none => none
    | some (tag, r) =>
      if tag / 8 = 1 then
        match h2 : readBytes r with
        | none => none
        | some (bs, r2) => Tx.decodeLoop { acc with txid := bs } r2
      else if tag / 8 = 2 then
        match h2 : readInt32 r with
        | none => none
        | some (v, r2) => Tx.decodeLoop { acc with version := v } r2
      else if tag / 8 = 3 then
        match h2 : readBytes r with
        | none => none
        | some (bs, r2) =>
          match TxInput.decode bs with
          | none => none
          | some x => Tx.decodeLoop { acc with inputs := acc.inputs ++ [x] } r2
      else if tag / 8 = 4 then
        match h2 : readBytes r with
        | none => none
        | some (bs, r2) =>
          match TxOutput.decode bs with
          | none => none
          | some x => Tx.decodeLoop { acc with outputs := acc.outputs ++ [x] } r2
      else if tag / 8 = 5 then
        match h2 : readUint32 r with
        | none => none
        | some (v, r2) => Tx.decodeLoop { acc with lockTime := v } r2
      else if tag / 8 = 6 then
        match h2 : readBytes r with
        | none => none
        | some (bs, r2) =>
          match SlpTxData.decode bs with
          | none => none
          | some x => Tx.decodeLoop { acc with slpTxData := some x } r2
      else if tag / 8 = 7 then
        match h2 : readBytes r with
        | none => none
        | some (bs, r2) => Tx.decodeLoop { acc with slpErrorMsg := bs } r2
      else if tag / 8 = 8 then
        match h2 : readBytes r with
        | none => none
        | some (bs, r2) =>
          match BlockMetadata.decode bs with
          | none => none
          | some x => Tx.decodeLoop { acc with block := some x } r2
      else if tag / 8 = 9 then
        match h2 : readInt64 r with
        | none => none
        | some (v, r2) => Tx.decodeLoop { acc with timeFirstSeen := v } r2
      else if tag / 8 = 10 then
        match h2 : readInt32 r with
        | none => none
        | some (v, r2) => Tx.decodeLoop { acc with network := v } r2
      else
        match h2 : skipType (tag % 8) r with
        | none => none
        | some r2 => Tx.decodeLoop acc r2
termination_by l.length
decreasing_by
  all_goals
    have a := readUint32_length hp
    first
      | (have b := readBytes_length h2; omega)
      | (have b := readUint32_length h2; omega)
      | (have b := readInt32_length h2; omega)
      | (have b := readInt64_length h2; omega)
      | (have b := readUint64_length h2; omega)
      | (have b := readBool_length h2; omega)
      | (have b := skipType_length h2; omega)

/-- `Tx.decode` from `chronik.ts`. -/
def Tx.decode (l : List Nat) : Option Tx :=
  Tx.decodeLoop Tx.base l

theorem Tx.tx_decodeLoop_nil (acc : Tx) :
    Tx.decodeLoop acc [] = some acc := by
  unfold Tx.decodeLoop
  rfl

theorem Tx.tx_decodeLoop_txid (acc : Tx) (bs rest : List Nat)
    (hbs : bs.length < 2 ^ 64) :
    Tx.decodeLoop acc (varint 10 ++ (lenDelim bs ++ rest)) =
      Tx.decodeLoop { acc with txid := bs } rest := by
  rw [Tx.decodeLoop]
  rw [show (varint 10 ++ (lenDelim bs ++ rest)).isEmpty = false from rfl]
  rw [readUint32_varint (by norm_num) (lenDelim bs ++ rest)]
  dsimp only
  rw [readBytes_lenDelim bs rest hbs]
  rfl

theorem Tx.tx_decodeLoop_txid_opt (acc : Tx) (bs rest : List Nat)
    (hacc : acc.txid = []) (hbs : bs.length < 2 ^ 64) :
    Tx.decodeLoop acc ((if bs.length ≠ 0 then varint 10 ++ lenDelim bs else []) ++ rest) =
      Tx.decodeLoop { acc with txid := bs } rest := by
  by_cases h : bs.length ≠ 0
  · rw [if_pos h, List.append_assoc]
    exact Tx.tx_decodeLoop_txid acc bs rest hbs
  · have hnil : bs = [] := by simpa using h
    rw [if_neg h, List.nil_append, hnil, ← hacc]

theorem Tx.tx_decodeLoop_version (acc : Tx) (v : Int) (rest : List Nat)
    (hv1 : -(2 ^ 31) ≤ v) (hv2 : v < 2 ^ 31) :
    Tx.decodeLoop acc (varint 16 ++ (intChunk v ++ rest)) =
      Tx.decodeLoop { acc with version := v } rest := by
  rw [Tx.decodeLoop]
  rw [show (varint 16 ++ (intChunk v ++ rest)).isEmpty = false from rfl]
  rw [readUint32_varint (by norm_num) (intChunk v ++ rest)]
  dsimp only
  rw [readInt32_intChunk hv1 hv2 rest]
  rfl

theorem Tx.tx_decodeLoop_version_opt (acc : Tx) (v : Int) (rest : List Nat)
    (hacc : acc.version = 0) (hv1 : -(2 ^ 31) ≤ v) (hv2 : v < 2 ^ 31) :
    Tx.decodeLoop acc ((if v ≠ 0 then varint 16 ++ intChunk v else []) ++ rest) =
      Tx.decodeLoop { acc with version := v } rest := by
  by_cases h : v ≠ 0
  · rw [if_pos h, List.append_assoc]
    exact Tx.tx_decodeLoop_version acc v rest hv1 hv2
  · have hz : v = 0 := by omega
    rw [if_neg h, List.nil_append, hz, ← hacc]

theorem Tx.tx_decodeLoop_inputs_one (acc : Tx) (x : TxInput) (rest : List Nat)
    (hwf : TxInput.wfB x) (hlen : (TxInput.encode x).length < 2 ^ 64) :
    Tx.decodeLoop acc (varint 26 ++ (lenDelim (TxInput.encode x) ++ rest)) =
      Tx.decodeLoop { acc with inputs := acc.inputs ++ [x] } rest := by
  rw [Tx.decodeLoop]
  rw [show (varint 26 ++ (lenDelim (TxInput.encode x) ++ rest)).isEmpty = false from rfl]
  rw [readUint32_varint (by norm_num) (lenDelim (TxInput.encode x) ++ rest)]
  dsimp only
  rw [readBytes_lenDelim _ rest hlen]
  dsimp only
  rw [TxInput.txInput_roundtrip x hwf]
  rfl

theorem Tx.tx_decodeLoop_inputs_list (acc : Tx) (l : List TxInput) (rest : List Nat)
    (hl : ∀ x ∈ l, TxInput.wfB x ∧ (TxInput.encode x).length < 2 ^ 64) :
    Tx.decodeLoop acc ((l.flatMap fun x => varint 26 ++ lenDelim (TxInput.encode x)) ++ rest) =
      Tx.decodeLoop { acc with inputs := acc.inputs ++ l } rest := by
  induction l generalizing acc with
  | nil =>
    rw [show (List.flatMap ([] : List TxInput) fun x => varint 26 ++ lenDelim (TxInput.encode x)) = []
      from rfl, List.nil_append, List.append_nil]
  | cons x xs ih =>
    rw [show (List.flatMap (x :: xs) fun y => varint 26 ++ lenDelim (TxInput.encode y)) =
      (varint 26 ++ lenDelim (TxInput.encode x)) ++
        List.flatMap xs (fun y => varint 26 ++ lenDelim (TxInput.encode y)) from rfl]
    simp only [List.append_assoc]
    rw [Tx.tx_decodeLoop_inputs_one acc x _ (hl x (by simp)).1 (hl x (by simp)).2]
    rw [ih _ (fun y hy => hl y (by simp [hy]))]
    congr 1
    simp

theorem Tx.tx_decodeLoop_outputs_one (acc : Tx) (x : TxOutput) (rest : List Nat)
    (hwf : TxOutput.wfB x) (hlen : (TxOutput.encode x).length < 2 ^ 64) :
    Tx.decodeLoop acc (varint 34 ++ (lenDelim (TxOutput.encode x) ++ rest)) =
      Tx.decodeLoop { acc with outputs := acc.outputs ++ [x] } rest := by
  rw [Tx.decodeLoop]
  rw [show (varint 34 ++ (lenDelim (TxOutput.encode x) ++ rest)).isEmpty = false from rfl]
  rw [readUint32_varint (by norm_num) (lenDelim (TxOutput.encode x) ++ rest)]
  dsimp only
  rw [readBytes_lenDelim _ rest hlen]
  dsimp only
  rw [TxOutput.txOutput_roundtrip x hwf]
  rfl

theorem Tx.tx_decodeLoop_outputs_list (acc : Tx) (l : List TxOutput) (rest : List Nat)
    (hl : ∀ x ∈ l, TxOutput.wfB x ∧ (TxOutput.encode x).length < 2 ^ 64) :
    Tx.decodeLoop acc ((l.flatMap fun x => varint 34 ++ lenDelim (TxOutput.encode x)) ++ rest) =
      Tx.decodeLoop { acc with outputs := acc.outputs ++ l } rest := by
  induction l generalizing acc with
  | nil =>
    rw [show (List.flatMap ([] : List TxOutput) fun x => varint 34 ++ lenDelim (TxOutput.encode x)) = []
      from rfl, List.nil_append, List.append_nil]
  | cons x xs ih =>
    rw [show (List.flatMap (x :: xs) fun y => varint 34 ++ lenDelim (TxOutput.encode y)) =
      (varint 34 ++ lenDelim (TxOutput.encode x)) ++
        List.flatMap xs (fun y => varint 34 ++ lenDelim (TxOutput.encode y)) from rfl]
    simp only [List.append_assoc]
    rw [Tx.tx_decodeLoop_outputs_one acc x _ (hl x (by simp)).1 (hl x (by simp)).2]
    rw [ih _ (fun y hy => hl y (by simp [hy]))]
    congr 1
    simp

theorem Tx.tx_decodeLoop_lockTime (acc : Tx) (v : Nat) (rest : List Nat)
    (hv : v < 2 ^ 32) :
    Tx.decodeLoop acc (varint 40 ++ (varint v ++ rest)) =
      Tx.decodeLoop { acc with lockTime := v } rest := by
  rw [Tx.decodeLoop]
  rw [show (varint 40 ++ (varint v ++ rest)).isEmpty = false from rfl]
  rw [readUint32_varint (by norm_num) (varint v ++ rest)]
  dsimp only
  rw [readUint32_varint hv rest]
  rfl

theorem Tx.tx_decodeLoop_lockTime_opt (acc : Tx) (v : Nat) (rest : List Nat)
    (hacc : acc.lockTime = 0) (hv : v < 2 ^ 32) :
    Tx.decodeLoop acc ((if v ≠ 0 then varint 40 ++ varint v else []) ++ rest) =
      Tx.decodeLoop { acc with lockTime := v } rest := by
  by_cases h : v ≠ 0
  · rw [if_pos h, List.append_assoc]
    exact Tx.tx_decodeLoop_lockTime acc v rest hv
  · have hz : v = 0 := by omega
    rw [if_neg h, List.nil_append, hz, ← hacc]

theorem Tx.tx_decodeLoop_slpTxData (acc : Tx) (x : SlpTxData) (rest : List Nat)
    (hwf : SlpTxData.wfB x) (hlen : (SlpTxData.encode x).length < 2 ^ 64) :
    Tx.decodeLoop acc (varint 50 ++ (lenDelim (SlpTxData.encode x) ++ rest)) =
      Tx.decodeLoop { acc with slpTxData := some x } rest := by
  rw [Tx.decodeLoop]
  rw [show (varint 50 ++ (lenDelim (SlpTxData.encode x) ++ rest)).isEmpty = false from rfl]
  rw [readUint32_varint (by norm_num) (lenDelim (SlpTxData.encode x) ++ rest)]
  dsimp only
  rw [readBytes_lenDelim _ rest hlen]
  dsimp only
  rw [SlpTxData.slpTxData_roundtrip x hwf]
  rfl

theorem Tx.tx_decodeLoop_slpTxData_opt (acc : Tx) (o : Option SlpTxData) (rest : List Nat)
    (hacc : acc.slpTxData = none)
    (ho : ∀ x, o = some x → SlpTxData.wfB x ∧ (SlpTxData.encode x).length < 2 ^ 64) :
    Tx.decodeLoop acc (optChunk 50 SlpTxData.encode o ++ rest) =
      Tx.decodeLoop { acc with slpTxData := o } rest := by
  cases o with
  | none =>
    rw [show optChunk 50 SlpTxData.encode none = [] from rfl, List.nil_append]
    conv_rhs => rw [← hacc]
  | some x =>
    rw [show optChunk 50 SlpTxData.encode (some x) =
      varint 50 ++ lenDelim (SlpTxData.encode x) from rfl, List.append_assoc]
    exact Tx.tx_decodeLoop_slpTxData acc x rest (ho x rfl).1 (ho x rfl).2

theorem Tx.tx_decodeLoop_slpErrorMsg (acc : Tx) (bs rest : List Nat)
    (hbs : bs.length < 2 ^ 64) :
    Tx.decodeLoop acc (varint 58 ++ (lenDelim bs ++ rest)) =
      Tx.decodeLoop { acc with slpErrorMsg := bs } rest := by
  rw [Tx.decodeLoop]
  rw [show (varint 58 ++ (lenDelim bs ++ rest)).isEmpty = false from rfl]
  rw [readUint32_varint (by norm_num) (lenDelim bs ++ rest)]
  dsimp only
  rw [readBytes_lenDelim bs rest hbs]
  rfl

theorem Tx.tx_decodeLoop_slpErrorMsg_opt (acc : Tx) (bs rest : List Nat)
    (hacc : acc.slpErrorMsg = []) (hbs : bs.length < 2 ^ 64) :
    Tx.decodeLoop acc ((if bs.length ≠ 0 then varint 58 ++ lenDelim bs else []) ++ rest) =
      Tx.decodeLoop { acc with slpErrorMsg := bs } rest := by
  by_cases h : bs.length ≠ 0
  · rw [if_pos h, List.append_assoc]
    exact Tx.tx_decodeLoop_slpErrorMsg acc bs rest hbs
  · have hnil : bs = [] := by simpa using h
    rw [if_neg h, List.nil_append, hnil, ← hacc]

theorem Tx.tx_decodeLoop_block (acc : Tx) (x : BlockMetadata) (rest : List Nat)
    (hwf : BlockMetadata.wfB x) (hlen : (BlockMetadata.encode x).length < 2 ^ 64) :
    Tx.decodeLoop acc (varint 66 ++ (lenDelim (BlockMetadata.encode x) ++ rest)) =
      Tx.decodeLoop { acc with block := some x } rest := by
  rw [Tx.decodeLoop]
  rw [show (varint 66 ++ (lenDelim (BlockMetadata.encode x) ++ rest)).isEmpty = false from rfl]
  rw [readUint32_varint (by norm_num) (lenDelim (BlockMetadata.encode x) ++ rest)]
  dsimp only
  rw [readBytes_lenDelim _ rest hlen]
  dsimp only
  rw [BlockMetadata.blockMetadata_roundtrip x hwf]
  rfl

theorem Tx.tx_decodeLoop_block_opt (acc : Tx) (o : Option BlockMetadata) (rest : List Nat)
    (hacc : acc.block = none)
    (ho : ∀ x, o = some x → BlockMetadata.wfB x ∧ (BlockMetadata.encode x).length < 2 ^ 64) :
    Tx.decodeLoop acc (optChunk 66 BlockMetadata.encode o ++ rest) =
      Tx.decodeLoop { acc with block := o } rest := by
  cases o with
  | none =>
    rw [show optChunk 66 BlockMetadata.encode none = [] from rfl, List.nil_append]
    conv_rhs => rw [← hacc]
  | some x =>
    rw [show optChunk 66 BlockMetadata.encode (some x) =
      varint 66 ++ lenDelim (BlockMetadata.encode x) from rfl, List.append_assoc]
    exact Tx.tx_decodeLoop_block acc x rest (ho x rfl).1 (ho x rfl).2

theorem Tx.tx_decodeLoop_timeFirstSeen (acc : Tx) (v : Int) (rest : List Nat)
    (hv1 : -(2 ^ 63) ≤ v) (hv2 : v < 2 ^ 63) :
    Tx.decodeLoop acc (varint 72 ++ (intChunk v ++ rest)) =
      Tx.decodeLoop { acc with timeFirstSeen := v } rest := by
  rw [Tx.decodeLoop]
  rw [show (varint 72 ++ (intChunk v ++ rest)).isEmpty = false from rfl]
  rw [readUint32_varint (by norm_num) (intChunk v ++ rest)]
  dsimp only
  rw [readInt64_intChunk hv1 hv2 rest]
  rfl

theorem Tx.tx_decodeLoop_timeFirstSeen_opt (acc : Tx) (v : Int) (rest : List Nat)
    (hacc : acc.timeFirstSeen = 0) (hv1 : -(2 ^ 63) ≤ v) (hv2 : v < 2 ^ 63) :
    Tx.decodeLoop acc ((if v ≠ 0 then varint 72 ++ intChunk v else []) ++ rest) =
      Tx.decodeLoop { acc with timeFirstSeen := v } rest := by
  by_cases h : v ≠ 0
  · rw [if_pos h, List.append_assoc]
    exact Tx.tx_decodeLoop_timeFirstSeen acc v rest hv1 hv2
  · have hz : v = 0 := by omega
    rw [if_neg h, List.nil_append, hz, ← hacc]

theorem Tx.tx_decodeLoop_network (acc : Tx) (v : Int) (rest : List Nat)
    (hv1 : -(2 ^ 31) ≤ v) (hv2 : v < 2 ^ 31) :
    Tx.decodeLoop acc (varint 80 ++ (intChunk v ++ rest)) =
      Tx.decodeLoop { acc with network := v } rest := by
  rw [Tx.decodeLoop]
  rw [show (varint 80 ++ (intChunk v ++ rest)).isEmpty = false from rfl]
  rw [readUint32_varint (by norm_num) (intChunk v ++ rest)]
  dsimp only
  rw [readInt32_intChunk hv1 hv2 rest]
  rfl

theorem Tx.tx_decodeLoop_network_opt (acc : Tx) (v : Int) (rest : List Nat)
    (hacc : acc.network = 0) (hv1 : -(2 ^ 31) ≤ v) (hv2 : v < 2 ^ 31) :
    Tx.decodeLoop acc ((if v ≠ 0 then varint 80 ++ intChunk v else []) ++ rest) =
      Tx.decodeLoop { acc with network := v } rest := by
  by_cases h : v ≠ 0
  · rw [if_pos h, List.append_assoc]
    exact Tx.tx_decodeLoop_network acc v rest hv1 hv2
  · have hz : v = 0 := by omega
    rw [if_neg h, List.nil_append, hz, ← hacc]

theorem Tx.tx_roundtrip (m : Tx) (h : m.wfB) :
    Tx.decode (Tx.encode m) = some m := by
  unfold Tx.wfB at h
  simp only [Bool.and_eq_true, decide_eq_true_eq] at h
  obtain ⟨⟨hbtxid, hltxid⟩, ⟨hversion1, hversion2⟩, hinputs, houtputs, hlockTime, hslpTxData, ⟨hbslpErrorMsg, hlslpErrorMsg⟩, hblock, ⟨htimeFirstSeen1, htimeFirstSeen2⟩, ⟨hnetwork1, hnetwork2⟩⟩ := h
  have hcinputs : ∀ x ∈ m.inputs, TxInput.wfB x ∧ (TxInput.encode x).length < 2 ^ 64 := by
    intro x hx
    rw [List.all_eq_true] at hinputs
    have h2x := hinputs x hx
    simp only [Bool.and_eq_true, decide_eq_true_eq] at h2x
    exact ⟨h2x.1, by omega⟩
  have hcoutputs : ∀ x ∈ m.outputs, TxOutput.wfB x ∧ (TxOutput.encode x).length < 2 ^ 64 := by
    intro x hx
    rw [List.all_eq_true] at houtputs
    have h2x := houtputs x hx
    simp only [Bool.and_eq_true, decide_eq_true_eq] at h2x
    exact ⟨h2x.1, by omega⟩
  have hcslpTxData : ∀ x, m.slpTxData = some x → SlpTxData.wfB x ∧ (SlpTxData.encode x).length < 2 ^ 64 := by
    intro x hx
    rw [hx] at hslpTxData
    simp only [Bool.and_eq_true, decide_eq_true_eq] at hslpTxData
    exact ⟨hslpTxData.1, by omega⟩
  have hcblock : ∀ x, m.block = some x → BlockMetadata.wfB x ∧ (BlockMetadata.encode x).length < 2 ^ 64 := by
    intro x hx
    rw [hx] at hblock
    simp only [Bool.and_eq_true, decide_eq_true_eq] at hblock
    exact ⟨hblock.1, by omega⟩
  unfold Tx.decode
  conv_lhs => rw [show Tx.encode m = Tx.encode m ++ [] from (List.append_nil _).symm]
  unfold Tx.encode
  simp only [List.append_assoc]
  rw [Tx.tx_decodeLoop_txid_opt _ _ _ rfl (by omega),
    Tx.tx_decodeLoop_version_opt _ _ _ rfl hversion1 hversion2,
    Tx.tx_decodeLoop_inputs_list _ _ _ hcinputs,
    Tx.tx_decodeLoop_outputs_list _ _ _ hcoutputs,
    Tx.tx_decodeLoop_lockTime_opt _ _ _ rfl hlockTime,
    Tx.tx_decodeLoop_slpTxData_opt _ _ _ rfl hcslpTxData,
    Tx.tx_decodeLoop_slpErrorMsg_opt _ _ _ rfl (by omega),
    Tx.tx_decodeLoop_block_opt _ _ _ rfl hcblock,
    Tx.tx_decodeLoop_timeFirstSeen_opt _ _ _ rfl htimeFirstSeen1 htimeFirstSeen2,
    Tx.tx_decodeLoop_network_opt _ _ _ rfl hnetwork1 hnetwork2,
    Tx.tx_decodeLoop_nil]
  exact rfl


/-- `chronik.Utxo` as generated in `chronik.ts`: `outpoint` 1, `blockHeight` 2
(int32), `isCoinbase` 3 (bool), `value` 5 (int64), `slpMeta` 6, `slpToken` 7,
`network` 9 (enum). -/
structure Utxo where
  outpoint : Option OutPoint
  blockHeight : Int
  isCoinbase : Bool
  value : Int
  slpMeta : Option SlpMeta
  slpToken : Option SlpToken
  network : Int
deriving DecidableEq

/-- `Utxo.encode` from `chronik.ts`. -/
def Utxo.encode (m : Utxo) : List Nat :=
  optChunk 10 OutPoint.encode m.outpoint
  ++ (if m.blockHeight ≠ 0 then varint 16 ++ intChunk m.blockHeight else [])
  ++ (if m.isCoinbase = true then varint 24 ++ boolChunk m.isCoinbase else [])
  ++ (if m.value ≠ 0 then varint 40 ++ intChunk m.value else [])
  ++ optChunk 50 SlpMeta.encode m.slpMeta
  ++ optChunk 58 SlpToken.encode m.slpToken
  ++ (if m.network ≠ 0 then varint 72 ++ intChunk m.network else [])

def Utxo.wfB (m : Utxo) : Bool :=
  (match m.outpoint with
    | none => true
    | some x => OutPoint.wfB x && (OutPoint.encode x).length < 2 ^ 32)
  && ((-(2 ^ 31) ≤ m.blockHeight && m.blockHeight < 2 ^ 31)
  && ((-(2 ^ 63) ≤ m.value && m.value < 2 ^ 63)
  && ((match m.slpMeta with
    | none => true
    | some x => SlpMeta.wfB x && (SlpMeta.encode x).length < 2 ^ 32)
  && ((match m.slpToken with
    | none => true
    | some x => SlpToken.wfB x && (SlpToken.encode x).length < 2 ^ 32)
  && ((-(2 ^ 31) ≤ m.network && m.network < 2 ^ 31))))))

/-- `baseUtxo` merged with the `decode` initializer. -/
def Utxo.base : Utxo :=
  { outpoint := none, blockHeight := 0, isCoinbase := false, value := 0, slpMeta := none, slpToken := none, network := 0 }

/-- The `while (reader.pos < end)` loop body of `Utxo.decode`. -/
def Utxo.decodeLoop (acc : Utxo) (l : List Nat) : Option Utxo :=
  if l.isEmpty then some acc
  else
    match hp : readUint32 l with
    | none => none
    | some (tag, r) =>
      if tag / 8 = 1 then
        match h2 : readBytes r with
        | none => none
        | some (bs, r2) =>
          match OutPoint.decode bs with
          | none => none
          | some x => Utxo.decodeLoop { acc with outpoint := some x } r2
      else if tag / 8 = 2 then
        match h2 : readInt32 r with
        | none => none
        | some (v, r2) => Utxo.decodeLoop { acc with blockHeight := v } r2
      else if tag / 8 = 3 then
        match h2 : readBool r with
        | none => none
        | some (b, r2) => Utxo.decodeLoop { acc with isCoinbase := b } r2
      else if tag / 8 = 5 then
        match h2 : readInt64 r with
        | none => none
        | some (v, r2) => Utxo.decodeLoop { acc with value := v } r2
      else if tag / 8 = 6 then
        match h2 : readBytes r with
        | none => none
        | some (bs, r2) =>
          match SlpMeta.decode bs with
          | none => none
          | some x => Utxo.decodeLoop { acc with slpMeta := some x } r2
      else if tag / 8 = 7 then
        match h2 : readBytes r with
        | none => none
        | some (bs, r2) =>
          match SlpToken.decode bs with
          | none => none
          | some x => Utxo.decodeLoop { acc with slpToken := some x } r2
      else if tag / 8 = 9 then
        match h2 : readInt32 r with
        | none => none
        | some (v, r2) => Utxo.decodeLoop { acc with network := v } r2
      else
        match h2 : skipType (tag % 8) r with
        | none => none
        | some r2 => Utxo.decodeLoop acc r2
termination_by l.length
decreasing_by
  all_goals
    have a := readUint32_length hp
    first
      | (have b := readBytes_length h2; omega)
      | (have b := readUint32_length h2; omega)
      | (have b := readInt32_length h2; omega)
      | (have b := readInt64_length h2; omega)
      | (have b := readUint64_length h2; omega)
      | (have b := readBool_length h2; omega)
      | (have b := skipType_length h2; omega)

/-- `Utxo.decode` from `chronik.ts`. -/
def Utxo.decode (l : List Nat) : Option Utxo :=
  Utxo.decodeLoop Utxo.base l

theorem Utxo.utxo_decodeLoop_nil (acc : Utxo) :
    Utxo.decodeLoop acc [] = some acc := by
  unfold Utxo.decodeLoop
  rfl

theorem Utxo.utxo_decodeLoop_outpoint (acc : Utxo) (x : OutPoint) (rest : List Nat)
    (hwf : OutPoint.wfB x) (hlen : (OutPoint.encode x).length < 2 ^ 64) :
    Utxo.decodeLoop acc (varint 10 ++ (lenDelim (OutPoint.encode x) ++ rest)) =
      Utxo.decodeLoop { acc with outpoint := some x } rest := by
  rw [Utxo.decodeLoop]
  rw [show (varint 10 ++ (lenDelim (OutPoint.encode x) ++ rest)).isEmpty = false from rfl]
  rw [readUint32_varint (by norm_num) (lenDelim (OutPoint.encode x) ++ rest)]
  dsimp only
  rw [readBytes_lenDelim _ rest hlen]
  dsimp only
  rw [OutPoint.outPoint_roundtrip x hwf]
  rfl

theorem Utxo.utxo_decodeLoop_outpoint_opt (acc : Utxo) (o : Option OutPoint) (rest : List Nat)
    (hacc : acc.outpoint = none)
    (ho : ∀ x, o = some x → OutPoint.wfB x ∧ (OutPoint.encode x).length < 2 ^ 64) :
    Utxo.decodeLoop acc (optChunk 10 OutPoint.encode o ++ rest) =
      Utxo.decodeLoop { acc with outpoint := o } rest := by
  cases o with
  | none =>
    rw [show optChunk 10 OutPoint.encode none = [] from rfl, List.nil_append]
    conv_rhs => rw [← hacc]
  | some x =>
    rw [show optChunk 10 OutPoint.encode (some x) =
      varint 10 ++ lenDelim (OutPoint.encode x) from rfl, List.append_assoc]
    exact Utxo.utxo_decodeLoop_outpoint acc x rest (ho x rfl).1 (ho x rfl).2

theorem Utxo.utxo_decodeLoop_blockHeight (acc : Utxo) (v : Int) (rest : List Nat)
    (hv1 : -(2 ^ 31) ≤ v) (hv2 : v < 2 ^ 31) :
    Utxo.decodeLoop acc (varint 16 ++ (intChunk v ++ rest)) =
      Utxo.decodeLoop { acc with blockHeight := v } rest := by
  rw [Utxo.decodeLoop]
  rw [show (varint 16 ++ (intChunk v ++ rest)).isEmpty = false from rfl]
  rw [readUint32_varint (by norm_num) (intChunk v ++ rest)]
  dsimp only
  rw [readInt32_intChunk hv1 hv2 rest]
  rfl

theorem Utxo.utxo_decodeLoop_blockHeight_opt (acc : Utxo) (v : Int) (rest : List Nat)
    (hacc : acc.blockHeight = 0) (hv1 : -(2 ^ 31) ≤ v) (hv2 : v < 2 ^ 31) :
    Utxo.decodeLoop acc ((if v ≠ 0 then varint 16 ++ intChunk v else []) ++ rest) =
      Utxo.decodeLoop { acc with blockHeight := v } rest := by
  by_cases h : v ≠ 0
  · rw [if_pos h, List.append_assoc]
    exact Utxo.utxo_decodeLoop_blockHeight acc v rest hv1 hv2
  · have hz : v = 0 := by omega
    rw [if_neg h, List.nil_append, hz, ← hacc]

theorem Utxo.utxo_decodeLoop_isCoinbase (acc : Utxo) (b : Bool) (rest : List Nat) :
    Utxo.decodeLoop acc (varint 24 ++ (boolChunk b ++ rest)) =
      Utxo.decodeLoop { acc with isCoinbase := b } rest := by
  rw [Utxo.decodeLoop]
  rw [show (varint 24 ++ (boolChunk b ++ rest)).isEmpty = false from rfl]
  rw [readUint32_varint (by norm_num) (boolChunk b ++ rest)]
  dsimp only
  rw [readBool_boolChunk b rest]
  rfl

theorem Utxo.utxo_decodeLoop_isCoinbase_opt (acc : Utxo) (b : Bool) (rest : List Nat)
    (hacc : acc.isCoinbase = false) :
    Utxo.decodeLoop acc ((if b = true then varint 24 ++ boolChunk b else []) ++ rest) =
      Utxo.decodeLoop { acc with isCoinbase := b } rest := by
  by_cases h : b = true
  · rw [if_pos h, List.append_assoc]
    exact Utxo.utxo_decodeLoop_isCoinbase acc b rest
  · have hz : b = false := by simpa using h
    rw [if_neg h, List.nil_append, hz, ← hacc]

theorem Utxo.utxo_decodeLoop_value (acc : Utxo) (v : Int) (rest : List Nat)
    (hv1 : -(2 ^ 63) ≤ v) (hv2 : v < 2 ^ 63) :
    Utxo.decodeLoop acc (varint 40 ++ (intChunk v ++ rest)) =
      Utxo.decodeLoop { acc with value := v } rest := by
  rw [Utxo.decodeLoop]
  rw [show (varint 40 ++ (intChunk v ++ rest)).isEmpty = false from rfl]
  rw [readUint32_varint (by norm_num) (intChunk v ++ rest)]
  dsimp only
  rw [readInt64_intChunk hv1 hv2 rest]
  rfl

theorem Utxo.utxo_decodeLoop_value_opt (acc : Utxo) (v : Int) (rest : List Nat)
    (hacc : acc.value = 0) (hv1 : -(2 ^ 63) ≤ v) (hv2 : v < 2 ^ 63) :
    Utxo.decodeLoop acc ((if v ≠ 0 then varint 40 ++ intChunk v else []) ++ rest) =
      Utxo.decodeLoop { acc with value := v } rest := by
  by_cases h : v ≠ 0
  · rw [if_pos h, List.append_assoc]
    exact Utxo.utxo_decodeLoop_value acc v rest hv1 hv2
  · have hz : v = 0 := by omega
    rw [if_neg h, List.nil_append, hz, ← hacc]

theorem Utxo.utxo_decodeLoop_slpMeta (acc : Utxo) (x : SlpMeta) (rest : List Nat)
    (hwf : SlpMeta.wfB x) (hlen : (SlpMeta.encode x).length < 2 ^ 64) :
    Utxo.decodeLoop acc (varint 50 ++ (lenDelim (SlpMeta.encode x) ++ rest)) =
      Utxo.decodeLoop { acc with slpMeta := some x } rest := by
  rw [Utxo.decodeLoop]
  rw [show (varint 50 ++ (lenDelim (SlpMeta.encode x) ++ rest)).isEmpty = false from rfl]
  rw [readUint32_varint (by norm_num) (lenDelim (SlpMeta.encode x) ++ rest)]
  dsimp only
  rw [readBytes_lenDelim _ rest hlen]
  dsimp only
  rw [SlpMeta.slpMeta_roundtrip x hwf]
  rfl

theorem Utxo.utxo_decodeLoop_slpMeta_opt (acc : Utxo) (o : Option SlpMeta) (rest : List Nat)
    (hacc : acc.slpMeta = none)
    (ho : ∀ x, o = some x → SlpMeta.wfB x ∧ (SlpMeta.encode x).length < 2 ^ 64) :
    Utxo.decodeLoop acc (optChunk 50 SlpMeta.encode o ++ rest) =
      Utxo.decodeLoop { acc with slpMeta := o } rest := by
  cases o with
  | none =>
    rw [show optChunk 50 SlpMeta.encode none = [] from rfl, List.nil_append]
    conv_rhs => rw [← hacc]
  | some x =>
    rw [show optChunk 50 SlpMeta.encode (some x) =
      varint 50 ++ lenDelim (SlpMeta.encode x) from rfl, List.append_assoc]
    exact Utxo.utxo_decodeLoop_slpMeta acc x rest (ho x rfl).1 (ho x rfl).2

theorem Utxo.utxo_decodeLoop_slpToken (acc : Utxo) (x : SlpToken) (rest : List Nat)
    (hwf : SlpToken.wfB x) (hlen : (SlpToken.encode x).length < 2 ^ 64) :
    Utxo.decodeLoop acc (varint 58 ++ (lenDelim (SlpToken.encode x) ++ rest)) =
      Utxo.decodeLoop { acc with slpToken := some x } rest := by
  rw [Utxo.decodeLoop]
  rw [show (varint 58 ++ (lenDelim (SlpToken.encode x) ++ rest)).isEmpty = false from rfl]
  rw [readUint32_varint (by norm_num) (lenDelim (SlpToken.encode x) ++ rest)]
  dsimp only
  rw [readBytes_lenDelim _ rest hlen]
  dsimp only
  rw [SlpToken.slpToken_roundtrip x hwf]
  rfl

theorem Utxo.utxo_decodeLoop_slpToken_opt (acc : Utxo) (o : Option SlpToken) (rest : List Nat)
    (hacc : acc.slpToken = none)
    (ho : ∀ x, o = some x → SlpToken.wfB x ∧ (SlpToken.encode x).length < 2 ^ 64) :
    Utxo.decodeLoop acc (optChunk 58 SlpToken.encode o ++ rest) =
      Utxo.decodeLoop { acc with slpToken := o } rest := by
  cases o with
  | none =>
    rw [show optChunk 58 SlpToken.encode none = [] from rfl, List.nil_append]
    conv_rhs => rw [← hacc]
  | some x =>
    rw [show optChunk 58 SlpToken.encode (some x) =
      varint 58 ++ lenDelim (SlpToken.encode x) from rfl, List.append_assoc]
    exact Utxo.utxo_decodeLoop_slpToken acc x rest (ho x rfl).1 (ho x rfl).2

theorem Utxo.utxo_decodeLoop_network (acc : Utxo) (v : Int) (rest : List Nat)
    (hv1 : -(2 ^ 31) ≤ v) (hv2 : v < 2 ^ 31) :
    Utxo.decodeLoop acc (varint 72 ++ (intChunk v ++ rest)) =
      Utxo.decodeLoop { acc with network := v } rest := by
  rw [Utxo.decodeLoop]
  rw [show (varint 72 ++ (intChunk v ++ rest)).isEmpty = false from rfl]
  rw [readUint32_varint (by norm_num) (intChunk v ++ rest)]
  dsimp only
  rw [readInt32_intChunk hv1 hv2 rest]
  rfl

theorem Utxo.utxo_decodeLoop_network_opt (acc : Utxo) (v : Int) (rest : List Nat)
    (hacc : acc.network = 0) (hv1 : -(2 ^ 31) ≤ v) (hv2 : v < 2 ^ 31) :
    Utxo.decodeLoop acc ((if v ≠ 0 then varint 72 ++ intChunk v else []) ++ rest) =
      Utxo.decodeLoop { acc with network := v } rest := by
  by_cases h : v ≠ 0
  · rw [if_pos h, List.append_assoc]
    exact Utxo.utxo_decodeLoop_network acc v rest hv1 hv2
  · have hz : v = 0 := by omega
    rw [if_neg h, List.nil_append, hz, ← hacc]

theorem Utxo.utxo_roundtrip (m : Utxo) (h : m.wfB) :
    Utxo.decode (Utxo.encode m) = some m := by
  unfold Utxo.wfB at h
  simp only [Bool.and_eq_true, decide_eq_true_eq] at h
  obtain ⟨houtpoint, ⟨hblockHeight1, hblockHeight2⟩, ⟨hvalue1, hvalue2⟩, hslpMeta, hslpToken, ⟨hnetwork1, hnetwork2⟩⟩ := h
  have hcoutpoint : ∀ x, m.outpoint = some x → OutPoint.wfB x ∧ (OutPoint.encode x).length < 2 ^ 64 := by
    intro x hx
    rw [hx] at houtpoint
    simp only [Bool.and_eq_true, decide_eq_true_eq] at houtpoint
    exact ⟨houtpoint.1, by omega⟩
  have hcslpMeta : ∀ x, m.slpMeta = some x → SlpMeta.wfB x ∧ (SlpMeta.encode x).length < 2 ^ 64 := by
    intro x hx
    rw [hx] at hslpMeta
    simp only [Bool.and_eq_true, decide_eq_true_eq] at hslpMeta
    exact ⟨hslpMeta.1, by omega⟩
  have hcslpToken : ∀ x, m.slpToken = some x → SlpToken.wfB x ∧ (SlpToken.encode x).length < 2 ^ 64 := by
    intro x hx
    rw [hx] at hslpToken
    simp only [Bool.and_eq_true, decide_eq_true_eq] at hslpToken
    exact ⟨hslpToken.1, by omega⟩
  unfold Utxo.decode
  conv_lhs => rw [show Utxo.encode m = Utxo.encode m ++ [] from (List.append_nil _).symm]
  unfold Utxo.encode
  simp only [List.append_assoc]
  rw [Utxo.utxo_decodeLoop_outpoint_opt _ _ _ rfl hcoutpoint,
    Utxo.utxo_decodeLoop_blockHeight_opt _ _ _ rfl hblockHeight1 hblockHeight2,
    Utxo.utxo_decodeLoop_isCoinbase_opt _ _ _ rfl,
    Utxo.utxo_decodeLoop_value_opt _ _ _ rfl hvalue1 hvalue2,
    Utxo.utxo_decodeLoop_slpMeta_opt _ _ _ rfl hcslpMeta,
    Utxo.utxo_decodeLoop_slpToken_opt _ _ _ rfl hcslpToken,
    Utxo.utxo_decodeLoop_network_opt _ _ _ rfl hnetwork1 hnetwork2,
    Utxo.utxo_decodeLoop_nil]


/-- `chronik.Error`: `errorCode` 1 (string), `msg` 2 (string),
`isUserError` 3 (bool). -/
structure Error where
  errorCode : List Nat
  msg : List Nat
  isUserError : Bool
deriving DecidableEq

/-- `Error.encode` from `chronik.ts`. -/
def Error.encode (m : Error) : List Nat :=
  (if m.errorCode.length ≠ 0 then varint 10 ++ lenDelim m.errorCode else [])
  ++ (if m.msg.length ≠ 0 then varint 18 ++ lenDelim m.msg else [])
  ++ (if m.isUserError = true then varint 24 ++ boolChunk m.isUserError else [])

def Error.wfB (m : Error) : Bool :=
  (m.errorCode.all (fun b => b < 256) && m.errorCode.length < 2 ^ 32)
  && ((m.msg.all (fun b => b < 256) && m.msg.length < 2 ^ 32))

/-- `baseError` merged with the `decode` initializer. -/
def Error.base : Error :=
  { errorCode := [], msg := [], isUserError := false }

/-- The `while (reader.pos < end)` loop body of `Error.decode`. -/
def Error.decodeLoop (acc : Error) (l : List Nat) : Option Error :=
  if l.isEmpty then some acc
  else
    match hp : readUint32 l with
    | none => none
    | some (tag, r) =>
      if tag / 8 = 1 then
        match h2 : readBytes r with
        | none => none
        | some (bs, r2) => Error.decodeLoop { acc with errorCode := bs } r2
      else if tag / 8 = 2 then
        match h2 : readBytes r with
        | none => none
        | some (bs, r2) => Error.decodeLoop { acc with msg := bs } r2
      else if tag / 8 = 3 then
        match h2 : readBool r with
        | none => none
        | some (b, r2) => Error.decodeLoop { acc with isUserError := b } r2
      else
        match h2 : skipType (tag % 8) r with
        | none => none
        | some r2 => Error.decodeLoop acc r2
termination_by l.length
decreasing_by
  all_goals
    have a := readUint32_length hp
    first
      | (have b := readBytes_length h2; omega)
      | (have b := readUint32_length h2; omega)
      | (have b := readInt32_length h2; omega)
      | (have b := readInt64_length h2; omega)
      | (have b := readUint64_length h2; omega)
      | (have b := readBool_length h2; omega)
      | (have b := skipType_length h2; omega)

/-- `Error.decode` from `chronik.ts`. -/
def Error.decode (l : List Nat) : Option Error :=
  Error.decodeLoop Error.base l

theorem Error.error_decodeLoop_nil (acc : Error) :
    Error.decodeLoop acc [] = some acc := by
  unfold Error.decodeLoop
  rfl

theorem Error.error_decodeLoop_errorCode (acc : Error) (bs rest : List Nat)
    (hbs : bs.length < 2 ^ 64) :
    Error.decodeLoop acc (varint 10 ++ (lenDelim bs ++ rest)) =
      Error.decodeLoop { acc with errorCode := bs } rest := by
  rw [Error.decodeLoop]
  rw [show (varint 10 ++ (lenDelim bs ++ rest)).isEmpty = false from rfl]
  rw [readUint32_varint (by norm_num) (lenDelim bs ++ rest)]
  dsimp only
  rw [readBytes_lenDelim bs rest hbs]
  rfl

theorem Error.error_decodeLoop_errorCode_opt (acc : Error) (bs rest : List Nat)
    (hacc : acc.errorCode = []) (hbs : bs.length < 2 ^ 64) :
    Error.decodeLoop acc ((if bs.length ≠ 0 then varint 10 ++ lenDelim bs else []) ++ rest) =
      Error.decodeLoop { acc with errorCode := bs } rest := by
  by_cases h : bs.length ≠ 0
  · rw [if_pos h, List.append_assoc]
    exact Error.error_decodeLoop_errorCode acc bs rest hbs
  · have hnil : bs = [] := by simpa using h
    rw [if_neg h, List.nil_append, hnil, ← hacc]

theorem Error.error_decodeLoop_msg (acc : Error) (bs rest : List Nat)
    (hbs : bs.length < 2 ^ 64) :
    Error.decodeLoop acc (varint 18 ++ (lenDelim bs ++ rest)) =
      Error.decodeLoop { acc with msg := bs } rest := by
  rw [Error.decodeLoop]
  rw [show (varint 18 ++ (lenDelim bs ++ rest)).isEmpty = false from rfl]
  rw [readUint32_varint (by norm_num) (lenDelim bs ++ rest)]
  dsimp only
  rw [readBytes_lenDelim bs rest hbs]
  rfl

theorem Error.error_decodeLoop_msg_opt (acc : Error) (bs rest : List Nat)
    (hacc : acc.msg = []) (hbs : bs.length < 2 ^ 64) :
    Error.decodeLoop acc ((if bs.length ≠ 0 then varint 18 ++ lenDelim bs else []) ++ rest) =
      Error.decodeLoop { acc with msg := bs } rest := by
  by_cases h : bs.length ≠ 0
  · rw [if_pos h, List.append_assoc]
    exact Error.error_decodeLoop_msg acc bs rest hbs
  · have hnil : bs = [] := by simpa using h
    rw [if_neg h, List.nil_append, hnil, ← hacc]

theorem Error.error_decodeLoop_isUserError (acc : Error) (b : Bool) (rest : List Nat) :
    Error.decodeLoop acc (varint 24 ++ (boolChunk b ++ rest)) =
      Error.decodeLoop { acc with isUserError := b } rest := by
  rw [Error.decodeLoop]
  rw [show (varint 24 ++ (boolChunk b ++ rest)).isEmpty = false from rfl]
  rw [readUint32_varint (by norm_num) (boolChunk b ++ rest)]
  dsimp only
  rw [readBool_boolChunk b rest]
  rfl

theorem Error.error_decodeLoop_isUserError_opt (acc : Error) (b : Bool) (rest : List Nat)
    (hacc : acc.isUserError = false) :
    Error.decodeLoop acc ((if b = true then varint 24 ++ boolChunk b else []) ++ rest) =
      Error.decodeLoop { acc with isUserError := b } rest := by
  by_cases h : b = true
  · rw [if_pos h, List.append_assoc]
    exact Error.error_decodeLoop_isUserError acc b rest
  · have hz : b = false := by simpa using h
    rw [if_neg h, List.nil_append, hz, ← hacc]

theorem Error.error_roundtrip (m : Error) (h : m.wfB) :
    Error.decode (Error.encode m) = some m := by
  unfold Error.wfB at h
  simp only [Bool.and_eq_true, decide_eq_true_eq] at h
  obtain ⟨⟨hberrorCode, hlerrorCode⟩, ⟨hbmsg, hlmsg⟩⟩ := h
  unfold Error.decode
  conv_lhs => rw [show Error.encode m = Error.encode m ++ [] from (List.append_nil _).symm]
  unfold Error.encode
  simp only [List.append_assoc]
  rw [Error.error_decodeLoop_errorCode_opt _ _ _ rfl (by omega),
    Error.error_decodeLoop_msg_opt _ _ _ rfl (by omega),
    Error.error_decodeLoop_isUserError_opt _ _ _ rfl,
    Error.error_decodeLoop_nil]


/-- `chronik.ValidateUtxoRequest`: `outpoints` field 1 (repeated OutPoint). -/
structure ValidateUtxoRequest where
  outpoints : List OutPoint
deriving DecidableEq

/-- `ValidateUtxoRequest.encode` from `chronik.ts`. -/
def ValidateUtxoRequest.encode (m : ValidateUtxoRequest) : List Nat :=
  (m.outpoints.flatMap fun x => varint 10 ++ lenDelim (OutPoint.encode x))

def ValidateUtxoRequest.wfB (m : ValidateUtxoRequest) : Bool :=
  (m.outpoints.all fun x => OutPoint.wfB x && (OutPoint.encode x).length < 2 ^ 32)

/-- `baseValidateUtxoRequest` merged with the `decode` initializer. -/
def ValidateUtxoRequest.base : ValidateUtxoRequest :=
  { outpoints := [] }

/-- The `while (reader.pos < end)` loop body of `ValidateUtxoRequest.decode`. -/
def ValidateUtxoRequest.decodeLoop (acc : ValidateUtxoRequest) (l : List Nat) : Option ValidateUtxoRequest :=
  if l.isEmpty then some acc
  else
    match hp : readUint32 l with
    | none => none
    | some (tag, r) =>
      if tag / 8 = 1 then
        match h2 : readBytes r with
        | none => none
        | some (bs, r2) =>
          match OutPoint.decode bs with
          | none => none
          | some x => ValidateUtxoRequest.decodeLoop { acc with outpoints := acc.outpoints ++ [x] } r2
      else
        match h2 : skipType (tag % 8) r with
        | none => none
        | some r2 => ValidateUtxoRequest.decodeLoop acc r2
termination_by l.length
decreasing_by
  all_goals
    have a := readUint32_length hp
    first
      | (have b := readBytes_length h2; omega)
      | (have b := readUint32_length h2; omega)
      | (have b := readInt32_length h2; omega)
      | (have b := readInt64_length h2; omega)
      | (have b := readUint64_length h2; omega)
      | (have b := readBool_length h2; omega)
      | (have b := skipType_length h2; omega)

/-- `ValidateUtxoRequest.decode` from `chronik.ts`. -/
def ValidateUtxoRequest.decode (l : List Nat) : Option ValidateUtxoRequest :=
  ValidateUtxoRequest.decodeLoop ValidateUtxoRequest.base l

theorem ValidateUtxoRequest.validateUtxoRequest_decodeLoop_nil (acc : ValidateUtxoRequest) :
    ValidateUtxoRequest.decodeLoop acc [] = some acc := by
  unfold ValidateUtxoRequest.decodeLoop
  rfl

theorem ValidateUtxoRequest.validateUtxoRequest_decodeLoop_outpoints_one (acc : ValidateUtxoRequest) (x : OutPoint) (rest : List Nat)
    (hwf : OutPoint.wfB x) (hlen : (OutPoint.encode x).length < 2 ^ 64) :
    ValidateUtxoRequest.decodeLoop acc (varint 10 ++ (lenDelim (OutPoint.encode x) ++ rest)) =
      ValidateUtxoRequest.decodeLoop { acc with outpoints := acc.outpoints ++ [x] } rest := by
  rw [ValidateUtxoRequest.decodeLoop]
  rw [show (varint 10 ++ (lenDelim (OutPoint.encode x) ++ rest)).isEmpty = false from rfl]
  rw [readUint32_varint (by norm_num) (lenDelim (OutPoint.encode x) ++ rest)]
  dsimp only
  rw [readBytes_lenDelim _ rest hlen]
  dsimp only
  rw [OutPoint.outPoint_roundtrip x hwf]
  rfl

theorem ValidateUtxoRequest.validateUtxoRequest_decodeLoop_outpoints_list (acc : ValidateUtxoRequest) (l : List OutPoint) (rest : List Nat)
    (hl : ∀ x ∈ l, OutPoint.wfB x ∧ (OutPoint.encode x).length < 2 ^ 64) :
    ValidateUtxoRequest.decodeLoop acc ((l.flatMap fun x => varint 10 ++ lenDelim (OutPoint.encode x)) ++ rest) =
      ValidateUtxoRequest.decodeLoop { acc with outpoints := acc.outpoints ++ l } rest := by
  induction l generalizing acc with
  | nil =>
    rw [show (List.flatMap ([] : List OutPoint) fun x => varint 10 ++ lenDelim (OutPoint.encode x)) = []
      from rfl, List.nil_append, List.append_nil]
  | cons x xs ih =>
    rw [show (List.flatMap (x :: xs) fun y => varint 10 ++ lenDelim (OutPoint.encode y)) =
      (varint 10 ++ lenDelim (OutPoint.encode x)) ++
        List.flatMap xs (fun y => varint 10 ++ lenDelim (OutPoint.encode y)) from rfl]
    simp only [List.append_assoc]
    rw [ValidateUtxoRequest.validateUtxoRequest_decodeLoop_outpoints_one acc x _ (hl x (by simp)).1 (hl x (by simp)).2]
    rw [ih _ (fun y hy => hl y (by simp [hy]))]
    congr 1
    simp

theorem ValidateUtxoRequest.validateUtxoRequest_roundtrip (m : ValidateUtxoRequest) (h : m.wfB) :
    ValidateUtxoRequest.decode (ValidateUtxoRequest.encode m) = some m := by
  unfold ValidateUtxoRequest.wfB at h
  have houtpoints := h
  have hcoutpoints : ∀ x ∈ m.outpoints, OutPoint.wfB x ∧ (OutPoint.encode x).length < 2 ^ 64 := by
    intro x hx
    rw [List.all_eq_true] at houtpoints
    have h2x := houtpoints x hx
    simp only [Bool.and_eq_true, decide_eq_true_eq] at h2x
    exact ⟨h2x.1, by omega⟩
  unfold ValidateUtxoRequest.decode
  conv_lhs => rw [show ValidateUtxoRequest.encode m = ValidateUtxoRequest.encode m ++ [] from (List.append_nil _).symm]
  unfold ValidateUtxoRequest.encode
  rw [ValidateUtxoRequest.validateUtxoRequest_decodeLoop_outpoints_list _ _ _ hcoutpoints,
    ValidateUtxoRequest.validateUtxoRequest_decodeLoop_nil]
  exact rfl


/-- `chronik.Subscription`: `scriptType` 1 (string), `payload` 2 (bytes),
`isSubscribe` 3 (bool). -/
structure Subscription where
  scriptType : List Nat
  payload : List Nat
  isSubscribe : Bool
deriving DecidableEq

/-- `Subscription.encode` from `chronik.ts`. -/
def Subscription.encode (m : Subscription) : List Nat :=
  (if m.scriptType.length ≠ 0 then varint 10 ++ lenDelim m.scriptType else [])
  ++ (if m.payload.length ≠ 0 then varint 18 ++ lenDelim m.payload else [])
  ++ (if m.isSubscribe = true then varint 24 ++ boolChunk m.isSubscribe else [])

def Subscription.wfB (m : Subscription) : Bool :=
  (m.scriptType.all (fun b => b < 256) && m.scriptType.length < 2 ^ 32)
  && ((m.payload.all (fun b => b < 256) && m.payload.length < 2 ^ 32))


/-- `chronik.UtxoState`: `height` field 1 (int32), `isConfirmed` field 2
(bool), `state` field 3 (enum), carried inside `ValidateUtxoResponse`. -/
structure UtxoState where
  height : Int
  isConfirmed : Bool
  state : Int
deriving DecidableEq

/-- `chronik.ValidateUtxoResponse`: `utxoStates` field 1 (repeated UtxoState). -/
structure ValidateUtxoResponse where
  utxoStates : List UtxoState
deriving DecidableEq

/-! ## Wire-token observation

`wireTokens` parses a well-formed protobuf byte stream into its sequence of
`(fieldNumber, wireType)` tags, skipping payloads with the reader's
`skipType` rules.  It is the observation used to state which field numbers
and wire types an encoder emits. -/

def wireTokens (l : List Nat) : Option (List (Nat × Nat)) :=
  if l.isEmpty then some []
  else
    match hp : readUint32 l with
    | none => none
    | some (tag, r) =>
      match h2 : skipType (tag % 8) r with
      | none => none
      | some r2 =>
        match wireTokens r2 with
        | none => none
        | some ts => some ((tag / 8, tag % 8) :: ts)
termination_by l.length
decreasing_by
  have a := readUint32_length hp
  have b := skipType_length h2
  omega

theorem varint_eq (n : Nat) :
    varint n = if n < 128 then [n] else (n % 128 + 128) :: varintAux 9 (n / 128) := rfl

theorem varint_isEmpty (n : Nat) (y : List Nat) : (varint n ++ y).isEmpty = false := by
  rw [varint_eq]
  split <;> rfl

theorem wireTokens_nil : wireTokens [] = some [] := by
  unfold wireTokens
  rfl

theorem wireTokens_chunk0 (t n : Nat) (rest : List Nat) (ht : t < 2 ^ 32)
    (htw : t % 8 = 0) (hn : n < 2 ^ 64) :
    wireTokens (varint t ++ (varint n ++ rest)) =
      (wireTokens rest).map (fun ts => (t / 8, t % 8) :: ts) := by
  rw [wireTokens]
  rw [varint_isEmpty]
  rw [readUint32_varint ht (varint n ++ rest)]
  dsimp only
  rw [show skipType (t % 8) (varint n ++ rest) = some rest from by
    rw [htw]
    unfold skipType
    rw [if_pos rfl, parseVarint_varint hn rest]]
  dsimp only
  cases hw : wireTokens rest with
  | none => rfl
  | some ts => rfl

theorem wireTokens_chunk2 (t : Nat) (bs rest : List Nat) (ht : t < 2 ^ 32)
    (htw : t % 8 = 2) (hbs : bs.length < 2 ^ 64) :
    wireTokens (varint t ++ (lenDelim bs ++ rest)) =
      (wireTokens rest).map (fun ts => (t / 8, t % 8) :: ts) := by
  rw [wireTokens]
  rw [varint_isEmpty]
  rw [readUint32_varint ht (lenDelim bs ++ rest)]
  dsimp only
  rw [show skipType (t % 8) (lenDelim bs ++ rest) = some rest from by
    rw [htw]
    unfold skipType
    rw [if_neg (by norm_num), if_neg (by norm_num), if_pos rfl,
      readBytes_lenDelim bs rest hbs]]
  dsimp only
  cases hw : wireTokens rest with
  | none => rfl
  | some ts => rfl

theorem wireTokens_optBytes (t : Nat) (bs rest : List Nat) (ht : t < 2 ^ 32)
    (htw : t % 8 = 2) (hbs : bs.length < 2 ^ 64) :
    wireTokens ((if bs.length ≠ 0 then varint t ++ lenDelim bs else []) ++ rest) =
      (wireTokens rest).map
        (fun ts => (if bs.length ≠ 0 then [(t / 8, t % 8)] else []) ++ ts) := by
  by_cases h : bs.length ≠ 0
  · rw [if_pos h, List.append_assoc, wireTokens_chunk2 t bs rest ht htw hbs]
    simp only [if_pos h]
    rfl
  · rw [if_neg h, List.nil_append]
    simp only [if_neg h]
    cases hw : wireTokens rest with
    | none => rfl
    | some ts => rfl

theorem wireTokens_optNat (t n : Nat) (rest : List Nat) (ht : t < 2 ^ 32)
    (htw : t % 8 = 0) (hn : n < 2 ^ 64) :
    wireTokens ((if n ≠ 0 then varint t ++ varint n else []) ++ rest) =
      (wireTokens rest).map
        (fun ts => (if n ≠ 0 then [(t / 8, t % 8)] else []) ++ ts) := by
  by_cases h : n ≠ 0
  · rw [if_pos h, List.append_assoc, wireTokens_chunk0 t n rest ht htw hn]
    simp only [if_pos h]
    rfl
  · rw [if_neg h, List.nil_append]
    simp only [if_neg h]
    cases hw : wireTokens rest with
    | none => rfl
    | some ts => rfl

theorem wireTokens_optInt (t : Nat) (v : Int) (rest : List Nat) (ht : t < 2 ^ 32)
    (htw : t % 8 = 0) :
    wireTokens ((if v ≠ 0 then varint t ++ intChunk v else []) ++ rest) =
      (wireTokens rest).map
        (fun ts => (if v ≠ 0 then [(t / 8, t % 8)] else []) ++ ts) := by
  by_cases h : v ≠ 0
  · rw [if_pos h]
    rw [show intChunk v = varint (i64 v) from rfl, List.append_assoc,
      wireTokens_chunk0 t (i64 v) rest ht htw (by unfold i64; omega)]
    simp only [if_pos h]
    rfl
  · rw [if_neg h, List.nil_append]
    simp only [if_neg h]
    cases hw : wireTokens rest with
    | none => rfl
    | some ts => rfl

theorem wireTokens_optBool (t : Nat) (b : Bool) (rest : List Nat) (ht : t < 2 ^ 32)
    (htw : t % 8 = 0) :
    wireTokens ((if b = true then varint t ++ boolChunk b else []) ++ rest) =
      (wireTokens rest).map
        (fun ts => (if b = true then [(t / 8, t % 8)] else []) ++ ts) := by
  by_cases h : b = true
  · rw [if_pos h]
    rw [show boolChunk b = varint (if b then 1 else 0) from rfl, List.append_assoc,
      wireTokens_chunk0 t (if b then 1 else 0) rest ht htw (by cases b <;> norm_num)]
    simp only [if_pos h]
    rfl
  · rw [if_neg h, List.nil_append]
    simp only [if_neg h]
    cases hw : wireTokens rest with
    | none => rfl
    | some ts => rfl

theorem wireTokens_optMsg (t : Nat) (enc : α → List Nat) (o : Option α)
    (rest : List Nat) (ht : t < 2 ^ 32) (htw : t % 8 = 2)
    (ho : ∀ x, o = some x → (enc x).length < 2 ^ 64) :
    wireTokens (optChunk t enc o ++ rest) =
      (wireTokens rest).map
        (fun ts => (match o with | none => [] | some _ => [(t / 8, t % 8)]) ++ ts) := by
  cases o with
  | none =>
    rw [show optChunk t enc none = [] from rfl, List.nil_append]
    cases hw : wireTokens rest with
    | none => rfl
    | some ts => rfl
  | some x =>
    rw [show optChunk t enc (some x) = varint t ++ lenDelim (enc x) from rfl,
      List.append_assoc, wireTokens_chunk2 t (enc x) rest ht htw (ho x rfl)]
    rfl

theorem wireTokens_listMsg (t : Nat) (enc : α → List Nat) (l : List α)
    (rest : List Nat) (ht : t < 2 ^ 32) (htw : t % 8 = 2)
    (hl : ∀ x ∈ l, (enc x).length < 2 ^ 64) :
    wireTokens ((l.flatMap fun x => varint t ++ lenDelim (enc x)) ++ rest) =
      (wireTokens rest).map
        (fun ts => (l.map fun _ => (t / 8, t % 8)) ++ ts) := by
  induction l with
  | nil =>
    rw [show (List.flatMap ([] : List α) fun x => varint t ++ lenDelim (enc x)) = []
      from rfl, List.nil_append]
    cases hw : wireTokens rest with
    | none => rfl
    | some ts => rfl
  | cons x xs ih =>
    rw [show (List.flatMap (x :: xs) fun y => varint t ++ lenDelim (enc y)) =
      (varint t ++ lenDelim (enc x)) ++
        List.flatMap xs (fun y => varint t ++ lenDelim (enc y)) from rfl]
    simp only [List.append_assoc]
    rw [wireTokens_chunk2 t (enc x) _ ht htw (hl x (by simp))]
    rw [ih (fun y hy => hl y (by simp [hy]))]
    cases hw : wireTokens rest with
    | none => rfl
    | some ts => rfl

/-! ## Enum name tables (`chronik.ts`)

The generated TypeScript enums assign `Network{BCH = 0, XEC = 1, XPI = 2,
XRG = 3}`, `SlpTxType{GENESIS = 0, SEND = 1, MINT = 2, UNKNOWN_TX_TYPE = 3}`,
`SlpTokenType{FUNGIBLE = 0, NFT1_GROUP = 1, NFT1_CHILD = 2,
UNKNOWN_TOKEN_TYPE = 3}` and `UtxoStateVariant{UNSPENT = 0, SPENT = 1,
NO_SUCH_TX = 2, NO_SUCH_OUTPUT = 3}`; the `…ToJSON` functions switch on
those values, inlined here as their numeric codes. -/

/-- `networkToJSON` from `chronik.ts`. -/
def networkToJSON (n : Int) : String :=
  if n = 0 then "BCH"
  else if n = 1 then "XEC"
  else if n = 2 then "XPI"
  else if n = 3 then "XRG"
  else "UNKNOWN"

/-- `slpTxTypeToJSON` from `chronik.ts`. -/
def slpTxTypeToJSON (n : Int) : String :=
  if n = 0 then "GENESIS"
  else if n = 1 then "SEND"
  else if n = 2 then "MINT"
  else if n = 3 then "UNKNOWN_TX_TYPE"
  else "UNKNOWN"

/-- `slpTokenTypeToJSON` from `chronik.ts`. -/
def slpTokenTypeToJSON (n : Int) : String :=
  if n = 0 then "FUNGIBLE"
  else if n = 1 then "NFT1_GROUP"
  else if n = 2 then "NFT1_CHILD"
  else if n = 3 then "UNKNOWN_TOKEN_TYPE"
  else "UNKNOWN"

/-- `utxoStateVariantToJSON` from `chronik.ts`. -/
def utxoStateVariantToJSON (n : Int) : String :=
  if n = 0 then "UNSPENT"
  else if n = 1 then "SPENT"
  else if n = 2 then "NO_SUCH_TX"
  else if n = 3 then "NO_SUCH_OUTPUT"
  else "UNKNOWN"

/-- `chronik.BlockInfo` message record of `chronik.ts` (the conversion layer
consumes it; its codec is not needed here). -/
structure BlockInfo where
  hash : List Nat
  prevHash : List Nat
  height : Int
  nBits : Nat
  timestamp : Int
  blockSize : Nat
  numTxs : Nat
  numInputs : Nat
  numOutputs : Nat
  sumInputSats : Int
  sumCoinbaseOutputSats : Int
  sumNormalOutputSats : Int
  sumBurnedSats : Int
deriving DecidableEq

end Proto

/-! ## Reference wire schema (`chronik-http/proto/chronik.proto`) -/

/-- The `Utxo` message of the reference schema file
`chronik-http/proto/chronik.proto`, as `(fieldNumber, wireType)` pairs:
field 1 `outpoint` (OutPoint message, length-delimited), 2 `block`
(BlockMetadata message, length-delimited), 3 `is_coinbase` (bool, varint),
4 `output_script` (bytes, length-delimited), 5 `value` (int64, varint),
6 `slp_meta` (SlpMeta message), 7 `slp_token` (SlpToken message),
8 `time_first_seen` (int64, varint), 9 `network` (Network enum, varint). -/
def refUtxoSchema : List (Nat × Nat) :=
  [(1, 2), (2, 2), (3, 0), (4, 2), (5, 0), (6, 2), (7, 2), (8, 0), (9, 0)]

/-! ## Hex helpers

Modelled from the spec: `ts/chronik-client/hex.ts` (imported by `index.ts`
for `toHex`, `toHexRev`, `fromHex`, `fromHexRev`) is not among the source
files; §6 of the spec fixes their contract — hash bytes travel in natural
(wire) order and are rendered at client boundaries as lowercase hex in
reversed (display) byte order, `toHexRev`/`fromHexRev` being the
reversed-order encoder/parser and `toHex`/`fromHex` the plain ones. -/

def hexDigits : List Char := "0123456789abcdef".toList

/-- Modelled from the spec: lowercase hex digit of a nibble. -/
def hexDigit (n : Nat) : Char := hexDigits.getD n '0'

/-- Modelled from the spec: `toHex` — plain lowercase hex of a byte string. -/
def toHex (bs : List Nat) : List Char :=
  bs.flatMap fun b => [hexDigit (b / 16), hexDigit (b % 16)]

/-- Modelled from the spec: `toHexRev` — hex of the byte-reversed string
(display order for hashes). -/
def toHexRev (bs : List Nat) : List Char :=
  toHex bs.reverse

/-- Modelled from the spec: nibble value of a hex digit. -/
def hexVal (c : Char) : Option Nat :=
  if c ∈ hexDigits then some (hexDigits.indexOf c) else none

/-- Modelled from the spec: `fromHex` — parse a lowercase hex string. -/
def fromHex : List Char → Option (List Nat)
  | [] => some []
  | [_] => none
  | c1 :: c2 :: rest => do
    let hi ← hexVal c1
    let lo ← hexVal c2
    let bs ← fromHex rest
    pure ((16 * hi + lo) :: bs)

/-- Modelled from the spec: `fromHexRev` — parse display-order hex back to
wire byte order. -/
def fromHexRev (s : List Char) : Option (List Nat) :=
  (fromHex s).map List.reverse

/-! ## The converted client-facing values (`ts/chronik-client/index.ts`)

Namespace `Client` holds the public `interface` types of `index.ts` (hash
fields are hex strings, modelled as `List Char`) and the `convertTo…`
functions.  A TS conversion that can `throw` is modelled as returning
`Option`. -/

namespace Client

inductive Network where
  | BCH | XEC | XPI | XRG
deriving DecidableEq

inductive SlpTokenType where
  | FUNGIBLE | NFT1_GROUP | NFT1_CHILD | UNKNOWN_TOKEN_TYPE
deriving DecidableEq

inductive SlpTxType where
  | GENESIS | SEND | MINT | UNKNOWN_TX_TYPE
deriving DecidableEq

inductive UtxoStateVariant where
  | UNSPENT | SPENT | NO_SUCH_TX | NO_SUCH_OUTPUT
deriving DecidableEq

structure OutPoint where
  txid : List Char
  outIdx : Nat
deriving DecidableEq

structure SlpToken where
  amount : Nat
  isMintBaton : Bool
deriving DecidableEq

structure SlpBurn where
  token : SlpToken
  tokenId : List Char
deriving DecidableEq

structure SlpMeta where
  tokenType : SlpTokenType
  txType : SlpTxType
  tokenId : List Char
  groupTokenId : Option (List Char)
deriving DecidableEq

structure SlpGenesisInfo where
  tokenTicker : List Nat
  tokenName : List Nat
  tokenDocumentUrl : List Nat
  tokenDocumentHash : List Char
  decimals : Nat
deriving DecidableEq

structure SlpTxData where
  slpMeta : SlpMeta
  genesisInfo : Option SlpGenesisInfo
deriving DecidableEq

structure BlockMetadata where
  height : Int
  hash : List Char
  timestamp : Int
deriving DecidableEq

structure TxInput where
  prevOut : OutPoint
  inputScript : List Char
  outputScript : Option (List Char)
  value : Int
  sequenceNo : Nat
  slpBurn : Option SlpBurn
  slpToken : Option SlpToken
deriving DecidableEq

structure TxOutput where
  value : Int
  outputScript : List Char
  slpToken : Option SlpToken
  spentBy : Option OutPoint
deriving DecidableEq

structure Tx where
  txid : List Char
  version : Int
  inputs : List TxInput
  outputs : List TxOutput
  lockTime : Nat
  slpTxData : Option SlpTxData
  slpErrorMsg : Option (List Nat)
  block : Option BlockMetadata
  timeFirstSeen : Int
  network : Network
deriving DecidableEq

structure BlockInfo where
  hash : List Char
  prevHash : List Char
  height : Int
  nBits : Nat
  timestamp : Int
  blockSize : Nat
  numTxs : Nat
  numInputs : Nat
  numOutputs : Nat
  sumInputSats : Int
  sumCoinbaseOutputSats : Int
  sumNormalOutputSats : Int
  sumBurnedSats : Int
deriving DecidableEq

structure UtxoState where
  height : Int
  isConfirmed : Bool
  state : UtxoStateVariant
deriving DecidableEq

/-- `convertToNetwork` from `index.ts`: switch on the numeric enum value,
`default` throws. -/
def convertToNetwork (network : Int) : Option Network :=
  if network = 0 then some Network.BCH
  else if network = 1 then some Network.XEC
  else if network = 2 then some Network.XPI
  else if network = 3 then some Network.XRG
  else none

/-- `convertToUtxoStateVariant` from `index.ts`. -/
def convertToUtxoStateVariant (v : Int) : Option UtxoStateVariant :=
  if v = 0 then some UtxoStateVariant.UNSPENT
  else if v = 1 then some UtxoStateVariant.SPENT
  else if v = 2 then some UtxoStateVariant.NO_SUCH_TX
  else if v = 3 then some UtxoStateVariant.NO_SUCH_OUTPUT
  else none

/-- `convertToSlpToken` from `index.ts`. -/
def convertToSlpToken (token : Proto.SlpToken) : SlpToken :=
  { amount := token.amount, isMintBaton := token.isMintBaton }

/-- `convertToSlpBurn` from `index.ts`: throws when `token` is undefined. -/
def convertToSlpBurn (burn : Proto.SlpBurn) : Option SlpBurn := do
  let token ← burn.token
  pure { token := convertToSlpToken token, tokenId := toHex burn.tokenId }

/-- `convertToSlpMeta` from `index.ts`: the two switches throw on an
unrecognised value; `groupTokenId` is kept only when exactly 32 bytes. -/
def convertToSlpMeta (slpMeta : Proto.SlpMeta) : Option SlpMeta := do
  let tokenType ←
    if slpMeta.tokenType = 0 then some SlpTokenType.FUNGIBLE
    else if slpMeta.tokenType = 1 then some SlpTokenType.NFT1_GROUP
    else if slpMeta.tokenType = 2 then some SlpTokenType.NFT1_CHILD
    else if slpMeta.tokenType = 3 then some SlpTokenType.UNKNOWN_TOKEN_TYPE
    else none
  let txType ←
    if slpMeta.txType = 0 then some SlpTxType.GENESIS
    else if slpMeta.txType = 1 then some SlpTxType.SEND
    else if slpMeta.txType = 2 then some SlpTxType.MINT
    else if slpMeta.txType = 3 then some SlpTxType.UNKNOWN_TX_TYPE
    else none
  pure { tokenType := tokenType, txType := txType,
         tokenId := toHex slpMeta.tokenId,
         groupTokenId :=
           if slpMeta.groupTokenId.length = 32 then some (toHex slpMeta.groupTokenId)
           else none }

/-- `convertToSlpGenesisInfo` from `index.ts` (text fields stay as their
UTF-8 bytes). -/
def convertToSlpGenesisInfo (info : Proto.SlpGenesisInfo) : SlpGenesisInfo :=
  { tokenTicker := info.tokenTicker, tokenName := info.tokenName,
    tokenDocumentUrl := info.tokenDocumentUrl,
    tokenDocumentHash := toHex info.tokenDocumentHash,
    decimals := info.decimals }

/-- `convertToSlpTxData` from `index.ts`: throws when `slpMeta` is
undefined. -/
def convertToSlpTxData (d : Proto.SlpTxData) : Option SlpTxData := do
  let slpMetaProto ← d.slpMeta
  let slpMeta ← convertToSlpMeta slpMetaProto
  pure { slpMeta := slpMeta,
         genesisInfo := d.genesisInfo.map convertToSlpGenesisInfo }

/-- `convertToBlockMeta` from `index.ts`: the block hash is rendered with
`toHexRev`. -/
def convertToBlockMeta (block : Proto.BlockMetadata) : BlockMetadata :=
  { height := block.height, hash := toHexRev block.hash,
    timestamp := block.timestamp }

/-- `convertToBlockInfo` from `index.ts`: `hash` and `prevHash` are rendered
with `toHexRev`, all other fields are spread unchanged. -/
def convertToBlockInfo (block : Proto.BlockInfo) : BlockInfo :=
  { hash := toHexRev block.hash, prevHash := toHexRev block.prevHash,
    height := block.height, nBits := block.nBits,
    timestamp := block.timestamp, blockSize := block.blockSize,
    numTxs := block.numTxs, numInputs := block.numInputs,
    numOutputs := block.numOutputs, sumInputSats := block.sumInputSats,
    sumCoinbaseOutputSats := block.sumCoinbaseOutputSats,
    sumNormalOutputSats := block.sumNormalOutputSats,
    sumBurnedSats := block.sumBurnedSats }

/-- `convertToTxInput` from `index.ts`: throws when `prevOut` is undefined;
`prevOut.txid` is rendered with `toHexRev`; an empty wire `outputScript`
becomes `undefined`. -/
def convertToTxInput (input : Proto.TxInput) : Option TxInput := do
  let prevOut ← input.prevOut
  let slpBurn ←
    match input.slpBurn with
    | none => pure none
    | some b => some <$> convertToSlpBurn b
  pure { prevOut := { txid := toHexRev prevOut.txid, outIdx := prevOut.outIdx },
         inputScript := toHex input.inputScript,
         outputScript :=
           if input.outputScript.length > 0 then some (toHex input.outputScript)
           else none,
         value := input.value, sequenceNo := input.sequenceNo,
         slpBurn := slpBurn,
         slpToken := input.slpToken.map convertToSlpToken }

/-- `convertToTxOutput` from `index.ts`: NOTE the source renders
`spentBy.txid` with plain `toHex`, unlike every other txid site. -/
def convertToTxOutput (output : Proto.TxOutput) : TxOutput :=
  { value := output.value,
    outputScript := toHex output.outputScript,
    slpToken := output.slpToken.map convertToSlpToken,
    spentBy := output.spentBy.map fun o =>
      { txid := toHex o.txid, outIdx := o.outIdx } }

/-- `convertToTx` from `index.ts`: `txid` is rendered with `toHexRev`, an
empty `slpErrorMsg` becomes `undefined`. -/
def convertToTx (tx : Proto.Tx) : Option Tx := do
  let inputs ← tx.inputs.mapM convertToTxInput
  let slpTxData ←
    match tx.slpTxData with
    | none => pure none
    | some d => some <$> convertToSlpTxData d
  let network ← convertToNetwork tx.network
  pure { txid := toHexRev tx.txid, version := tx.version,
         inputs := inputs,
         outputs := tx.outputs.map convertToTxOutput,
         lockTime := tx.lockTime,
         slpTxData := slpTxData,
         slpErrorMsg :=
           if tx.slpErrorMsg.length ≠ 0 then some tx.slpErrorMsg else none,
         block := tx.block.map convertToBlockMeta,
         timeFirstSeen := tx.timeFirstSeen,
         network := network }

/-- The request construction of `ChronikClient.validateUtxos`: one wire
`OutPoint` per input outpoint, its txid parsed with `fromHexRev`. -/
def validateUtxosRequest (outpoints : List OutPoint) :
    Option Proto.ValidateUtxoRequest := do
  let ops ← outpoints.mapM fun o => do
    let txid ← fromHexRev o.txid
    pure ({ txid := txid, outIdx := o.outIdx } : Proto.OutPoint)
  pure { outpoints := ops }

/-- The response conversion of `ChronikClient.validateUtxos`: one
`UtxoState` per wire state, `height` and `isConfirmed` copied, the variant
mapped by `convertToUtxoStateVariant`. -/
def validateUtxosStates (resp : Proto.ValidateUtxoResponse) :
    Option (List UtxoState) :=
  resp.utxoStates.mapM fun s => do
    let v ← convertToUtxoStateVariant s.state
    pure ({ height := s.height, isConfirmed := s.isConfirmed, state := v } :
      UtxoState)

end Client

/-! ## `ChronikClient` constructor (`index.ts`) -/

/-- The url validation and websocket-url derivation of the `ChronikClient`
constructor: throws (`none`) when the url ends with `/` or starts with
neither `https://` nor `http://`; otherwise returns the `_wsUrl` with the
scheme replaced (`substr` after the scheme length). -/
def mkChronikClientWsUrl (url : List Char) : Option (List Char) :=
  if ['/'].isSuffixOf url then none
  else if "https://".toList.isPrefixOf url then
    some ("wss://".toList ++ url.drop 8)
  else if "http://".toList.isPrefixOf url then
    some ("ws://".toList ++ url.drop 7)
  else none

/-! ## Query transport (`index.ts`)

`_get` and `_post` share the same response handling: both call
`ensureResponseErrorThrown` and return the raw body bytes.  An HTTP
response is its status code and body; a thrown JS error is an
`Except.error`. -/

structure HttpResponse where
  status : Nat
  data : List Nat
deriving DecidableEq

/-- The error thrown at the query boundary. -/
inductive QueryError where
  /-- `ensureResponseErrorThrown`: built from the decoded protobuf `Error`
  message's `errorCode` and `msg` fields. -/
  | responseError (errorCode msg : List Nat)
  /-- the protobufjs reader throws while decoding a malformed error body. -/
  | decodeFailure
deriving DecidableEq

/-- The shared body of `_get`/`_post`: `ensureResponseErrorThrown(response)`
followed by returning the body bytes. -/
def httpResult (resp : HttpResponse) : Except QueryError (List Nat) :=
  if resp.status ≠ 200 then
    Except.error
      (match Proto.Error.decode resp.data with
        | some e => QueryError.responseError e.errorCode e.msg
        | none => QueryError.decodeFailure)
  else Except.ok resp.data

/-! ## `WsEndpoint` (`index.ts`)

The websocket endpoint as a state machine: its mutable fields `_closed` and
`_subs`, the wire frames it sends, and the handlers `onopen`/`onclose` of
`_connect`. -/

/-- One `_subs` entry: `{ scriptType, scriptPayload }`. -/
structure WsSub where
  scriptType : List Nat
  scriptPayload : List Char
deriving DecidableEq

/-- The mutable state of a `WsEndpoint`. -/
structure WsState where
  closed : Bool
  subs : List WsSub
deriving DecidableEq

/-- `_subUnsub`: the frame sent for one subscription change — the encoded
`Subscription` message with `payload := fromHex(scriptPayload)`; `none`
models the `fromHex` throw on a malformed payload. -/
def subUnsubFrame (isSubscribe : Bool) (s : WsSub) : Option (List Nat) :=
  (fromHex s.scriptPayload).map fun payload =>
    Proto.Subscription.encode
      { scriptType := s.scriptType, payload := payload, isSubscribe := isSubscribe }

/-- The events a `WsEndpoint` reacts to. -/
inductive WsEvent where
  /-- `subscribe(scriptType, scriptPayload)` -/
  | subscribe (scriptType : List Nat) (scriptPayload : List Char)
  /-- `unsubscribe(scriptType, scriptPayload)` -/
  | unsubscribe (scriptType : List Nat) (scriptPayload : List Char)
  /-- `close()` -/
  | close
  /-- the socket's `onclose` event fires -/
  | socketClosed
  /-- the socket's `onopen` event fires -/
  | socketOpened
deriving DecidableEq

/-- Observable effects of one event. -/
inductive WsEffect where
  /-- a frame handed to `ws.send` (`none` inside models a `fromHex` throw) -/
  | sentFrame (frame : Option (List Nat))
  /-- `onclose` ran `this._connect()` again -/
  | reconnected
deriving DecidableEq

/-- One step of the `WsEndpoint` state machine, from `index.ts`:
`subscribe` pushes and sends a subscribe frame, `unsubscribe` filters and
sends an unsubscribe frame, `close` sets `_closed`, `onclose` reconnects
unless `_closed`, and `onopen` replays a subscribe frame for every `_subs`
entry in list order. -/
def wsStep (st : WsState) : WsEvent → WsState × List WsEffect
  | WsEvent.subscribe t p =>
    ({ st with subs := st.subs ++ [{ scriptType := t, scriptPayload := p }] },
      [WsEffect.sentFrame (subUnsubFrame true { scriptType := t, scriptPayload := p })])
  | WsEvent.unsubscribe t p =>
    ({ st with subs := st.subs.filter fun s =>
        s.scriptType ≠ t ∨ s.scriptPayload ≠ p },
      [WsEffect.sentFrame (subUnsubFrame false { scriptType := t, scriptPayload := p })])
  | WsEvent.close => ({ st with closed := true }, [])
  | WsEvent.socketClosed =>
    if st.closed then (st, []) else (st, [WsEffect.reconnected])
  | WsEvent.socketOpened =>
    (st, st.subs.map fun s => WsEffect.sentFrame (subUnsubFrame true s))

/-! # Claim theorems -/

/-- C9: the `ChronikClient` constructor throws exactly for a url that ends
with `/` or starts with neither `https://` nor `http://`; on success the
websocket url is the input with the leading `https://` replaced by `wss://`
(resp. `http://` by `ws://`). -/
theorem c9_constructor_url_validation (url : List Char) :
    (mkChronikClientWsUrl url = none ↔
      (['/'].isSuffixOf url ∨
        (¬ "https://".toList.isPrefixOf url ∧ ¬ "http://".toList.isPrefixOf url))) ∧
    (¬ ['/'].isSuffixOf url → "https://".toList.isPrefixOf url →
      mkChronikClientWsUrl url = some ("wss://".toList ++ url.drop 8)) ∧
    (¬ ['/'].isSuffixOf url → ¬ "https://".toList.isPrefixOf url →
      "http://".toList.isPrefixOf url →
      mkChronikClientWsUrl url = some ("ws://".toList ++ url.drop 7)) := by
  unfold mkChronikClientWsUrl
  by_cases h1 : ['/'].isSuffixOf url
  · rw [if_pos h1]
    refine ⟨⟨fun _ => Or.inl h1, fun _ => rfl⟩, ?_, ?_⟩
    · intro hn _
      exact absurd h1 hn
    · intro hn _ _
      exact absurd h1 hn
  · rw [if_neg h1]
    by_cases h2 : "https://".toList.isPrefixOf url
    · rw [if_pos h2]
      refine ⟨⟨?_, ?_⟩, ?_, ?_⟩
      · intro h
        cases h
      · intro h
        rcases h with h | ⟨ha, _⟩
        · exact absurd h h1
        · exact absurd h2 ha
      · intro _ _
        rfl
      · intro _ ha _
        exact absurd h2 ha
    · rw [if_neg h2]
      by_cases h3 : "http://".toList.isPrefixOf url
      · rw [if_pos h3]
        refine ⟨⟨?_, ?_⟩, ?_, ?_⟩
        · intro h
          cases h
        · intro h
          rcases h with h | ⟨_, hb⟩
          · exact absurd h h1
          · exact absurd h3 hb
        · intro _ h
          exact absurd h h2
        · intro _ _ _
          rfl
      · rw [if_neg h3]
        refine ⟨⟨fun _ => Or.inr ⟨h2, h3⟩, fun _ => rfl⟩, ?_, ?_⟩
        · intro _ h
          exact absurd h h2
        · intro _ _ h
          exact absurd h h3

/-- C9 witness: a concrete https url is accepted and rewritten to `wss://`,
via `c9_constructor_url_validation`. -/
theorem c9_witness :
    mkChronikClientWsUrl "https://chronik.be.cash".toList
      = some ("wss://".toList ++ "chronik.be.cash".toList) :=
  (c9_constructor_url_validation "https://chronik.be.cash".toList).2.1
    (by decide) (by decide)

/-- C8: `unsubscribe` removes every matching `_subs` entry (and is a no-op
on the list when no entry matches), while a repeated `subscribe` appends a
second copy of the pair. -/
theorem c8_subscription_list_semantics (st : WsState) (t : List Nat) (p : List Char) :
    (∀ s ∈ ((wsStep st (WsEvent.unsubscribe t p)).1).subs,
      ¬ (s.scriptType = t ∧ s.scriptPayload = p)) ∧
    ((∀ s ∈ st.subs, ¬ (s.scriptType = t ∧ s.scriptPayload = p)) →
      ((wsStep st (WsEvent.unsubscribe t p)).1).subs = st.subs) ∧
    (((wsStep ((wsStep st (WsEvent.subscribe t p)).1) (WsEvent.subscribe t p)).1).subs
      = st.subs ++ [⟨t, p⟩, ⟨t, p⟩]) := by
  refine ⟨?_, ?_, ?_⟩
  · intro s hs
    simp only [wsStep, List.mem_filter, decide_eq_true_eq] at hs
    rcases hs with ⟨_, hcond⟩
    intro ⟨he1, he2⟩
    rcases hcond with h | h
    · exact h he1
    · exact h he2
  · intro hall
    simp only [wsStep]
    rw [List.filter_eq_self]
    intro s hs
    have := hall s hs
    simp only [decide_eq_true_eq]
    by_cases h1 : s.scriptType = t
    · exact Or.inr (fun h2 => this ⟨h1, h2⟩)
    · exact Or.inl h1
  · simp [wsStep]

/-- C8 witness: unsubscribing a never-subscribed pair leaves the concrete
subscription list unchanged, via `c8_subscription_list_semantics`. -/
theorem c8_witness :
    ((wsStep ⟨false, [⟨[1], ['a', 'b']⟩]⟩ (WsEvent.unsubscribe [2] ['c', 'd'])).1).subs
      = [⟨[1], ['a', 'b']⟩] :=
  (c8_subscription_list_semantics ⟨false, [⟨[1], ['a', 'b']⟩]⟩ [2] ['c', 'd']).2.1
    (by decide)

/-- C7: when the socket closes and `close()` was not called, the endpoint
reconnects and its open handler replays one subscribe frame per `_subs`
entry in registration order; after `close()` the close event does not
reconnect. -/
theorem c7_reconnect_replays_subscriptions (st : WsState) :
    (st.closed = false →
      wsStep st WsEvent.socketClosed = (st, [WsEffect.reconnected]) ∧
      wsStep st WsEvent.socketOpened =
        (st, st.subs.map fun s => WsEffect.sentFrame (subUnsubFrame true s))) ∧
    (st.closed = true → wsStep st WsEvent.socketClosed = (st, [])) := by
  constructor
  · intro h
    constructor
    · simp [wsStep, h]
    · simp [wsStep]
  · intro h
    simp [wsStep, h]

/-- C7 witness: a live endpoint with two registered subscriptions
reconnects and replays both frames in order, via
`c7_reconnect_replays_subscriptions`. -/
theorem c7_witness :
    wsStep ⟨false, [⟨[1], ['0', '0']⟩, ⟨[2], ['f', 'f']⟩]⟩ WsEvent.socketOpened
      = (⟨false, [⟨[1], ['0', '0']⟩, ⟨[2], ['f', 'f']⟩]⟩,
        [WsEffect.sentFrame (subUnsubFrame true ⟨[1], ['0', '0']⟩),
         WsEffect.sentFrame (subUnsubFrame true ⟨[2], ['f', 'f']⟩)]) :=
  ((c7_reconnect_replays_subscriptions ⟨false, _⟩).1 rfl).2

/-- C6: on a non-200 response, `_get`/`_post` never return the body: they
throw the error built from the decoded protobuf `Error`'s `errorCode` and
`msg`; on a 200 response the body bytes are returned unchanged. -/
theorem c6_query_error_handling (resp : HttpResponse) :
    (resp.status ≠ 200 → ∀ bs, httpResult resp ≠ Except.ok bs) ∧
    (resp.status ≠ 200 → ∀ e, Proto.Error.decode resp.data = some e →
      httpResult resp = Except.error (QueryError.responseError e.errorCode e.msg)) ∧
    (resp.status = 200 → httpResult resp = Except.ok resp.data) := by
  refine ⟨?_, ?_, ?_⟩
  · intro h bs
    unfold httpResult
    rw [if_pos h]
    intro hc
    cases hc
  · intro h e he
    unfold httpResult
    rw [if_pos h, he]
  · intro h
    unfold httpResult
    rw [if_neg (by omega)]

/-- C6 witness: a concrete 404 response whose body decodes with
`errorCode = "bad"` throws that code, and a concrete 200 response returns
its body, via `c6_query_error_handling`. -/
theorem c6_witness :
    httpResult ⟨404, [10, 3, 98, 97, 100]⟩
      = Except.error (QueryError.responseError [98, 97, 100] []) ∧
    httpResult ⟨200, [7, 7]⟩ = Except.ok [7, 7] := by
  have hdec : Proto.Error.decode [10, 3, 98, 97, 100]
      = some ⟨[98, 97, 100], [], false⟩ := by
    unfold Proto.Error.decode
    rw [show ([10, 3, 98, 97, 100] : List Nat)
      = varint 10 ++ (lenDelim [98, 97, 100] ++ []) from rfl]
    rw [Proto.Error.error_decodeLoop_errorCode _ _ _ (by norm_num),
      Proto.Error.error_decodeLoop_nil]
    rfl
  exact ⟨(c6_query_error_handling ⟨404, [10, 3, 98, 97, 100]⟩).2.1 (by decide)
      ⟨[98, 97, 100], [], false⟩ hdec,
    (c6_query_error_handling ⟨200, [7, 7]⟩).2.2 rfl⟩

/-- The 32-byte hash used by the C1 failing input: `0x01` then 31 zero
bytes (hex `01` then thirty-one `00` pairs; reversed hex ends in `01`). -/
def c1TxidBytes : List Nat := 1 :: List.replicate 31 0

/-- The C1 failing input: a wire `TxOutput` whose `spentBy` is present. -/
def c1ProtoOutput : Proto.TxOutput :=
  { value := 2, outputScript := [81], slpToken := none,
    spentBy := some { txid := c1TxidBytes, outIdx := 0 } }

/-- The C1 failing input embedded in a full wire `Tx`. -/
def c1ProtoTx : Proto.Tx :=
  { txid := c1TxidBytes, version := 1, inputs := [], outputs := [c1ProtoOutput],
    lockTime := 0, slpTxData := none, slpErrorMsg := [], block := none,
    timeFirstSeen := 0, network := 1 }

/-- C1 (failing-input evaluation): converting `c1ProtoTx`, the conversion
layer renders the transaction's own txid with `toHexRev` but the output's
`spentBy.txid` with plain `toHex`, and the two renderings differ — so,
contrary to the claim, not every hash field crossing the client boundary
is rendered in reversed (display) byte order. -/
theorem c1_spentby_txid_not_display_order :
    ((Client.convertToTx c1ProtoTx).map
        (fun t => (t.txid, t.outputs.map fun o => o.spentBy.map Client.OutPoint.txid))
      = some (toHexRev c1TxidBytes, [some (toHex c1TxidBytes)])) ∧
    toHex c1TxidBytes ≠ toHexRev c1TxidBytes := by
  decide

/-- C10: the conversion layer maps wire empty-value sentinels to absent
optionals — a converted input's `outputScript` is `none` iff the wire
bytes are empty, a converted Tx's `slpErrorMsg` is `none` iff the wire
string is empty, and a converted `SlpMeta.groupTokenId` is present iff the
wire value is exactly 32 bytes. -/
theorem c10_empty_sentinels :
    (∀ (input : Proto.TxInput) (cv : Client.TxInput),
      Client.convertToTxInput input = some cv →
        (cv.outputScript = none ↔ input.outputScript = [])) ∧
    (∀ (tx : Proto.Tx) (cv : Client.Tx),
      Client.convertToTx tx = some cv →
        (cv.slpErrorMsg = none ↔ tx.slpErrorMsg = [])) ∧
    (∀ (sm : Proto.SlpMeta) (cv : Client.SlpMeta),
      Client.convertToSlpMeta sm = some cv →
        (cv.groupTokenId ≠ none ↔ sm.groupTokenId.length = 32)) := by
  refine ⟨?_, ?_, ?_⟩
  · intro input cv h
    unfold Client.convertToTxInput at h
    cases hpo : input.prevOut with
    | none => rw [hpo] at h; simp at h
    | some p =>
      rw [hpo] at h
      cases hsb : input.slpBurn with
      | none =>
        rw [hsb] at h
        simp at h
        subst h
        by_cases hl : input.outputScript.length > 0
        · simp only [if_pos hl]
          constructor
          · intro hc
            cases hc
          · intro hc
            rw [hc] at hl
            simp at hl
        · simp only [if_neg hl]
          have hnil : input.outputScript = [] := by
            cases he : input.outputScript with
            | nil => rfl
            | cons a t => rw [he] at hl; simp at hl
          exact ⟨fun _ => hnil, fun _ => trivial⟩
      | some b =>
        rw [hsb] at h
        dsimp only at h
        cases hc : Client.convertToSlpBurn b with
        | none => rw [hc] at h; simp at h
        | some sb =>
          rw [hc] at h
          simp at h
          subst h
          by_cases hl : input.outputScript.length > 0
          · simp only [if_pos hl]
            constructor
            · intro hcx
              cases hcx
            · intro hcx
              rw [hcx] at hl
              simp at hl
          · simp only [if_neg hl]
            have hnil : input.outputScript = [] := by
              cases he : input.outputScript with
              | nil => rfl
              | cons a t => rw [he] at hl; simp at hl
            exact ⟨fun _ => hnil, fun _ => trivial⟩
  · intro tx cv h
    unfold Client.convertToTx at h
    cases hm : tx.inputs.mapM Client.convertToTxInput with
    | none => rw [hm] at h; simp at h
    | some ins =>
      rw [hm] at h
      cases hsd : tx.slpTxData with
      | none =>
        rw [hsd] at h
        dsimp only at h
        cases hn : Client.convertToNetwork tx.network with
        | none => rw [hn] at h; simp at h
        | some nw =>
          rw [hn] at h
          simp at h
          subst h
          by_cases hl : tx.slpErrorMsg = [] <;> simp [hl]
      | some d =>
        rw [hsd] at h
        dsimp only at h
        cases hd : Client.convertToSlpTxData d with
        | none => rw [hd] at h; simp at h
        | some sd =>
          rw [hd] at h
          cases hn : Client.convertToNetwork tx.network with
          | none => rw [hn] at h; simp at h
          | some nw =>
            rw [hn] at h
            simp at h
            subst h
            by_cases hl : tx.slpErrorMsg = [] <;> simp [hl]
  · intro sm cv h
    unfold Client.convertToSlpMeta at h
    split_ifs at h <;> try simp at h
    all_goals try split_ifs at h
    all_goals try simp at h
    all_goals subst h
    all_goals by_cases hl : sm.groupTokenId.length = 32 <;> simp_all

/-- The C10 witness input: a wire input with a nonempty `outputScript`. -/
def c10Input : Proto.TxInput :=
  { prevOut := some { txid := [7], outIdx := 1 }, inputScript := [],
    outputScript := [81], value := 3, sequenceNo := 0,
    slpBurn := none, slpToken := none }

/-- The value `c10Input` converts to. -/
def c10Converted : Client.TxInput :=
  { prevOut := { txid := toHexRev [7], outIdx := 1 }, inputScript := [],
    outputScript := some (toHex [81]), value := 3, sequenceNo := 0,
    slpBurn := none, slpToken := none }

/-- C10 witness: the concrete conversion succeeds and the sentinel iff is
exercised at it, via `c10_empty_sentinels`. -/
theorem c10_witness :
    Client.convertToTxInput c10Input = some c10Converted ∧
    (c10Converted.outputScript = none ↔ c10Input.outputScript = []) :=
  ⟨by decide, (c10_empty_sentinels).1 c10Input c10Converted (by decide)⟩

/-- C5: decoding the bytes produced by encoding any well-formed wire `Tx`
yields the message back: `Tx.decode (Tx.encode m) = some m`. -/
theorem c5_tx_decode_encode_roundtrip (m : Proto.Tx) (h : Proto.Tx.wfB m) :
    Proto.Tx.decode (Proto.Tx.encode m) = some m :=
  Proto.Tx.tx_roundtrip m h

/-- The token burn of `c5In0`. -/
def c5Burn : Proto.SlpBurn :=
  { token := some { amount := 12, isMintBaton := false }, tokenId := [9, 9] }

/-- The single input of `c5Input`. -/
def c5In0 : Proto.TxInput :=
  { prevOut := some { txid := [1, 2, 3], outIdx := 4 },
    inputScript := [72, 65], outputScript := [118, 169], value := 546,
    sequenceNo := 4294967294,
    slpBurn := some c5Burn,
    slpToken := some { amount := 34, isMintBaton := true } }

/-- The single output of `c5Input`. -/
def c5Out0 : Proto.TxOutput :=
  { value := 1000, outputScript := [169, 20],
    slpToken := some { amount := 5, isMintBaton := false },
    spentBy := some { txid := [8, 8], outIdx := 2 } }

/-- The token metadata of `c5Input`. -/
def c5Meta : Proto.SlpMeta :=
  { tokenType := 1, txType := 2, tokenId := List.replicate 32 5, groupTokenId := [] }

/-- The genesis info of `c5Input`. -/
def c5Genesis : Proto.SlpGenesisInfo :=
  { tokenTicker := [84], tokenName := [78], tokenDocumentUrl := [],
    tokenDocumentHash := [1], decimals := 9 }

/-- A fully populated well-formed wire `Tx` exercising every field of the
codec, including negative `int32`/`int64` values and nested messages. -/
def c5Input : Proto.Tx :=
  { txid := [222, 173, 190, 239], version := -2,
    inputs := [c5In0], outputs := [c5Out0],
    lockTime := 500,
    slpTxData := some { slpMeta := some c5Meta, genesisInfo := some c5Genesis },
    slpErrorMsg := [111, 107],
    block := some { height := 700722, hash := [171, 205], timestamp := 1650000000 },
    timeFirstSeen := -1, network := 2 }

/-- C5 witness: the round trip holds at `c5Input`, via
`c5_tx_decode_encode_roundtrip`. -/
theorem c5_witness :
    Proto.Tx.wfB c5Input = true ∧
    Proto.Tx.decode (Proto.Tx.encode c5Input) = some c5Input :=
  ⟨by decide, c5_tx_decode_encode_roundtrip c5Input (by decide)⟩

/-- Inversion for `List.mapM` over `Option`: success gives the pointwise
relation in order. -/
theorem mapM_option_forall2 {α β : Type} (f : α → Option β) :
    ∀ (l : List α) (r : List β), l.mapM f = some r →
      List.Forall₂ (fun a b => f a = some b) l r := by
  intro l
  induction l with
  | nil =>
    intro r h
    rw [← List.mapM'_eq_mapM] at h
    simp only [List.mapM'] at h
    rw [show (pure [] : Option (List β)) = some [] from rfl, Option.some.injEq] at h
    subst h
    exact List.Forall₂.nil
  | cons a t ih =>
    intro r h
    rw [← List.mapM'_eq_mapM] at h
    simp only [List.mapM'] at h
    cases hfa : f a with
    | none => rw [hfa] at h; simp at h
    | some b =>
      rw [hfa] at h
      cases hmt : List.mapM' f t with
      | none => rw [hmt] at h; simp at h
      | some bs =>
        rw [hmt] at h
        simp at h
        subst h
        refine List.Forall₂.cons hfa (ih bs ?_)
        rw [← List.mapM'_eq_mapM]
        exact hmt

/-- Map a pointwise relation through two projections. -/
theorem forall2_map_eq {α β γ : Type} {R : α → β → Prop} {l : List α}
    {r : List β} (h : List.Forall₂ R l r) (g1 : α → γ) (g2 : β → γ)
    (hg : ∀ a b, R a b → g1 a = g2 b) : l.map g1 = r.map g2 := by
  induction h with
  | nil => rfl
  | cons hab _ ih => simp only [List.map_cons, hg _ _ hab, ih]

/-- C4: `validateUtxos` builds the request with exactly one wire `OutPoint`
per input outpoint in input order (txid parsed from reversed hex; the
encoded request decodes back to the same outpoint list), and converts the
response to one `UtxoState` per wire entry in response order, preserving
`height` and `isConfirmed` and mapping the variant by
`convertToUtxoStateVariant`. -/
theorem c4_validate_utxos_mapping :
    (∀ (outpoints : List Client.OutPoint) (req : Proto.ValidateUtxoRequest),
      Client.validateUtxosRequest outpoints = some req →
        req.outpoints.length = outpoints.length ∧
        req.outpoints.map (fun o => some o.txid)
          = outpoints.map (fun o => fromHexRev o.txid) ∧
        req.outpoints.map (fun o => o.outIdx)
          = outpoints.map (fun o => o.outIdx) ∧
        (Proto.ValidateUtxoRequest.wfB req →
          Proto.ValidateUtxoRequest.decode (Proto.ValidateUtxoRequest.encode req)
            = some req)) ∧
    (∀ (resp : Proto.ValidateUtxoResponse) (states : List Client.UtxoState),
      Client.validateUtxosStates resp = some states →
        states.length = resp.utxoStates.length ∧
        states.map (fun s => s.height) = resp.utxoStates.map (fun s => s.height) ∧
        states.map (fun s => s.isConfirmed)
          = resp.utxoStates.map (fun s => s.isConfirmed) ∧
        resp.utxoStates.map (fun s => Client.convertToUtxoStateVariant s.state)
          = states.map (fun s => some s.state)) := by
  constructor
  · intro outpoints req h
    unfold Client.validateUtxosRequest at h
    cases hm : outpoints.mapM (fun o => do
        let txid ← fromHexRev o.txid
        pure ({ txid := txid, outIdx := o.outIdx } : Proto.OutPoint)) with
    | none => rw [hm] at h; simp at h
    | some ops =>
      rw [hm] at h
      simp at h
      have hops : req.outpoints = ops := by rw [← h]
      have hf := mapM_option_forall2 _ outpoints ops hm
      have hR : ∀ (o : Client.OutPoint) (po : Proto.OutPoint),
          (do
            let txid ← fromHexRev o.txid
            pure ({ txid := txid, outIdx := o.outIdx } : Proto.OutPoint)) = some po →
          fromHexRev o.txid = some po.txid ∧ po.outIdx = o.outIdx := by
        intro o po hg
        cases hfx : fromHexRev o.txid with
        | none => rw [hfx] at hg; simp at hg
        | some t =>
          rw [hfx] at hg
          simp at hg
          rw [← hg]
          exact ⟨rfl, rfl⟩
      refine ⟨?_, ?_, ?_, ?_⟩
      · rw [hops]
        exact hf.length_eq.symm
      · rw [hops]
        exact (forall2_map_eq hf (fun o => fromHexRev o.txid)
          (fun po => some po.txid) (fun a b hab => (hR a b hab).1)).symm
      · rw [hops]
        exact (forall2_map_eq hf (fun o => o.outIdx) (fun po => po.outIdx)
          (fun a b hab => ((hR a b hab).2).symm)).symm
      · intro hwf
        exact Proto.ValidateUtxoRequest.validateUtxoRequest_roundtrip req hwf
  · intro resp states h
    unfold Client.validateUtxosStates at h
    have hf := mapM_option_forall2 _ resp.utxoStates states h
    have hR : ∀ (s : Proto.UtxoState) (cs : Client.UtxoState),
        (do
          let v ← Client.convertToUtxoStateVariant s.state
          pure ({ height := s.height, isConfirmed := s.isConfirmed, state := v } :
            Client.UtxoState)) = some cs →
        cs.height = s.height ∧ cs.isConfirmed = s.isConfirmed ∧
          Client.convertToUtxoStateVariant s.state = some cs.state := by
      intro s cs hg
      cases hv : Client.convertToUtxoStateVariant s.state with
      | none => rw [hv] at hg; simp at hg
      | some v =>
        rw [hv] at hg
        simp at hg
        rw [← hg]
        exact ⟨rfl, rfl, rfl⟩
    refine ⟨hf.length_eq.symm, ?_, ?_, ?_⟩
    · exact (forall2_map_eq hf (fun s => s.height) (fun cs => cs.height)
        (fun a b hab => ((hR a b hab).1).symm)).symm
    · exact (forall2_map_eq hf (fun s => s.isConfirmed) (fun cs => cs.isConfirmed)
        (fun a b hab => ((hR a b hab).2.1).symm)).symm
    · exact forall2_map_eq hf (fun s => Client.convertToUtxoStateVariant s.state)
        (fun cs => some cs.state) (fun a b hab => (hR a b hab).2.2)

/-- The C4 witness outpoint list: one outpoint with display-hex txid
`0201` (wire bytes `[1, 2]`). -/
def c4Outpoints : List Client.OutPoint := [{ txid := ['0', '2', '0', '1'], outIdx := 3 }]

/-- The request message built from `c4Outpoints`. -/
def c4Req : Proto.ValidateUtxoRequest := { outpoints := [{ txid := [1, 2], outIdx := 3 }] }

/-- C4 witness: the concrete request mapping and encode/decode round trip,
via `c4_validate_utxos_mapping`. -/
theorem c4_witness :
    Client.validateUtxosRequest c4Outpoints = some c4Req ∧
    Proto.ValidateUtxoRequest.decode (Proto.ValidateUtxoRequest.encode c4Req)
      = some c4Req :=
  ⟨by decide,
    ((c4_validate_utxos_mapping).1 c4Outpoints c4Req (by decide)).2.2.2 (by decide)⟩

/-- C2: `Tx.encode` writes its fields at the claimed field numbers (txid 1,
version 2, inputs 3, outputs 4, lockTime 5, token data 6, token error
message 7, block metadata 8, timeFirstSeen 9, network 10, with the
length-delimited/varint wire types), and the enum tables map
`Network` 0,1,2,3 to BCH,XEC,XPI,XRG, token tx type 0,1,2,3 to
GENESIS,SEND,MINT,UNKNOWN_TX_TYPE, and `UtxoStateVariant` 0,1,2,3 to
UNSPENT,SPENT,NO_SUCH_TX,NO_SUCH_OUTPUT. -/
theorem c2_tx_field_numbers_and_enums :
    (∀ m : Proto.Tx, Proto.Tx.wfB m →
      Proto.wireTokens (Proto.Tx.encode m) = some (
        (if m.txid.length ≠ 0 then [(1, 2)] else [])
        ++ (if m.version ≠ 0 then [(2, 0)] else [])
        ++ (m.inputs.map fun _ => ((3 : Nat), (2 : Nat)))
        ++ (m.outputs.map fun _ => ((4 : Nat), (2 : Nat)))
        ++ (if m.lockTime ≠ 0 then [(5, 0)] else [])
        ++ (match m.slpTxData with | none => ([] : List (Nat × Nat)) | some _ => [(6, 2)])
        ++ (if m.slpErrorMsg.length ≠ 0 then [(7, 2)] else [])
        ++ (match m.block with | none => ([] : List (Nat × Nat)) | some _ => [(8, 2)])
        ++ (if m.timeFirstSeen ≠ 0 then [(9, 0)] else [])
        ++ (if m.network ≠ 0 then [(10, 0)] else [])
        ++ ([] : List (Nat × Nat)))) ∧
    (Proto.networkToJSON 0 = "BCH" ∧ Proto.networkToJSON 1 = "XEC" ∧
      Proto.networkToJSON 2 = "XPI" ∧ Proto.networkToJSON 3 = "XRG") ∧
    (Proto.slpTxTypeToJSON 0 = "GENESIS" ∧ Proto.slpTxTypeToJSON 1 = "SEND" ∧
      Proto.slpTxTypeToJSON 2 = "MINT" ∧ Proto.slpTxTypeToJSON 3 = "UNKNOWN_TX_TYPE") ∧
    (Proto.utxoStateVariantToJSON 0 = "UNSPENT" ∧
      Proto.utxoStateVariantToJSON 1 = "SPENT" ∧
      Proto.utxoStateVariantToJSON 2 = "NO_SUCH_TX" ∧
      Proto.utxoStateVariantToJSON 3 = "NO_SUCH_OUTPUT") := by
  refine ⟨?_, by decide, by decide, by decide⟩
  intro m h
  unfold Proto.Tx.wfB at h
  simp only [Bool.and_eq_true, decide_eq_true_eq] at h
  obtain ⟨⟨hbtxid, hltxid⟩, ⟨hversion1, hversion2⟩, hinputs, houtputs, hlockTime,
    hslpTxData, ⟨hbslpErrorMsg, hlslpErrorMsg⟩, hblock, ⟨htfs1, htfs2⟩,
    ⟨hnet1, hnet2⟩⟩ := h
  have hcinputs : ∀ x ∈ m.inputs, (Proto.TxInput.encode x).length < 2 ^ 64 := by
    intro x hx
    rw [List.all_eq_true] at hinputs
    have h2x := hinputs x hx
    simp only [Bool.and_eq_true, decide_eq_true_eq] at h2x
    omega
  have hcoutputs : ∀ x ∈ m.outputs, (Proto.TxOutput.encode x).length < 2 ^ 64 := by
    intro x hx
    rw [List.all_eq_true] at houtputs
    have h2x := houtputs x hx
    simp only [Bool.and_eq_true, decide_eq_true_eq] at h2x
    omega
  have hcslpTxData : ∀ x, m.slpTxData = some x →
      (Proto.SlpTxData.encode x).length < 2 ^ 64 := by
    intro x hx
    rw [hx] at hslpTxData
    simp only [Bool.and_eq_true, decide_eq_true_eq] at hslpTxData
    omega
  have hcblock : ∀ x, m.block = some x →
      (Proto.BlockMetadata.encode x).length < 2 ^ 64 := by
    intro x hx
    rw [hx] at hblock
    simp only [Bool.and_eq_true, decide_eq_true_eq] at hblock
    omega
  conv_lhs => rw [show Proto.Tx.encode m = Proto.Tx.encode m ++ []
    from (List.append_nil _).symm]
  unfold Proto.Tx.encode
  simp only [List.append_assoc]
  rw [Proto.wireTokens_optBytes 10 _ _ (by norm_num) (by norm_num) (by omega),
    Proto.wireTokens_optInt 16 _ _ (by norm_num) (by norm_num),
    Proto.wireTokens_listMsg 26 Proto.TxInput.encode _ _ (by norm_num) (by norm_num) hcinputs,
    Proto.wireTokens_listMsg 34 Proto.TxOutput.encode _ _ (by norm_num) (by norm_num) hcoutputs,
    Proto.wireTokens_optNat 40 _ _ (by norm_num) (by norm_num) (by omega),
    Proto.wireTokens_optMsg 50 Proto.SlpTxData.encode _ _ (by norm_num) (by norm_num) hcslpTxData,
    Proto.wireTokens_optBytes 58 _ _ (by norm_num) (by norm_num) (by omega),
    Proto.wireTokens_optMsg 66 Proto.BlockMetadata.encode _ _ (by norm_num) (by norm_num) hcblock,
    Proto.wireTokens_optInt 72 _ _ (by norm_num) (by norm_num),
    Proto.wireTokens_optInt 80 _ _ (by norm_num) (by norm_num),
    Proto.wireTokens_nil]
  norm_num
  cases m.slpTxData <;> cases m.block <;> simp

/-- The C2 witness transaction: every field populated. -/
def c2Tx : Proto.Tx := c5Input

/-- C2 witness: the token sequence of the fully populated `c2Tx`, via
`c2_tx_field_numbers_and_enums`. -/
theorem c2_witness :
    Proto.wireTokens (Proto.Tx.encode c2Tx) = some
      [(1, 2), (2, 0), (3, 2), (4, 2), (5, 0), (6, 2), (7, 2), (8, 2), (9, 0), (10, 0)] := by
  rw [(c2_tx_field_numbers_and_enums).1 c2Tx (by decide)]
  decide

/-- The `(fieldNumber, wireType)` tokens the generated `Utxo.encode`
emits: fields 1, 2, 3, 5, 6, 7, 9 only, with field 2 a varint (the TS
`blockHeight`), never fields 4 or 8. -/
theorem utxo_encode_tokens (u : Proto.Utxo) (h : Proto.Utxo.wfB u) :
    Proto.wireTokens (Proto.Utxo.encode u) = some (
      (match u.outpoint with | none => ([] : List (Nat × Nat)) | some _ => [(1, 2)])
      ++ (if u.blockHeight ≠ 0 then [(2, 0)] else [])
      ++ (if u.isCoinbase = true then [(3, 0)] else [])
      ++ (if u.value ≠ 0 then [(5, 0)] else [])
      ++ (match u.slpMeta with | none => ([] : List (Nat × Nat)) | some _ => [(6, 2)])
      ++ (match u.slpToken with | none => ([] : List (Nat × Nat)) | some _ => [(7, 2)])
      ++ (if u.network ≠ 0 then [(9, 0)] else [])
      ++ ([] : List (Nat × Nat))) := by
  unfold Proto.Utxo.wfB at h
  simp only [Bool.and_eq_true, decide_eq_true_eq] at h
  obtain ⟨houtpoint, ⟨hbh1, hbh2⟩, ⟨hv1, hv2⟩, hslpMeta, hslpToken, ⟨hn1, hn2⟩⟩ := h
  have hcoutpoint : ∀ x, u.outpoint = some x →
      (Proto.OutPoint.encode x).length < 2 ^ 64 := by
    intro x hx
    rw [hx] at houtpoint
    simp only [Bool.and_eq_true, decide_eq_true_eq] at houtpoint
    omega
  have hcslpMeta : ∀ x, u.slpMeta = some x →
      (Proto.SlpMeta.encode x).length < 2 ^ 64 := by
    intro x hx
    rw [hx] at hslpMeta
    simp only [Bool.and_eq_true, decide_eq_true_eq] at hslpMeta
    omega
  have hcslpToken : ∀ x, u.slpToken = some x →
      (Proto.SlpToken.encode x).length < 2 ^ 64 := by
    intro x hx
    rw [hx] at hslpToken
    simp only [Bool.and_eq_true, decide_eq_true_eq] at hslpToken
    omega
  conv_lhs => rw [show Proto.Utxo.encode u = Proto.Utxo.encode u ++ []
    from (List.append_nil _).symm]
  unfold Proto.Utxo.encode
  simp only [List.append_assoc]
  rw [Proto.wireTokens_optMsg 10 Proto.OutPoint.encode _ _ (by norm_num) (by norm_num)
      hcoutpoint,
    Proto.wireTokens_optInt 16 _ _ (by norm_num) (by norm_num),
    Proto.wireTokens_optBool 24 _ _ (by norm_num) (by norm_num),
    Proto.wireTokens_optInt 40 _ _ (by norm_num) (by norm_num),
    Proto.wireTokens_optMsg 50 Proto.SlpMeta.encode _ _ (by norm_num) (by norm_num)
      hcslpMeta,
    Proto.wireTokens_optMsg 58 Proto.SlpToken.encode _ _ (by norm_num) (by norm_num)
      hcslpToken,
    Proto.wireTokens_optInt 72 _ _ (by norm_num) (by norm_num),
    Proto.wireTokens_nil]
  norm_num
  cases u.outpoint <;> cases u.slpMeta <;> cases u.slpToken <;> simp

/-- The generated `Utxo.decode` drops a length-delimited value at field 4
(the reference schema's `output_script`) through its default `skipType`
branch. -/
theorem utxo_decode_skips_field4 (bs : List Nat) (hbs : bs.length < 2 ^ 64) :
    Proto.Utxo.decode (varint 34 ++ (lenDelim bs ++ [])) = some Proto.Utxo.base := by
  unfold Proto.Utxo.decode
  rw [Proto.Utxo.decodeLoop]
  rw [Proto.varint_isEmpty 34 (lenDelim bs ++ [])]
  rw [readUint32_varint (by norm_num) (lenDelim bs ++ [])]
  dsimp only
  rw [show skipType (34 % 8) (lenDelim bs ++ []) = some [] from by
    unfold skipType
    rw [if_neg (by norm_num), if_neg (by norm_num), if_pos (by norm_num),
      readBytes_lenDelim bs [] hbs]]
  simp [Proto.Utxo.utxo_decodeLoop_nil]

/-- The generated `Utxo.decode` drops a varint value at field 8 (the
reference schema's `time_first_seen`) through its default `skipType`
branch. -/
theorem utxo_decode_skips_field8 (n : Nat) (hn : n < 2 ^ 64) :
    Proto.Utxo.decode (varint 64 ++ (varint n ++ [])) = some Proto.Utxo.base := by
  unfold Proto.Utxo.decode
  rw [Proto.Utxo.decodeLoop]
  rw [Proto.varint_isEmpty 64 (varint n ++ [])]
  rw [readUint32_varint (by norm_num) (varint n ++ [])]
  dsimp only
  rw [show skipType (64 % 8) (varint n ++ []) = some [] from by
    unfold skipType
    rw [if_pos (by norm_num), parseVarint_varint hn []]]
  simp [Proto.Utxo.utxo_decodeLoop_nil]

/-- The C3 concrete fully populated TS `Utxo` value. -/
def c3Utxo : Proto.Utxo :=
  { outpoint := some { txid := [1], outIdx := 0 }, blockHeight := 5,
    isCoinbase := true, value := 7,
    slpMeta := some { tokenType := 1, txType := 1, tokenId := [2], groupTokenId := [3] },
    slpToken := some { amount := 4, isMintBaton := false }, network := 1 }

/-- C3 counterexample: the reference schema declares `Utxo` field 2 as a
length-delimited `BlockMetadata` message and fields 4/8 as
`output_script`/`time_first_seen`, but the TypeScript encoder emits field 2
as a varint and no field 4 or 8 at all, and the TypeScript decoder drops
reference field-4 and field-8 values — the codecs are not wire-compatible
on those fields. -/
theorem c3_counterexample :
    Proto.wireTokens (Proto.Utxo.encode c3Utxo)
      = some [(1, 2), (2, 0), (3, 0), (5, 0), (6, 2), (7, 2), (9, 0)] ∧
    ((2, 2) ∈ refUtxoSchema ∧ (4, 2) ∈ refUtxoSchema ∧ (8, 0) ∈ refUtxoSchema ∧
      (2, 0) ∉ refUtxoSchema ∧
      (∀ tok ∈ [((1 : Nat), (2 : Nat)), (2, 0), (3, 0), (5, 0), (6, 2), (7, 2), (9, 0)],
        tok.1 ≠ 4 ∧ tok.1 ≠ 8)) ∧
    Proto.Utxo.decode (varint 34 ++ (lenDelim [81] ++ [])) = some Proto.Utxo.base ∧
    Proto.Utxo.decode (varint 64 ++ (varint 99 ++ [])) = some Proto.Utxo.base := by
  refine ⟨?_, by decide, utxo_decode_skips_field4 [81] (by decide),
    utxo_decode_skips_field8 99 (by decide)⟩
  rw [utxo_encode_tokens c3Utxo (by decide)]
  decide

/-- C3 (amended): for every well-formed TS `Utxo`, the encoder emits only
fields 1, 2, 3, 5, 6, 7, 9 — matching the reference schema's field numbers
and wire types except field 2, which it writes as a varint `blockHeight`
where the reference declares a length-delimited `BlockMetadata` — and the
decoder skips the reference's fields 4 (`output_script`) and 8
(`time_first_seen`) instead of reading them. -/
theorem c3_ts_utxo_codec_diverges_from_reference (u : Proto.Utxo)
    (h : Proto.Utxo.wfB u) :
    Proto.wireTokens (Proto.Utxo.encode u) = some (
      (match u.outpoint with | none => ([] : List (Nat × Nat)) | some _ => [(1, 2)])
      ++ (if u.blockHeight ≠ 0 then [(2, 0)] else [])
      ++ (if u.isCoinbase = true then [(3, 0)] else [])
      ++ (if u.value ≠ 0 then [(5, 0)] else [])
      ++ (match u.slpMeta with | none => ([] : List (Nat × Nat)) | some _ => [(6, 2)])
      ++ (match u.slpToken with | none => ([] : List (Nat × Nat)) | some _ => [(7, 2)])
      ++ (if u.network ≠ 0 then [(9, 0)] else [])
      ++ ([] : List (Nat × Nat))) ∧
    (∀ bs : List Nat, bs.length < 2 ^ 64 →
      Proto.Utxo.decode (varint 34 ++ (lenDelim bs ++ [])) = some Proto.Utxo.base) ∧
    (∀ n : Nat, n < 2 ^ 64 →
      Proto.Utxo.decode (varint 64 ++ (varint n ++ [])) = some Proto.Utxo.base) ∧
    ((2, 2) ∈ refUtxoSchema ∧ (4, 2) ∈ refUtxoSchema ∧ (8, 0) ∈ refUtxoSchema ∧
      (2, 0) ∉ refUtxoSchema) :=
  ⟨utxo_encode_tokens u h, utxo_decode_skips_field4, utxo_decode_skips_field8,
    by decide⟩

/-- C3 witness: the amended statement applied at the concrete `c3Utxo`,
via `c3_ts_utxo_codec_diverges_from_reference`. -/
theorem c3_witness :
    Proto.Utxo.wfB c3Utxo = true ∧
    Proto.Utxo.decode (varint 34 ++ (lenDelim [82, 83] ++ [])) = some Proto.Utxo.base :=
  ⟨by decide,
    (c3_ts_utxo_codec_diverges_from_reference c3Utxo (by decide)).2.1 [82, 83] (by decide)⟩

end Chronik
